import Mathlib

/-!
# SamWaf: predicate library, geolocation manager, rule helper and detectors

A shallow embedding of `innerbean/rule_func.go` (the rule-language predicate
library), of `iplocation/manager.go`, `iplocation/format.go` and
`iplocation/types.go` (the geolocation manager), of `utils/rulehelper.go` (the
adapter of the rule engine) and of `wafenginecore/checkxss.go` and
`wafenginecore/checkallowip.go` (two detectors), together with the parts of
the Go standard library they call (`net`, `net/netip`, `bytes`, `strings`).
The decision to redirect to HTTPS, whose body is not among these files, is
modelled from the specification.

Conventions of the embedding

* The standard library is the one of Go 1.22 and later, where `net.ParseIP`
  and `net.ParseCIDR` parse with `netip.ParseAddr` (an IPv4 octet with a
  leading zero is rejected, the result of `ParseIP` always has 16 bytes).
* A Go `string` is a Lean `String` (the valid UTF-8 Go strings). `len(s)` is
  `s.utf8ByteSize`. The standard-library scanners below walk `s.data`, the list
  of characters: every byte they test for is ASCII, and the UTF-8 encoding of a
  non-ASCII character contains only bytes `≥ 0x80`, so a scan over characters
  takes the same decisions as Go's scan over bytes.
* A Go `[]byte` / `net.IP` / `net.IPMask` is a `List Nat` of bytes (`< 256`);
  the `nil` slice is `[]` where it is stored and `none` where a function
  returns "nil or a value".
* Loops over a string are structural recursions over its character list; the
  loop variables become parameters.
-/

namespace SamWaf

/-! ## Package `strings` -/

/-- Go `strings.HasPrefix` on character lists. -/
def hasPrefixChars : List Char → List Char → Bool
  | _, [] => true
  | [], _ :: _ => false
  | c :: s, d :: p => c == d && hasPrefixChars s p

/-- Go `strings.Contains` on character lists: `sub` occurs in `s` at some offset. -/
def containsChars : List Char → List Char → Bool
  | [], sub => sub.isEmpty
  | c :: s, sub => hasPrefixChars (c :: s) sub || containsChars s sub

/-- Go `strings.Contains(s, substr)`. -/
def stringsContains (s substr : String) : Bool :=
  containsChars s.data substr.data

/-- Go `len(s)` for a string: the number of bytes. -/
def goLen (s : String) : Nat := s.utf8ByteSize

/-- Go `unicode.IsSpace`: the Latin-1 spaces and the characters with the
Unicode White_Space property. -/
def isSpace (c : Char) : Bool :=
  let n := c.toNat
  n == 0x09 || n == 0x0A || n == 0x0B || n == 0x0C || n == 0x0D || n == 0x20 ||
  n == 0x85 || n == 0xA0 || n == 0x1680 || (decide (0x2000 ≤ n) && decide (n ≤ 0x200A)) ||
  n == 0x2028 || n == 0x2029 || n == 0x202F || n == 0x205F || n == 0x3000

/-- Drops the white space at the end of a character list. -/
def trimRight : List Char → List Char
  | [] => []
  | c :: s =>
    match trimRight s with
    | [] => if isSpace c then [] else [c]
    | t => c :: t

/-- Go `strings.TrimSpace(s)`: leading and trailing white space removed. -/
def TrimSpace (s : String) : String :=
  ⟨trimRight (s.data.dropWhile isSpace)⟩

/-- The pieces of a character list between the occurrences of `sep`. -/
def splitChars (sep : Char) : List Char → List (List Char)
  | [] => [[]]
  | c :: s =>
    if c == sep then [] :: splitChars sep s
    else
      match splitChars sep s with
      | [] => [[c]]
      | h :: r => (c :: h) :: r

/-- Go `strings.Split(s, sep)` for a separator that is one ASCII character
(the only use in the embedded code: `"-"` and `"|"`). -/
def stringsSplit (s : String) (sep : Char) : List String :=
  (splitChars sep s.data).map String.mk

/-! ## Package `bytes` -/

/-- Go `bytes.Compare(a, b)`: `-1`, `0` or `1` by lexicographic order. -/
def bytesCompare : List Nat → List Nat → Int
  | [], [] => 0
  | [], _ :: _ => -1
  | _ :: _, [] => 1
  | x :: a, y :: b =>
    if x < y then -1 else if x > y then 1 else bytesCompare a b

/-- The number a byte sequence writes in base 256, most significant byte
first (the big-endian value of an address). -/
def beValue (b : List Nat) : Nat :=
  b.foldl (fun acc x => acc * 256 + x) 0

/-- The first `n` bits of a 4-byte address, as a number: its big-endian value
without the last `32 - n` bits. -/
def firstBits (n : Nat) (b : List Nat) : Nat :=
  beValue b / 2 ^ (32 - n)

/-! ## Package `net/netip` -/

/-- A parsed address, Go `netip.Addr`: an IPv4 address (4 bytes) or an IPv6
address (16 bytes) with its zone. -/
inductive Addr where
  | v4 (b : List Nat)
  | v6 (b : List Nat) (zone : List Char)
  deriving DecidableEq, Repr

/-- The 12-byte head of an IPv4-mapped IPv6 address, Go `v4InV6Prefix`. -/
def v4InV6Prefix : List Nat := [0, 0, 0, 0, 0, 0, 0, 0, 0, 0, 0xff, 0xff]

/-- Go `Addr.Zone()`. -/
def Addr.Zone : Addr → List Char
  | .v4 _ => []
  | .v6 _ z => z

/-- Go `Addr.As16()`: an IPv4 address becomes its IPv4-mapped IPv6 form. -/
def Addr.As16 : Addr → List Nat
  | .v4 b => v4InV6Prefix ++ b
  | .v6 b _ => b

/-- Go `Addr.BitLen()`. -/
def Addr.BitLen : Addr → Nat
  | .v4 _ => 32
  | .v6 _ _ => 128

/-- The test `s[i] >= '0' && s[i] <= '9'`. -/
def isDigit (c : Char) : Bool := decide (48 ≤ c.toNat) && decide (c.toNat ≤ 57)

/-- The loop of Go `netip.parseIPv4Fields`. `rest` is `s[i:]`, `atStart` is
`i == 0`, `prevDot` is `s[i-1] == '.'`, `fields` holds `fields[0..pos-1]`
(so `pos = fields.length`). The result is the four octets, `none` on error. -/
def parseIPv4Fields.loop :
    List Char → Bool → Bool → Nat → Nat → List Nat → Option (List Nat)
  | [], _, _, val, _, fields =>
    if fields.length < 3 then none else some (fields ++ [val])
  | c :: rest, atStart, prevDot, val, digLen, fields =>
    if isDigit c then
      if digLen == 1 && val == 0 then none
      else
        let val := val * 10 + (c.toNat - 48)
        if val > 255 then none
        else parseIPv4Fields.loop rest false false val (digLen + 1) fields
    else if c == '.' then
      if atStart || rest.isEmpty || prevDot then none
      else if fields.length == 3 then none
      else parseIPv4Fields.loop rest false true 0 0 (fields ++ [val])
    else none

/-- Go `netip.parseIPv4Fields(in, off, end, fields)` on `s = in[off:end]`. -/
def parseIPv4Fields (s : List Char) : Option (List Nat) :=
  parseIPv4Fields.loop s true false 0 0 []

/-- Go `netip.parseIPv4`. -/
def parseIPv4 (s : List Char) : Option Addr :=
  match parseIPv4Fields s with
  | none => none
  | some f => some (Addr.v4 f)

/-- The value of a hexadecimal digit, `none` for any other character. -/
def hexVal (c : Char) : Option Nat :=
  let n := c.toNat
  if 48 ≤ n ∧ n ≤ 57 then some (n - 48)
  else if 97 ≤ n ∧ n ≤ 102 then some (n - 97 + 10)
  else if 65 ≤ n ∧ n ≤ 70 then some (n - 65 + 10)
  else none

/-- The inner loop of Go `netip.parseIPv6` that reads one hexadecimal group:
`rest` is `s[off:]`; the result is `(acc, off)` at the end of the loop, `none`
on "more than 4 digits" or on overflow. -/
def parseIPv6.hex : List Char → Nat → Nat → Option (Nat × Nat)
  | [], off, acc => some (acc, off)
  | c :: rest, off, acc =>
    match hexVal c with
    | none => some (acc, off)
    | some d =>
      let acc := acc * 16 + d
      if off > 3 then none
      else if acc > 0xFFFF then none
      else parseIPv6.hex rest (off + 1) acc

/-- The main loop of Go `netip.parseIPv6`, `for i < 16`. `ip` holds the bytes
`ip[0..i-1]` written so far (`i = ip.length`), `ellipsis` is `none` for `-1`.
Every iteration that continues adds 2 to `i`, so the loop runs at most 8 times;
the first argument counts the iterations left (`i = 16 - 2 * fuel`), and `0`
is the exit by the loop condition. The result is `(s, ip, ellipsis)` at the
exit of the loop, `none` on error. -/
def parseIPv6.loop :
    Nat → List Char → List Nat → Option Nat → Option (List Char × List Nat × Option Nat)
  | 0, s, ip, ellipsis => some (s, ip, ellipsis)
  | fuel + 1, s, ip, ellipsis =>
    match parseIPv6.hex s 0 0 with
    | none => none
    | some (acc, off) =>
      if off == 0 then none
      else if decide (off < s.length) && s.get? off == some '.' then
        if ellipsis.isNone && ip.length != 12 then none
        else if ip.length + 4 > 16 then none
        else
          match parseIPv4Fields s with
          | none => none
          | some f => some ([], ip ++ f, ellipsis)
      else
        let ip := ip ++ [acc / 256 % 256, acc % 256]
        match s.drop off with
        | [] => some ([], ip, ellipsis)
        | c :: s1 =>
          if c != ':' then none
          else
            match s1 with
            | [] => none
            | d :: s2 =>
              if d == ':' then
                if ellipsis.isSome then none
                else if s2.isEmpty then some ([], ip, some ip.length)
                else parseIPv6.loop fuel s2 ip (some ip.length)
              else parseIPv6.loop fuel (d :: s2) ip ellipsis

/-- The end of Go `netip.parseIPv6`, after the loop: the whole string must be
used, and a short address is completed by expanding the ellipsis (the bytes
from `ellipsis` on move to the end, zeros fill the gap). -/
def parseIPv6.finish (zone : List Char) :
    Option (List Char × List Nat × Option Nat) → Option Addr
  | none => none
  | some (s, ip, ellipsis) =>
    if !s.isEmpty then none
    else if ip.length < 16 then
      match ellipsis with
      | none => none
      | some e =>
        some (Addr.v6 (ip.take e ++ List.replicate (16 - ip.length) 0 ++ ip.drop e) zone)
    else if ellipsis.isSome then none
    else some (Addr.v6 ip zone)

/-- Go `netip.parseIPv6` on the part `s` before the zone. -/
def parseIPv6.body (s zone : List Char) : Option Addr :=
  match s with
  | ':' :: ':' :: t =>
    if t.isEmpty then some (Addr.v6 (List.replicate 16 0) zone)
    else parseIPv6.finish zone (parseIPv6.loop 8 t [] (some 0))
  | _ => parseIPv6.finish zone (parseIPv6.loop 8 s [] none)

/-- Go `netip.parseIPv6`: the zone is split off at the first `%` and must not
be empty when it is written. -/
def parseIPv6 (s : List Char) : Option Addr :=
  if s.contains '%' then
    let zone := (s.dropWhile (· != '%')).drop 1
    if zone.isEmpty then none
    else parseIPv6.body (s.takeWhile (· != '%')) zone
  else parseIPv6.body s []

/-- The loop of Go `netip.ParseAddr` over `s[i:]`: the first `.`, `:` or `%`
decides how the whole string `s` is parsed. -/
def ParseAddr.scan (s : List Char) : List Char → Option Addr
  | [] => none
  | c :: rest =>
    if c == '.' then parseIPv4 s
    else if c == ':' then parseIPv6 s
    else if c == '%' then none
    else ParseAddr.scan s rest

/-- Go `netip.ParseAddr`. -/
def ParseAddr (s : List Char) : Option Addr := ParseAddr.scan s s

/-! ## Package `net` -/

/-- Go `net.ParseIP(s)`: the 16-byte form of the address, `none` for `nil`. -/
def ParseIP (s : String) : Option (List Nat) :=
  match ParseAddr s.data with
  | none => none
  | some a => if a.Zone != [] then none else some a.As16

/-- Go `IP.To4()`: the 4-byte form of an IPv4 address, `none` for `nil`. -/
def IP.To4 (ip : List Nat) : Option (List Nat) :=
  if ip.length == 4 then some ip
  else if ip.length == 16 && (ip.take 10).all (· == 0) && ip.get? 10 == some 0xff
      && ip.get? 11 == some 0xff then
    some (ip.drop 12)
  else none

/-- Go `IP.To16()`: the 16-byte form, `[]` for `nil`. -/
def IP.To16 (ip : List Nat) : List Nat :=
  if ip.length == 4 then v4InV6Prefix ++ ip
  else if ip.length == 16 then ip
  else []

/-- Go `IP.Equal(x)`: a 4-byte address and its 16-byte form are the same
address. -/
def IP.Equal (ip x : List Nat) : Bool :=
  if ip.length == x.length then ip == x
  else if ip.length == 4 && x.length == 16 then
    x.take 12 == v4InV6Prefix && ip == x.drop 12
  else if ip.length == 16 && x.length == 4 then
    ip.take 12 == v4InV6Prefix && ip.drop 12 == x
  else false

/-- Go `net.dtoi`: the loop over the leading decimal digits; `rest` is `s[i:]`. -/
def dtoi.loop : List Char → Nat → Nat → Nat × Nat × Bool
  | [], n, i => if i == 0 then (0, 0, false) else (n, i, true)
  | c :: rest, n, i =>
    if isDigit c then
      let n := n * 10 + (c.toNat - 48)
      if n ≥ 0xFFFFFF then (0xFFFFFF, i, false)
      else dtoi.loop rest n (i + 1)
    else if i == 0 then (0, 0, false) else (n, i, true)

/-- Go `net.dtoi(s)`: `(n, i, ok)`. -/
def dtoi (s : List Char) : Nat × Nat × Bool := dtoi.loop s 0 0

/-- Go `net.CIDRMask(ones, bits)`: the loop over the `l` bytes of the mask,
`n` is the number of one bits still to write. -/
def CIDRMask.loop : Nat → Nat → List Nat
  | 0, _ => []
  | l + 1, n =>
    if n ≥ 8 then 0xff :: CIDRMask.loop l (n - 8)
    else (0xff - 0xff / 2 ^ n) :: CIDRMask.loop l 0

/-- Go `net.CIDRMask(ones, bits)`, `[]` for `nil`. -/
def CIDRMask (ones bits : Nat) : List Nat :=
  if bits != 32 && bits != 128 then []
  else if ones > bits then []
  else CIDRMask.loop (bits / 8) ones

/-- Go `IP.Mask(mask)`, `[]` for `nil`. -/
def IP.Mask (ip mask : List Nat) : List Nat :=
  let mask :=
    if mask.length == 16 && ip.length == 4 && (mask.take 12).all (· == 0xff)
    then mask.drop 12 else mask
  let ip :=
    if mask.length == 4 && ip.length == 16 && ip.take 12 == v4InV6Prefix
    then ip.drop 12 else ip
  if ip.length != mask.length then []
  else List.zipWith (· &&& ·) ip mask

/-- Go `net.IPNet`. -/
structure IPNet where
  IP : List Nat
  Mask : List Nat
  deriving DecidableEq, Repr

/-- Go `net.ParseCIDR(s)`: only the network is returned (the code under study
discards the address), `none` on error. -/
def ParseCIDR (s : String) : Option IPNet :=
  if !s.data.contains '/' then none
  else
    let addr := s.data.takeWhile (· != '/')
    let mask := (s.data.dropWhile (· != '/')).drop 1
    match ParseAddr addr with
    | none => none
    | some ipAddr =>
      if ipAddr.Zone != [] then none
      else
        match dtoi mask with
        | (n, i, ok) =>
          if !ok || i != mask.length || n > ipAddr.BitLen then none
          else
            let m := CIDRMask n ipAddr.BitLen
            some { IP := IP.Mask ipAddr.As16 m, Mask := m }

/-- Go `net.networkNumberAndMask(n)`, `none` for `(nil, nil)`. -/
def networkNumberAndMask (n : IPNet) : Option (List Nat × List Nat) :=
  let ip? : Option (List Nat) :=
    match IP.To4 n.IP with
    | some ip => some ip
    | none => if n.IP.length != 16 then none else some n.IP
  match ip? with
  | none => none
  | some ip =>
    if n.Mask.length == 4 then
      if ip.length != 4 then none else some (ip, n.Mask)
    else if n.Mask.length == 16 then
      if ip.length == 4 then some (ip, n.Mask.drop 12) else some (ip, n.Mask)
    else none

/-- The comparison loop of Go `IPNet.Contains`. -/
def IPNet.Contains.loop : List Nat → List Nat → List Nat → Bool
  | x :: nn, y :: m, z :: ip =>
    if x &&& y != z &&& y then false else IPNet.Contains.loop nn m ip
  | _, _, _ => true

/-- Go `IPNet.Contains(ip)`. -/
def IPNet.Contains (n : IPNet) (ip : List Nat) : Bool :=
  let ip := match IP.To4 ip with
    | some x => x
    | none => ip
  match networkNumberAndMask n with
  | none => if ip.length != 0 then false else true
  | some (nn, m) =>
    if ip.length != nn.length then false
    else IPNet.Contains.loop nn m ip

/-! ## `innerbean/rule_func.go`: IP predicates -/

/-- `RuleFunc.IPInRange(ip, startIP, endIP)`. -/
def IPInRange (ip startIP endIP : String) : Bool :=
  match ParseIP ip, ParseIP startIP, ParseIP endIP with
  | some parsedIP, some parsedStart, some parsedEnd =>
    let parsedIP := IP.To16 parsedIP
    let parsedStart := IP.To16 parsedStart
    let parsedEnd := IP.To16 parsedEnd
    decide (bytesCompare parsedIP parsedStart ≥ 0) &&
      decide (bytesCompare parsedIP parsedEnd ≤ 0)
  | _, _, _ => false

/-- `RuleFunc.IPInCIDR(ip, cidr)`. -/
def IPInCIDR (ip cidr : String) : Bool :=
  match ParseIP ip with
  | none => false
  | some parsedIP =>
    match ParseCIDR cidr with
    | none => false
    | some ipNet => ipNet.Contains parsedIP

/-- `RuleFunc.IPInRanges(ip, ranges...)`: the loop over `ranges`. -/
def IPInRanges (ip : String) : List String → Bool
  | [] => false
  | r :: ranges =>
    if stringsContains r "/" then
      if IPInCIDR ip r then true else IPInRanges ip ranges
    else if stringsContains r "-" then
      match stringsSplit r '-' with
      | [p0, p1] =>
        if IPInRange ip (TrimSpace p0) (TrimSpace p1) then true
        else IPInRanges ip ranges
      | _ => IPInRanges ip ranges
    else
      if ip == TrimSpace r then true else IPInRanges ip ranges

/-- `RuleFunc.IPEquals(ip1, ip2)`. -/
def IPEquals (ip1 ip2 : String) : Bool :=
  match ParseIP ip1, ParseIP ip2 with
  | some parsedIP1, some parsedIP2 => IP.Equal parsedIP1 parsedIP2
  | _, _ => ip1 == ip2

/-! ## `innerbean/rule_func.go`: string and utility predicates -/

/-- The loop of `RuleFunc.ContainsAll`: `false` when the loop body returns
`false` early, `true` when the loop runs to its end. -/
def ContainsAll.loop (value : String) : List String → Bool
  | [] => true
  | item :: rest =>
    if !stringsContains value item then false else ContainsAll.loop value rest

/-- `RuleFunc.ContainsAll(value, list...)`. -/
def ContainsAll (value : String) (list : List String) : Bool :=
  if ContainsAll.loop value list then decide (list.length > 0) else false

/-- `RuleFunc.LengthBetween(value, min, max)`; `min` and `max` are `int64`
arguments, `length := int64(len(value))`. -/
def LengthBetween (value : String) (min max : Int) : Bool :=
  let length : Int := (goLen value : Int)
  decide (length ≥ min) && decide (length ≤ max)

/-- Go `strings.ToLower(s)`: every character mapped by `unicode.ToLower`.
The case table of the `unicode` package is the argument `lower`. -/
def stringsToLower (lower : Char → Char) (s : String) : String :=
  ⟨s.data.map lower⟩

/-- `RuleFunc.In(value, list...)`. -/
def In (value : String) : List String → Bool
  | [] => false
  | item :: list => if value == item then true else In value list

/-- The loop of `RuleFunc.InIgnoreCase`, after `valueLower` is computed. -/
def InIgnoreCase.loop (lower : Char → Char) (valueLower : String) : List String → Bool
  | [] => false
  | item :: list =>
    if valueLower == stringsToLower lower item then true
    else InIgnoreCase.loop lower valueLower list

/-- `RuleFunc.InIgnoreCase(value, list...)`. -/
def InIgnoreCase (lower : Char → Char) (value : String) (list : List String) : Bool :=
  let valueLower := stringsToLower lower value
  InIgnoreCase.loop lower valueLower list

/-! ## `iplocation/types.go` and `iplocation/format.go` -/

/-- Go `IPLocationResult`; the zero value has every field `""`. -/
structure IPLocationResult where
  Country : String := ""
  Province : String := ""
  City : String := ""
  ISP : String := ""
  Region : String := ""
  District : String := ""
  deriving DecidableEq, Repr

/-- `IPLocationResult.ToSlice()`. -/
def IPLocationResult.ToSlice (r : IPLocationResult) : List String :=
  [r.Country, r.Region, r.Province, r.City, r.ISP]

/-- Go `type DBFormat string`. -/
abbrev DBFormat := String

/-- Go `type DBSource string`. -/
abbrev DBSource := String

def FormatLegacy : DBFormat := "legacy"
def FormatOpenSource : DBFormat := "opensource"
def FormatFull : DBFormat := "full"
def FormatStandard : DBFormat := "standard"
def FormatCompact : DBFormat := "compact"
def SourceIp2Region : DBSource := "ip2region"
def SourceGeoLite2 : DBSource := "geolite2"

/-- The closure `getField` of `ParseRegion`: the trimmed field at `index`,
`""` when it is absent, blank or `"0"`. -/
def getField (fields : List String) (index : Nat) : String :=
  if index ≥ fields.length then ""
  else
    let val := TrimSpace (fields.getD index "")
    if val == "0" || val == "" then "" else val

/-- The `switch format` of `ParseRegion`, applied to the zero result. -/
def ParseRegion.positional (fields : List String) (format : DBFormat) : IPLocationResult :=
  if format == FormatLegacy then
    { Country := getField fields 0, Region := getField fields 1, Province := getField fields 2,
      City := getField fields 3, ISP := getField fields 4 }
  else if format == FormatOpenSource then
    { Country := getField fields 0, Province := getField fields 1, City := getField fields 2,
      ISP := getField fields 3 }
  else if format == FormatFull then
    { Region := getField fields 0, Country := getField fields 1, Province := getField fields 2,
      City := getField fields 3, District := getField fields 4, ISP := getField fields 5 }
  else if format == FormatStandard then
    { Country := getField fields 0, Province := getField fields 1, City := getField fields 2,
      District := getField fields 3, ISP := getField fields 4 }
  else if format == FormatCompact then
    { Country := getField fields 0, Province := getField fields 1, City := getField fields 2,
      ISP := getField fields 3 }
  else
    { Country := getField fields 0, Region := getField fields 1, Province := getField fields 2,
      City := getField fields 3, ISP := getField fields 4 }

/-- `ParseRegion(region, format)`. -/
def ParseRegion (region : String) (format : DBFormat) : IPLocationResult :=
  if region == "" then {}
  else
    let fields := stringsSplit region '|'
    let result := ParseRegion.positional fields format
    match fields.getLast? with
    | none => result
    | some lastField =>
      if stringsContains lastField "内网IP" then
        { result with Country := "内网", Province := "内网", City := "内网", Region := "", ISP := "" }
      else result

/-- The normalised text of a positional field, stated apart from the code: an
absent field, a field that is blank after trimming, and a field that is `"0"`
after trimming yield `""`; every other field yields its trimmed text. -/
def normalisedField (field : Option String) : String :=
  match field with
  | none => ""
  | some f => if TrimSpace f = "" ∨ TrimSpace f = "0" then "" else TrimSpace f

/-! ## `iplocation/manager.go`

The two database libraries (`xdb` of ip2region, `geoip2`) are outside the
repository. A backend object is represented by what it answers; the two
constructors that validate a byte buffer are fields of `Lib`. -/

/-- An `*xdb.Searcher`: `SearchByStr(ip)` gives the region string, `none` when
it returns an error. -/
structure Searcher where
  SearchByStr : String → Option String

/-- A `*geoip2.Reader`: `Country(ip)` gives the map `record.Country.Names` as
an association list, `none` when it returns an error. -/
structure GeoReader where
  Country : List Nat → Option (List (String × String))

/-- Go map indexing `m[key]` on a `map[string]string`: `""` for an absent key. -/
def mapGet (m : List (String × String)) (key : String) : String :=
  match m.find? (fun kv => kv.1 == key) with
  | some kv => kv.2
  | none => ""

/-- The constructors of the two libraries: `xdb.NewWithBuffer(version, data)`
(`true` for `xdb.IPv4`, `false` for `xdb.IPv6`) and `geoip2.FromBytes(data)`;
`none` when they return an error. -/
structure Lib where
  NewWithBuffer : Bool → List Nat → Option Searcher
  FromBytes : List Nat → Option GeoReader

/-- Go `Manager` without its lock; a `nil` backend pointer is `none`, a
`time.Time` is a number with `0` for the zero time. -/
structure Manager where
  v4Source : DBSource
  v4Format : DBFormat
  v4Searcher : Option Searcher
  v4GeoReader : Option GeoReader
  v4LoadTime : Nat
  v4FileSize : Int
  v4CreateTime : Nat
  v6Source : DBSource
  v6Format : DBFormat
  v6Searcher : Option Searcher
  v6GeoReader : Option GeoReader
  v6LoadTime : Nat
  v6FileSize : Int
  v6CreateTime : Nat

/-- `NewManager()`. -/
def NewManager : Manager :=
  { v4Source := SourceIp2Region, v4Format := FormatLegacy, v4Searcher := none,
    v4GeoReader := none, v4LoadTime := 0, v4FileSize := 0, v4CreateTime := 0,
    v6Source := SourceGeoLite2, v6Format := FormatLegacy, v6Searcher := none,
    v6GeoReader := none, v6LoadTime := 0, v6FileSize := 0, v6CreateTime := 0 }

/-- The ip2region branch shared by `lookupV4` and `lookupV6`, textually the
same in both. -/
def lookupRegion (searcher : Searcher) (format : DBFormat) (ipStr : String) : IPLocationResult :=
  match searcher.SearchByStr ipStr with
  | none => { Country := "查询失败" }
  | some region =>
    if region == "" then { Country := "未知" }
    else ParseRegion region format

/-- `Manager.lookupV4(ipStr)`. -/
def Manager.lookupV4 (m : Manager) (ipStr : String) : IPLocationResult :=
  match (if m.v4Source == SourceIp2Region then m.v4Searcher else none) with
  | some searcher => lookupRegion searcher m.v4Format ipStr
  | none =>
    match (if m.v4Source == SourceGeoLite2 then m.v4GeoReader else none) with
    | some reader =>
      match reader.Country ((ParseIP ipStr).getD []) with
      | none => { Country := "查询失败" }
      | some names =>
        let countryName := mapGet names "zh-CN"
        let countryName := if countryName == "" then mapGet names "en" else countryName
        { Country := countryName }
    | none => { Country := "未配置" }

/-- `Manager.lookupV6(ipStr)`. -/
def Manager.lookupV6 (m : Manager) (ipStr : String) : IPLocationResult :=
  match (if m.v6Source == SourceIp2Region then m.v6Searcher else none) with
  | some searcher => lookupRegion searcher m.v6Format ipStr
  | none =>
    match (if m.v6Source == SourceGeoLite2 then m.v6GeoReader else none) with
    | some reader =>
      match reader.Country ((ParseIP ipStr).getD []) with
      | none => { Country := "查询失败" }
      | some names =>
        let countryName := mapGet names "zh-CN"
        let countryName := if countryName == "" then mapGet names "en" else countryName
        let countryName := if countryName == "" then "内网" else countryName
        { Country := countryName }
    | none => { Country := "未配置" }

/-- `Manager.Lookup(ipStr)`. -/
def Manager.Lookup (m : Manager) (ipStr : String) : IPLocationResult :=
  match ParseIP ipStr with
  | none => { Country := "无效IP" }
  | some ip =>
    if (IP.To4 ip).isSome then m.lookupV4 ipStr else m.lookupV6 ipStr

/-- `Manager.LoadV4Ip2Region(data, format)`: the manager after the call and
the returned error (`none` for `nil`). `t1`, `t2` are the two readings of
`time.Now()`. -/
def Manager.LoadV4Ip2Region (lib : Lib) (t1 t2 : Nat) (m : Manager) (data : List Nat)
    (format : DBFormat) : Manager × Option String :=
  let m := if m.v4Searcher.isSome then { m with v4Searcher := none } else m
  match lib.NewWithBuffer true data with
  | none => (m, some "创建 IPv4 searcher 失败")
  | some searcher =>
    ({ m with v4Searcher := some searcher, v4Source := SourceIp2Region, v4Format := format,
              v4LoadTime := t1, v4FileSize := data.length, v4CreateTime := t2 }, none)

/-- `Manager.LoadV4GeoLite2(data)`. -/
def Manager.LoadV4GeoLite2 (lib : Lib) (t1 t2 : Nat) (m : Manager) (data : List Nat) :
    Manager × Option String :=
  let m := if m.v4GeoReader.isSome then { m with v4GeoReader := none } else m
  match lib.FromBytes data with
  | none => (m, some "创建 IPv4 GeoLite2 reader 失败")
  | some reader =>
    ({ m with v4GeoReader := some reader, v4Source := SourceGeoLite2,
              v4LoadTime := t1, v4FileSize := data.length, v4CreateTime := t2 }, none)

/-- `Manager.LoadV6Ip2Region(data, format)`. -/
def Manager.LoadV6Ip2Region (lib : Lib) (t1 t2 : Nat) (m : Manager) (data : List Nat)
    (format : DBFormat) : Manager × Option String :=
  let m := if m.v6Searcher.isSome then { m with v6Searcher := none } else m
  match lib.NewWithBuffer false data with
  | none => (m, some "创建 IPv6 searcher 失败")
  | some searcher =>
    ({ m with v6Searcher := some searcher, v6Source := SourceIp2Region, v6Format := format,
              v6LoadTime := t1, v6FileSize := data.length, v6CreateTime := t2 }, none)

/-- `Manager.LoadV6GeoLite2(data)`. -/
def Manager.LoadV6GeoLite2 (lib : Lib) (t1 t2 : Nat) (m : Manager) (data : List Nat) :
    Manager × Option String :=
  let m := if m.v6GeoReader.isSome then { m with v6GeoReader := none } else m
  match lib.FromBytes data with
  | none => (m, some "创建 IPv6 GeoLite2 reader 失败")
  | some reader =>
    ({ m with v6GeoReader := some reader, v6Source := SourceGeoLite2,
              v6LoadTime := t1, v6FileSize := data.length, v6CreateTime := t2 }, none)

/-- `Manager.Close()`: the manager after the call. -/
def Manager.Close (m : Manager) : Manager :=
  let m := if m.v4Searcher.isSome then { m with v4Searcher := none } else m
  let m := if m.v4GeoReader.isSome then { m with v4GeoReader := none } else m
  let m := if m.v6Searcher.isSome then { m with v6Searcher := none } else m
  let m := if m.v6GeoReader.isSome then { m with v6GeoReader := none } else m
  m

/-! ## Sample values used to evaluate the manager -/

/-- A searcher that answers one region string for every address. -/
def sampleSearcher : Searcher :=
  { SearchByStr := fun _ => some "中国|0|浙江省|杭州市|电信" }

/-- A reader that answers one country record for every address. -/
def sampleReader : GeoReader :=
  { Country := fun _ => some [("en", "China"), ("zh-CN", "中国")] }

/-- A library that rejects the empty buffer and accepts every other one. -/
def sampleLib : Lib :=
  { NewWithBuffer := fun _ data => if data.isEmpty then none else some sampleSearcher
    FromBytes := fun data => if data.isEmpty then none else some sampleReader }

/-- A manager whose four backends are loaded, IPv4 served by the region index
and IPv6 by the geo-database. -/
def sampleManager : Manager :=
  { NewManager with
    v4Searcher := some sampleSearcher, v4GeoReader := some sampleReader,
    v6Searcher := some sampleSearcher, v6GeoReader := some sampleReader }

/-! ## `utils/rulehelper.go`

The rule engine (grule) is outside the repository. Its data is represented by
the fields the embedded code reads; its parser, its evaluator and the methods
of its knowledge library are represented by what a call answers, a call that
panics included. -/

/-- The result of a call into the library: a value, or a panic. -/
inductive Outcome (α : Type) where
  | ok (a : α)
  | panic
  deriving DecidableEq, Repr

/-- Go `model.Rules`: the fields the rule helper and its tests name. -/
structure Rules where
  RuleCode : String := ""
  RuleName : String := ""
  RuleContent : String := ""
  RuleStatus : Int := 0
  deriving DecidableEq, Repr

/-- Go `innerbean.WebLog`, the fact of a rule evaluation: the fields that the
rule helper and the detectors name. -/
structure WebLog where
  SRC_IP : String := ""
  NetSrcIp : String := ""
  URL : String := ""
  POST_FORM : String := ""
  RISK_LEVEL : Int := 0
  deriving DecidableEq, Repr

/-- Go `innerbean.WAF_REQUEST_FULL`, the fact of `Exec`: the fields that the
rule text quoted in `LoadRules` names. -/
structure WAF_REQUEST_FULL where
  SRC_INFO : WebLog := {}
  ExecResult : Int := 0
  deriving DecidableEq, Repr

/-- An `*ast.RuleEntry`: its name and its mark `Deleted`. -/
structure RuleEntry where
  RuleName : String
  Deleted : Bool := false
  deriving DecidableEq, Repr

/-- An `*ast.KnowledgeBase`: its name, its version and its map `RuleEntries`
from rule key to rule entry, as an association list. -/
structure KnowledgeBase where
  Name : String
  Version : String
  RuleEntries : List (String × RuleEntry)
  deriving DecidableEq, Repr

/-- An `*ast.KnowledgeLibrary`: its map `Library` from the key `name:version`
to the knowledge base, as an association list. -/
structure KnowledgeLibrary where
  Library : List (String × KnowledgeBase)
  deriving DecidableEq, Repr

/-- The key of a knowledge base in the library, `fmt.Sprintf("%s:%s", name, version)`. -/
def libraryKey (name version : String) : String :=
  name ++ ":" ++ version

/-- The methods of the package `ast` of the rule engine that the rule helper
calls on a knowledge library. The package is outside the repository, so what
a call does is an argument of the embedded functions.
`RemoveRuleEntry(ruleName, name, version)` gives the library after the call.
`NewKnowledgeBaseInstance(name, version)` gives a clone of the knowledge base
stored under `name:version`, `none` (nil) when there is none, or it panics (on
what a failed build left in the library, say). -/
structure Ast where
  RemoveRuleEntry : KnowledgeLibrary → String → String → String → KnowledgeLibrary
  NewKnowledgeBaseInstance : KnowledgeLibrary → String → String → Outcome (Option KnowledgeBase)

/-- An `ast.IDataContext`: the facts added, by name. -/
abbrev DataContext := List (String × WebLog)

/-- Go `ast.NewDataContext()`. -/
def NewDataContext : DataContext := []

/-- Go `DataContext.Add(key, obj)` for an `obj` of type `*WebLog`: a nil
pointer is refused with an error, a fact is stored under `key`. -/
def DataContext.Add (ctx : DataContext) (key : String) (obj : Option WebLog) :
    DataContext × Option String :=
  match obj with
  | none => (ctx, some "you can only insert a pointer to struct as fact")
  | some fact => ((key, fact) :: ctx.filter (fun kv => kv.1 != key), none)

/-- A `*builder.RuleBuilder`: what `BuildRuleFromResource(name, version,
resource)` does to the knowledge library it was made for, given the text of
the resource. It leaves a library, and returns an error (`none` for nil) or
panics. -/
structure RuleBuilder where
  BuildRuleFromResource :
    KnowledgeLibrary → String → String → String → KnowledgeLibrary × Outcome (Option String)

/-- A `*engine.GruleEngine`: what `Execute` and `FetchMatchingRules` answer
for a data context and a knowledge base (`none` for a nil pointer): the
returned values, or a panic. The data context of `Execute` holds the facts of
`Exec`, the one of `FetchMatchingRules` the facts of `Match`. -/
structure GruleEngine where
  Execute : List (String × WAF_REQUEST_FULL) → Option KnowledgeBase → Outcome (Option String)
  FetchMatchingRules :
    DataContext → Option KnowledgeBase → Outcome (List RuleEntry × Option String)

/-- Go `RuleHelper`. `knowledgeLibrary` is `none` for the nil pointer of a
helper on which `InitRuleEngine` was not called; `InitRuleEngine` makes the
builder for the library of the helper, so the builder acts on
`knowledgeLibrary`. -/
structure RuleHelper where
  engine : GruleEngine
  KnowledgeBase : Option KnowledgeBase
  knowledgeLibrary : Option KnowledgeLibrary
  ruleBuilder : RuleBuilder

/-- The first loop of `LoadRules` ("清除之前的规则"): for every knowledge base
of the library and every rule key of it, `RemoveRuleEntry(ruleKey, value.Name,
value.Version)`. The two `range` clauses visit the knowledge bases and the
rule keys that the maps hold when the loop starts, in the order of the
association lists. -/
def clearRuleEntries (ast : Ast) (lib : KnowledgeLibrary) : KnowledgeLibrary :=
  lib.Library.foldl
    (fun st kv =>
      kv.2.RuleEntries.foldl
        (fun st e => ast.RemoveRuleEntry st e.1 kv.2.Name kv.2.Version) st)
    lib

/-- The second loop of `LoadRules`: `rulestr = rulestr + v.RuleContent + " \n"`. -/
def concatRules (ruleconfig : List Rules) : String :=
  ruleconfig.foldl (fun rulestr v => rulestr ++ v.RuleContent ++ " \n") ""

/-- `RuleHelper.LoadRules(ruleconfig)`: the helper after the call and the
returned text. A panic (of the nil library, of the builder, or of
`NewKnowledgeBaseInstance`) is recovered by the deferred function; the call
then returns the zero value `""`, and the assignment to `KnowledgeBase` has
not been made when the panic came before it. The error of the builder is only
logged. -/
def RuleHelper.LoadRules (ast : Ast) (h : RuleHelper) (ruleconfig : List Rules) :
    RuleHelper × String :=
  match h.knowledgeLibrary with
  | none => (h, "")
  | some lib =>
    let lib := clearRuleEntries ast lib
    let rulestr := concatRules ruleconfig
    match h.ruleBuilder.BuildRuleFromResource lib "Region" "0.0.1" rulestr with
    | (lib, Outcome.panic) => ({ h with knowledgeLibrary := some lib }, "")
    | (lib, Outcome.ok _) =>
      match ast.NewKnowledgeBaseInstance lib "Region" "0.0.1" with
      | Outcome.panic => ({ h with knowledgeLibrary := some lib }, "")
      | Outcome.ok knowledgeBase =>
        ({ h with knowledgeLibrary := some lib, KnowledgeBase := knowledgeBase }, rulestr)

/-- `RuleHelper.Match(key, ruleinfo)`: the matched rules (`[]` for nil) and
the error (`none` for nil). A panic is recovered by the deferred function, and
the call then returns the zero values. -/
def RuleHelper.Match (h : RuleHelper) (key : String) (ruleinfo : Option WebLog) :
    List RuleEntry × Option String :=
  let dataCtx := (NewDataContext.Add key ruleinfo).1
  match h.KnowledgeBase with
  | none => ([], some "没有规则数据")
  | some kb =>
    match h.engine.FetchMatchingRules dataCtx (some kb) with
    | Outcome.panic => ([], none)
    | Outcome.ok r => r

/-- `RuleHelper.Exec(key, ruleinfo)`: the returned error (`none` for nil). The
function has no deferred `recover`: a panic of `engine.Execute` is the outcome
of the call. The error of `dataCtx.Add` is not read. -/
def RuleHelper.Exec (h : RuleHelper) (key : String) (ruleinfo : Option WAF_REQUEST_FULL) :
    Outcome (Option String) :=
  let dataCtx : List (String × WAF_REQUEST_FULL) :=
    match ruleinfo with
    | none => []
    | some fact => [(key, fact)]
  match h.engine.Execute dataCtx h.KnowledgeBase with
  | Outcome.panic => Outcome.panic
  | Outcome.ok err => Outcome.ok err

/-- `RuleHelper.CheckRuleAvailable(ruleText)`: the returned error (`none` for
nil). `newBuilder` and `newEngine` are what `builder.NewRuleBuilder` and
`engine.NewGruleEngine` give; the builder acts on the new, empty library. The
function has no deferred `recover`: a panic of the builder, of
`NewKnowledgeBaseInstance` or of the engine is the outcome of the call. -/
def RuleHelper.CheckRuleAvailable (ast : Ast) (newBuilder : RuleBuilder)
    (newEngine : GruleEngine) (ruleText : String) : Outcome (Option String) :=
  let myFact : WebLog := { SRC_IP := "127.0.0.1" }
  match NewDataContext.Add "MF" (some myFact) with
  | (_, some err) => Outcome.ok (some err)
  | (dataCtx, none) =>
    let knowledgeLibrary : KnowledgeLibrary := { Library := [] }
    match newBuilder.BuildRuleFromResource knowledgeLibrary "CheckRule" "0.0.1" ruleText with
    | (_, Outcome.panic) => Outcome.panic
    | (_, Outcome.ok (some err)) => Outcome.ok (some err)
    | (knowledgeLibrary, Outcome.ok none) =>
      match ast.NewKnowledgeBaseInstance knowledgeLibrary "CheckRule" "0.0.1" with
      | Outcome.panic => Outcome.panic
      | Outcome.ok knowledgeBase =>
        match newEngine.FetchMatchingRules dataCtx knowledgeBase with
        | Outcome.panic => Outcome.panic
        | Outcome.ok (_, some err) => Outcome.ok (some err)
        | Outcome.ok (_, none) => Outcome.ok none

/-! ## Sample values used to evaluate the rule helper -/

/-- A sample of the package `ast`: `RemoveRuleEntry` leaves the rule entry in
the map, marks it as deleted and renames it (to `Deleted_` and its name here);
`NewKnowledgeBaseInstance` copies the knowledge base. -/
def sampleAst : Ast :=
  { RemoveRuleEntry := fun lib ruleName name version =>
      { Library := lib.Library.map fun kv =>
          if kv.1 == libraryKey name version then
            (kv.1, { kv.2 with RuleEntries := kv.2.RuleEntries.map fun e =>
              if e.1 == ruleName then
                (e.1, { RuleName := "Deleted_" ++ e.2.RuleName, Deleted := true })
              else e })
          else kv }
    NewKnowledgeBaseInstance := fun lib name version =>
      match lib.Library.find? (fun kv => kv.1 == libraryKey name version) with
      | some kv => Outcome.ok (some kv.2)
      | none => Outcome.ok none }

/-- A sample of the package `ast` in which the creation of an instance
panics. -/
def panickingAst : Ast :=
  { RemoveRuleEntry := sampleAst.RemoveRuleEntry
    NewKnowledgeBaseInstance := fun _ _ _ => Outcome.panic }

/-- A rule text in the rule language, of the form of the rule in
`TestUserRule_IPInRanges`. -/
def sampleRuleA : String :=
  "rule BlockA \"block a\" salience 10 \x7b when MF.SRC_IP == \"1.1.1.1\" then Retract(\"BlockA\"); \x7d"

/-- A second rule text, for another address. -/
def sampleRuleB : String :=
  "rule BlockB \"block b\" salience 10 \x7b when MF.SRC_IP == \"2.2.2.2\" then Retract(\"BlockB\"); \x7d"

/-- A builder that accepts a text exactly when it starts with `rule`: it then
stores one rule entry named by the text under `name:version`; it reports an
error otherwise and leaves the library as it is. -/
def sampleBuilder : RuleBuilder :=
  { BuildRuleFromResource := fun lib name version text =>
      if hasPrefixChars text.data "rule".data then
        ({ Library := (libraryKey name version,
              { Name := name, Version := version, RuleEntries := [(text, { RuleName := text })] })
            :: lib.Library.filter (fun kv => kv.1 != libraryKey name version) },
         Outcome.ok none)
      else (lib, Outcome.ok (some "GRL syntax error")) }

/-- An engine that matches every rule entry of the knowledge base. -/
def sampleEngine : GruleEngine :=
  { Execute := fun _ _ => Outcome.ok none
    FetchMatchingRules := fun _ kb =>
      match kb with
      | some kb => Outcome.ok (kb.RuleEntries.map (fun e => e.2), none)
      | none => Outcome.ok ([], some "knowledge base is nil") }

/-- An engine in which the evaluation of a rule body panics (a rule that
calls a method on a nil value of the fact, say). -/
def panickingEngine : GruleEngine :=
  { Execute := fun _ _ => Outcome.panic
    FetchMatchingRules := fun _ _ => Outcome.panic }

/-- A builder in which the build of every text panics. -/
def panickingBuilder : RuleBuilder :=
  { BuildRuleFromResource := fun lib _ _ _ => (lib, Outcome.panic) }

/-- A helper after `InitRuleEngine`: an empty library, no knowledge base. -/
def initialisedHelper : RuleHelper :=
  { engine := sampleEngine
    KnowledgeBase := none
    knowledgeLibrary := some { Library := [] }
    ruleBuilder := sampleBuilder }

/-- A helper in which one rule `R1` is loaded. -/
def sampleHelper : RuleHelper :=
  { engine := sampleEngine
    KnowledgeBase := some { Name := "Region", Version := "0.0.1",
                            RuleEntries := [("R1", { RuleName := "R1" })] }
    knowledgeLibrary := some { Library := [("Region:0.0.1",
      { Name := "Region", Version := "0.0.1", RuleEntries := [("R1", { RuleName := "R1" })] })] }
    ruleBuilder := sampleBuilder }

/-! ## `wafenginecore/checkxss.go` and `wafenginecore/checkallowip.go`

The XSS analyzer (`libinjection.IsXSS`), the CIDR test (`utils.CheckIPInCIDR`)
and the derivation of the client address (`model.GetClientIPByMode`) are
arguments of the detectors. -/

/-- Go `detection.Result`: the fields that the two detectors set. -/
structure DetectionResult where
  JumpGuardResult : Bool := false
  IsBlock : Bool := false
  Title : String := ""
  Content : String := ""
  deriving DecidableEq, Repr

/-- The loop of `CheckXss` over the values of the form: the analyzer is asked
about every value, and the assignment `xssFlag = true` in the body is
commented out, so the flag is what it was. -/
def CheckXss.scanForm (IsXSS : String → Bool) (xssFlag : Bool) :
    List (String × List String) → Bool
  | [] => xssFlag
  | (_, values) :: rest =>
    CheckXss.scanForm IsXSS (values.foldl (fun flag v => if IsXSS v then flag else flag) xssFlag)
      rest

/-- `WafEngine.CheckXss(weblogbean, formValue)`: the fact after the call and
the result. -/
def CheckXss (IsXSS : String → Bool) (weblogbean : WebLog)
    (formValue : List (String × List String)) : WebLog × DetectionResult :=
  let result : DetectionResult :=
    { JumpGuardResult := false, IsBlock := false, Title := "", Content := "" }
  let xssFlag := IsXSS weblogbean.URL || IsXSS weblogbean.POST_FORM
  let xssFlag := if xssFlag == false then CheckXss.scanForm IsXSS xssFlag formValue else xssFlag
  if xssFlag == true then
    ({ weblogbean with RISK_LEVEL := 2 },
     { result with IsBlock := true, Title := "XSS跨站注入", Content := "请正确访问" })
  else (weblogbean, result)

/-- Go `model.Hosts`: the fields that `CheckAllowIP` reads. -/
structure Hosts where
  IPMode : String := ""
  GUARD_STATUS : Int := 0
  deriving DecidableEq, Repr

/-- Go `model.IPAllowList`: the field that `CheckAllowIP` reads. -/
structure IPAllowList where
  Ip : String
  deriving DecidableEq, Repr

/-- Go `wafenginmodel.HostSafe`: the fields that `CheckAllowIP` reads; a nil
slice `IPWhiteLists` is `none`. -/
structure HostSafe where
  Host : Hosts := {}
  IPWhiteLists : Option (List IPAllowList) := none
  deriving DecidableEq, Repr

/-- Go `WafEngine`: the map `HostTarget` from host name to `*HostSafe`, as an
association list. -/
structure WafEngine where
  HostTarget : List (String × HostSafe)
  deriving DecidableEq, Repr

/-- Go map indexing `waf.HostTarget[name]`: `none` (the nil pointer) for an
absent key. -/
def WafEngine.hostTarget (waf : WafEngine) (name : String) : Option HostSafe :=
  match waf.HostTarget.find? (fun kv => kv.1 == name) with
  | some kv => some kv.2
  | none => none

/-- The two loops of `CheckAllowIP` over an allow-list: `true` when the loop
body reaches `break`. -/
def CheckAllowIP.scan (CheckIPInCIDR : String → String → Bool) (clientIp : String) :
    List IPAllowList → Bool
  | [] => false
  | entry :: rest =>
    if CheckIPInCIDR clientIp entry.Ip then true
    else CheckAllowIP.scan CheckIPInCIDR clientIp rest

/-- `WafEngine.CheckAllowIP(r, weblogbean, formValue, hostTarget,
globalHostTarget)`; `r` and `formValue` are not read and are left out,
`globalHostTarget` is not read either: the global host is taken from
`waf.HostTarget[global.GWAF_GLOBAL_HOST_NAME]`, and the call panics when the
map has no such entry. The name `GWAF_GLOBAL_HOST_NAME` is an argument. -/
def CheckAllowIP (CheckIPInCIDR : String → String → Bool)
    (GetClientIPByMode : String → String → String → String) (GWAF_GLOBAL_HOST_NAME : String)
    (waf : WafEngine) (weblogbean : WebLog) (hostTarget : HostSafe)
    (_globalHostTarget : HostSafe) : Outcome DetectionResult :=
  let result : DetectionResult :=
    { JumpGuardResult := false, IsBlock := false, Title := "", Content := "" }
  let clientIp := GetClientIPByMode hostTarget.Host.IPMode weblogbean.NetSrcIp weblogbean.SRC_IP
  let result :=
    match hostTarget.IPWhiteLists with
    | some list =>
      if CheckAllowIP.scan CheckIPInCIDR clientIp list then { result with JumpGuardResult := true }
      else result
    | none => result
  match waf.hostTarget GWAF_GLOBAL_HOST_NAME with
  | none => Outcome.panic
  | some globalHost =>
    if globalHost.Host.GUARD_STATUS == 1 && globalHost.IPWhiteLists.isSome then
      let globalClientIp :=
        GetClientIPByMode globalHost.Host.IPMode weblogbean.NetSrcIp weblogbean.SRC_IP
      if CheckAllowIP.scan CheckIPInCIDR globalClientIp (globalHost.IPWhiteLists.getD []) then
        Outcome.ok { result with JumpGuardResult := true }
      else Outcome.ok result
    else Outcome.ok result

/-- A host with the allow-list `10.0.0.0/8`. -/
def sampleHost : HostSafe :=
  { Host := { IPMode := "nic", GUARD_STATUS := 1 }, IPWhiteLists := some [{ Ip := "10.0.0.0/8" }] }

/-- The global host, guard enabled, with the allow-list `192.168.0.0/16`. -/
def sampleGlobalHost : HostSafe :=
  { Host := { IPMode := "nic", GUARD_STATUS := 1 },
    IPWhiteLists := some [{ Ip := "192.168.0.0/16" }] }

/-- An engine that knows the global host under the name "全局网站:0". -/
def sampleWaf : WafEngine :=
  { HostTarget := [("全局网站:0", sampleGlobalHost)] }

/-- A derivation of the client address that takes the network address in the
mode "nic" and the logged address in every other mode. -/
def sampleClientIP (mode netSrcIp srcIp : String) : String :=
  if mode == "nic" then netSrcIp else srcIp

/-! ## `wafenginecore`: the decision to redirect to HTTPS

The body of `shouldAutoJumpHTTPS` is not among the embedded sources; its tests
(`TestShouldAutoJumpHTTPS`, `TestShouldAutoJumpHTTPS_Comprehensive`) are. -/

/-- The value that the tests give to `global.GSSL_HTTP_CHANGLE_PATH`, the
prefix of the paths of an ACME challenge. -/
def GSSL_HTTP_CHANGLE_PATH : String := "/.well-known/acme-challenge/"

/-- Go `strings.HasSuffix` on character lists. -/
def hasSuffixChars (s suffix : List Char) : Bool :=
  s.drop (s.length - suffix.length) == suffix

/-- Modelled from the spec: the wildcard rule of the host matching of
`shouldAutoJumpHTTPS`, whose body is missing. "If `configuredHost` has a `*.`
wildcard prefix, the request host must have the wildcard's suffix domain as a
strict parent (one or more additional labels before it)": the host ends with
`.` followed by the suffix, and something stands before that `.`. -/
def wildcardMatch (host configHost : List Char) : Bool :=
  match configHost with
  | '*' :: '.' :: suffix =>
    decide (host.length > suffix.length + 1) && hasSuffixChars host ('.' :: suffix)
  | _ => false

/-- Modelled from the spec: `shouldAutoJumpHTTPS(requestHost, configHost,
requestURL, autoJumpHTTPS, ssl)`, whose body is missing. Both flags are truthy
(not 0), the path is not under the ACME-challenge prefix, the port (the text
after the first `:` of the request host) is present and is not 443; the
request host, with or without its port, is the configured host, or matches it
by the wildcard rule. The domain returned on success is the request host with
the port stripped, and `""` when there is no redirect (as in the tests). -/
def shouldAutoJumpHTTPS (requestHost configHost requestURL : String) (autoJumpHTTPS ssl : Int) :
    Bool × String :=
  if autoJumpHTTPS == 0 || ssl == 0 then (false, "")
  else if hasPrefixChars requestURL.data GSSL_HTTP_CHANGLE_PATH.data then (false, "")
  else
    let host := requestHost.data.takeWhile (· != ':')
    match requestHost.data.dropWhile (· != ':') with
    | [] => (false, "")
    | _ :: port =>
      if port == [] || port == "443".data then (false, "")
      else if requestHost == configHost || String.mk host == configHost ||
          wildcardMatch host configHost.data then (true, String.mk host)
      else (false, "")

/-! ## Facts about the `strings` helpers -/

theorem hasPrefixChars_iff (s p : List Char) : hasPrefixChars s p = true ↔ p <+: s := by
  induction s generalizing p with
  | nil => cases p <;> simp [hasPrefixChars]
  | cons c s ih =>
    cases p with
    | nil => simp [hasPrefixChars]
    | cons d p =>
      simp only [hasPrefixChars, Bool.and_eq_true, beq_iff_eq, ih, List.cons_prefix_cons]
      constructor
      · rintro ⟨h, hp⟩; exact ⟨h.symm, hp⟩
      · rintro ⟨h, hp⟩; exact ⟨h.symm, hp⟩

theorem containsChars_iff (s sub : List Char) : containsChars s sub = true ↔ sub <:+: s := by
  induction s with
  | nil => simp [containsChars, List.isEmpty_iff]
  | cons c s ih =>
    simp only [containsChars, Bool.or_eq_true, hasPrefixChars_iff, ih, List.infix_cons_iff]

theorem ContainsAll_loop_iff (value : String) (list : List String) :
    ContainsAll.loop value list = true ↔ ∀ item ∈ list, item.data <:+: value.data := by
  induction list with
  | nil => simp [ContainsAll.loop]
  | cons item rest ih =>
    simp only [ContainsAll.loop, List.mem_cons, forall_eq_or_imp]
    by_cases h : stringsContains value item = true
    · have h2 := (containsChars_iff _ _).1 h
      simp [h, ih, h2]
    · have h2 : ¬ item.data <:+: value.data := fun hh => h ((containsChars_iff _ _).2 hh)
      simp [h, h2]

/-- C9: `ContainsAll(value, list)` is false when `list` is empty, and for a
non-empty list it is true exactly when every item of the list occurs in
`value` as a contiguous substring. -/
theorem ContainsAll_spec (value : String) :
    ContainsAll value [] = false ∧
    ∀ (x : String) (xs : List String),
      (ContainsAll value (x :: xs) = true ↔ ∀ item ∈ x :: xs, item.data <:+: value.data) := by
  refine ⟨by simp [ContainsAll, ContainsAll.loop], ?_⟩
  intro x xs
  rw [← ContainsAll_loop_iff]
  simp [ContainsAll]

/-- C10, the claim as written fails: the one-character string `"内"` has
three bytes, so `LengthBetween("内", 1, 1)` is false although its character
count lies between 1 and 1. -/
theorem LengthBetween_counts_bytes_not_chars :
    ¬ (LengthBetween "内" 1 1 = true ↔
        ((1 : Int) ≤ ("内".length : Int) ∧ ("内".length : Int) ≤ 1)) := by
  decide

/-- C10, amended: `LengthBetween(value, min, max)` is true exactly when
`min ≤ n ≤ max` for `n` the number of bytes of the UTF-8 encoding of `value`,
both bounds inclusive. -/
theorem LengthBetween_bytes (value : String) (min max : Int) :
    LengthBetween value min max = true ↔
      (min ≤ (value.toUTF8.size : Int) ∧ (value.toUTF8.size : Int) ≤ max) := by
  simp [LengthBetween, goLen, String.size_toUTF8]

/-! ## `IPInRange`, `IPInCIDR`, `IPInRanges`: structure -/

/-- What one spec of `IPInRanges` does on its own: the body of the loop. -/
theorem IPInRanges_cons (ip r : String) (ranges : List String) :
    IPInRanges ip (r :: ranges) = (IPInRanges ip [r] || IPInRanges ip ranges) := by
  simp only [IPInRanges]
  split
  · split <;> simp
  · split
    · split
      · split <;> simp
      · simp
    · split <;> simp

theorem IPInRanges_append (ip : String) (xs ys : List String) :
    IPInRanges ip (xs ++ ys) = (IPInRanges ip xs || IPInRanges ip ys) := by
  induction xs with
  | nil => simp [IPInRanges]
  | cons r xs ih =>
    rw [List.cons_append, IPInRanges_cons, ih, IPInRanges_cons ip r xs, Bool.or_assoc]

theorem IPInRanges_iff_exists (ip : String) (xs : List String) :
    IPInRanges ip xs = true ↔ ∃ r ∈ xs, IPInRanges ip [r] = true := by
  induction xs with
  | nil => simp [IPInRanges]
  | cons r xs ih =>
    rw [IPInRanges_cons, Bool.or_eq_true, ih]
    simp

theorem IPInRange_unparsable_ip (ip startIP endIP : String) (h : ParseIP ip = none) :
    IPInRange ip startIP endIP = false := by
  simp [IPInRange, h]

theorem IPInCIDR_unparsable_ip (ip cidr : String) (h : ParseIP ip = none) :
    IPInCIDR ip cidr = false := by
  simp [IPInCIDR, h]

theorem IPInRanges_single_unparsable (ip r : String) (h : ParseIP ip = none) :
    IPInRanges ip [r] = true ↔
      stringsContains r "/" = false ∧ stringsContains r "-" = false ∧ ip = TrimSpace r := by
  simp only [IPInRanges, IPInCIDR_unparsable_ip ip r h, IPInRange_unparsable_ip ip _ _ h]
  split
  · simp [*]
  · split
    · split <;> simp [*]
    · simp [*]

/-- C3, the claim as written fails: `"invalid"` is not a parsable IP address,
yet `IPInRanges("invalid", "invalid")` is true, by the exact-literal branch. -/
theorem IPInRanges_unparsable_literal_matches :
    ParseIP "invalid" = none ∧ IPInRanges "invalid" ["invalid"] = true := by
  decide

/-- C3, amended: for an `ip` that is not a parsable IP address, `IPInRanges`
is true exactly when some spec is an exact literal (no `/`, no `-`) whose
trimmed text is the string `ip` itself; CIDR and range specs never match it. -/
theorem IPInRanges_unparsable (ip : String) (specs : List String) (h : ParseIP ip = none) :
    (IPInRanges ip specs = true ↔
      ∃ r ∈ specs, stringsContains r "/" = false ∧ stringsContains r "-" = false ∧
        ip = TrimSpace r) ∧
    ((∀ r ∈ specs, stringsContains r "/" = true ∨ stringsContains r "-" = true) →
      IPInRanges ip specs = false) := by
  have key : IPInRanges ip specs = true ↔
      ∃ r ∈ specs, stringsContains r "/" = false ∧ stringsContains r "-" = false ∧
        ip = TrimSpace r := by
    rw [IPInRanges_iff_exists]
    constructor
    · rintro ⟨r, hr, hm⟩
      exact ⟨r, hr, (IPInRanges_single_unparsable ip r h).1 hm⟩
    · rintro ⟨r, hr, h1, h2, h3⟩
      exact ⟨r, hr, (IPInRanges_single_unparsable ip r h).2 ⟨h1, h2, h3⟩⟩
  refine ⟨key, fun hall => ?_⟩
  rw [← Bool.not_eq_true, key]
  rintro ⟨r, hr, h1, h2, -⟩
  rcases hall r hr with h' | h'
  · rw [h1] at h'; exact Bool.noConfusion h'
  · rw [h2] at h'; exact Bool.noConfusion h'

theorem IPInRanges_unparsable_witness :
    ParseIP "not-an-ip" = none ∧
    (IPInRanges "not-an-ip" ["10.0.0.0/8", "1.1.1.1-2.2.2.2", "not-an-ip"] = true ↔
      ∃ r ∈ ["10.0.0.0/8", "1.1.1.1-2.2.2.2", "not-an-ip"],
        stringsContains r "/" = false ∧ stringsContains r "-" = false ∧
        "not-an-ip" = TrimSpace r) :=
  ⟨by decide, (IPInRanges_unparsable "not-an-ip" _ (by decide)).1⟩

/-- C4: `IPInRange` is false as soon as one of its three arguments is not a
parsable IP address, and `IPInCIDR` is false as soon as `ip` is not a parsable
IP address or `cidr` is not a parsable CIDR block. Both are total functions:
they give a boolean on every input. -/
theorem unparsable_is_non_match :
    (∀ ip startIP endIP : String,
      (ParseIP ip = none ∨ ParseIP startIP = none ∨ ParseIP endIP = none) →
      IPInRange ip startIP endIP = false) ∧
    (∀ ip cidr : String, (ParseIP ip = none ∨ ParseCIDR cidr = none) →
      IPInCIDR ip cidr = false) := by
  constructor
  · intro ip startIP endIP h
    unfold IPInRange
    rcases h with h | h | h
    · simp [h]
    · rw [h]; cases ParseIP ip <;> simp
    · rw [h]; cases ParseIP ip <;> cases ParseIP startIP <;> simp
  · intro ip cidr h
    unfold IPInCIDR
    rcases h with h | h
    · simp [h]
    · rw [h]; cases ParseIP ip <;> simp

theorem unparsable_is_non_match_witness :
    (ParseIP "172.16.0.0" ≠ none ∧ ParseIP "invalid" = none ∧
      IPInRange "172.16.0.0" "invalid" "172.20.255.254" = false) ∧
    (ParseIP "192.168.1.1" ≠ none ∧ ParseCIDR "invalid" = none ∧
      IPInCIDR "192.168.1.1" "invalid" = false) :=
  ⟨⟨by decide, by decide,
      unparsable_is_non_match.1 "172.16.0.0" "invalid" "172.20.255.254" (Or.inr (Or.inl (by decide)))⟩,
   ⟨by decide, by decide,
      unparsable_is_non_match.2 "192.168.1.1" "invalid" (Or.inr (by decide))⟩⟩

/-- C5: for a spec `s` that contains `/`, `IPInRanges(ip, s)` is
`IPInCIDR(ip, s)`; and in any list of specs, an element that contains `/` and
for which `IPInCIDR(ip, s)` is true makes `IPInRanges(ip, list...)` true. -/
theorem IPInRanges_cidr_branch :
    (∀ ip s : String, stringsContains s "/" = true → IPInRanges ip [s] = IPInCIDR ip s) ∧
    (∀ (ip : String) (list : List String) (s : String), s ∈ list →
      stringsContains s "/" = true → IPInCIDR ip s = true → IPInRanges ip list = true) := by
  have h1 : ∀ ip s : String, stringsContains s "/" = true →
      IPInRanges ip [s] = IPInCIDR ip s := by
    intro ip s hs
    simp only [IPInRanges, hs, if_true]
    cases IPInCIDR ip s <;> simp
  refine ⟨h1, ?_⟩
  intro ip list s hmem hs hc
  rw [IPInRanges_iff_exists]
  exact ⟨s, hmem, by rw [h1 ip s hs, hc]⟩

theorem IPInRanges_cidr_branch_witness :
    (IPInRanges "10.0.0.50" ["10.0.0.0/8"] = IPInCIDR "10.0.0.50" "10.0.0.0/8") ∧
    IPInRanges "10.0.0.50" ["192.168.0.0-192.168.1.254", "127.0.0.1", "10.0.0.0/8"] = true :=
  ⟨IPInRanges_cidr_branch.1 "10.0.0.50" "10.0.0.0/8" (by decide),
   IPInRanges_cidr_branch.2 "10.0.0.50" ["192.168.0.0-192.168.1.254", "127.0.0.1", "10.0.0.0/8"]
     "10.0.0.0/8" (by decide) (by decide) (by decide)⟩

/-- C6: `IPInRanges` is an "any spec matches" test. It is false on the empty
list, it distributes over concatenation as a disjunction, it is true exactly
when some spec matches `ip` on its own, and it does not depend on the order of
the specs. -/
theorem IPInRanges_any_spec (ip : String) :
    IPInRanges ip [] = false ∧
    (∀ xs ys : List String,
      IPInRanges ip (xs ++ ys) = (IPInRanges ip xs || IPInRanges ip ys)) ∧
    (∀ xs : List String, IPInRanges ip xs = true ↔ ∃ r ∈ xs, IPInRanges ip [r] = true) ∧
    (∀ xs ys : List String, xs.Perm ys → IPInRanges ip xs = IPInRanges ip ys) := by
  refine ⟨by simp [IPInRanges], IPInRanges_append ip, IPInRanges_iff_exists ip, ?_⟩
  intro xs ys hp
  rw [Bool.eq_iff_iff, IPInRanges_iff_exists, IPInRanges_iff_exists]
  constructor
  · rintro ⟨r, hr, hm⟩; exact ⟨r, hp.mem_iff.1 hr, hm⟩
  · rintro ⟨r, hr, hm⟩; exact ⟨r, hp.mem_iff.2 hr, hm⟩

theorem IPInRanges_any_spec_witness :
    IPInRanges "127.0.0.1" ["10.0.0.0/8", "127.0.0.1"] =
      IPInRanges "127.0.0.1" ["127.0.0.1", "10.0.0.0/8"] :=
  (IPInRanges_any_spec "127.0.0.1").2.2.2 _ _ (List.Perm.swap _ _ _)

/-! ## Geolocation manager: a failed load -/

theorem lookupV4_without_searcher (m : Manager) (ipStr : String)
    (hsrc : m.v4Source = SourceIp2Region) (hs : m.v4Searcher = none) :
    m.lookupV4 ipStr = { Country := "未配置" } := by
  have hne : ¬ (SourceIp2Region = SourceGeoLite2) := by decide
  simp [Manager.lookupV4, hsrc, hs, hne]

theorem lookupV6_without_reader (m : Manager) (ipStr : String)
    (hsrc : m.v6Source = SourceGeoLite2) (hs : m.v6GeoReader = none) :
    m.lookupV6 ipStr = { Country := "未配置" } := by
  have hne : ¬ (SourceGeoLite2 = SourceIp2Region) := by decide
  simp [Manager.lookupV6, hsrc, hs, hne]

theorem LoadV4Ip2Region_failure_state (lib : Lib) (t1 t2 : Nat) (m : Manager)
    (data : List Nat) (format : DBFormat) (hfail : lib.NewWithBuffer true data = none) :
    (m.LoadV4Ip2Region lib t1 t2 data format).2 = some "创建 IPv4 searcher 失败" ∧
    (m.LoadV4Ip2Region lib t1 t2 data format).1.v4Searcher = none ∧
    (m.LoadV4Ip2Region lib t1 t2 data format).1.v4Source = m.v4Source := by
  unfold Manager.LoadV4Ip2Region
  simp only [hfail]
  cases hs : m.v4Searcher <;> simp [hs]

theorem LoadV6GeoLite2_failure_state (lib : Lib) (t1 t2 : Nat) (m : Manager)
    (data : List Nat) (hfail : lib.FromBytes data = none) :
    (m.LoadV6GeoLite2 lib t1 t2 data).2 = some "创建 IPv6 GeoLite2 reader 失败" ∧
    (m.LoadV6GeoLite2 lib t1 t2 data).1.v6GeoReader = none ∧
    (m.LoadV6GeoLite2 lib t1 t2 data).1.v6Source = m.v6Source := by
  unfold Manager.LoadV6GeoLite2
  simp only [hfail]
  cases hs : m.v6GeoReader <;> simp [hs]

/-- C2, what the code does: when `xdb.NewWithBuffer` rejects the data,
`LoadV4Ip2Region` returns an error and has already dropped the searcher that
was loaded. From a state in which the region index is the active IPv4 backend,
`Lookup` of every IPv4 address then answers "未配置" (unconfigured), not what
the previous backend answered. -/
theorem LoadV4Ip2Region_failure_drops_backend (lib : Lib) (t1 t2 : Nat) (m : Manager)
    (data : List Nat) (format : DBFormat) (ipStr : String) (ip : List Nat)
    (hsrc : m.v4Source = SourceIp2Region)
    (hfail : lib.NewWithBuffer true data = none)
    (hip : ParseIP ipStr = some ip) (h4 : (IP.To4 ip).isSome = true) :
    (m.LoadV4Ip2Region lib t1 t2 data format).2 ≠ none ∧
    (m.LoadV4Ip2Region lib t1 t2 data format).1.v4Searcher = none ∧
    (m.LoadV4Ip2Region lib t1 t2 data format).1.Lookup ipStr = { Country := "未配置" } := by
  obtain ⟨he, hs, hsrc2⟩ := LoadV4Ip2Region_failure_state lib t1 t2 m data format hfail
  refine ⟨by rw [he]; simp, hs, ?_⟩
  simp only [Manager.Lookup, hip, h4, if_true]
  exact lookupV4_without_searcher _ _ (hsrc2.trans hsrc) hs

theorem LoadV4Ip2Region_failure_drops_backend_witness :
    sampleManager.Lookup "1.2.3.4" =
      { Country := "中国", Province := "浙江省", City := "杭州市", ISP := "电信" } ∧
    (sampleManager.LoadV4Ip2Region sampleLib 1 2 [] FormatLegacy).1.Lookup "1.2.3.4" =
      { Country := "未配置" } :=
  ⟨by decide,
   (LoadV4Ip2Region_failure_drops_backend sampleLib 1 2 sampleManager [] FormatLegacy "1.2.3.4"
      [0, 0, 0, 0, 0, 0, 0, 0, 0, 0, 255, 255, 1, 2, 3, 4]
      (by decide) rfl (by decide) (by decide)).2.2⟩

/-- The same early release in `LoadV6GeoLite2`: after a rejected buffer the
geo-database reader that served IPv6 is gone. -/
theorem LoadV6GeoLite2_failure_drops_backend (lib : Lib) (t1 t2 : Nat) (m : Manager)
    (data : List Nat) (ipStr : String) (ip : List Nat)
    (hsrc : m.v6Source = SourceGeoLite2)
    (hfail : lib.FromBytes data = none)
    (hip : ParseIP ipStr = some ip) (h6 : (IP.To4 ip).isSome = false) :
    (m.LoadV6GeoLite2 lib t1 t2 data).1.Lookup ipStr = { Country := "未配置" } := by
  obtain ⟨-, hs, hsrc2⟩ := LoadV6GeoLite2_failure_state lib t1 t2 m data hfail
  simp only [Manager.Lookup, hip, h6]
  exact lookupV6_without_reader _ _ (hsrc2.trans hsrc) hs

/-- The same early release in `LoadV4GeoLite2`, `LoadV6Ip2Region` and
`LoadV6GeoLite2`, at the sample manager switched to the backend that the load
replaces. -/
theorem sibling_loads_drop_backend :
    (({ sampleManager with v4Source := SourceGeoLite2 }).Lookup "1.2.3.4" =
        { Country := "中国" } ∧
      (({ sampleManager with v4Source := SourceGeoLite2 }).LoadV4GeoLite2
        sampleLib 1 2 []).1.Lookup "1.2.3.4" = { Country := "未配置" }) ∧
    (({ sampleManager with v6Source := SourceIp2Region }).Lookup "::1" =
        { Country := "中国", Province := "浙江省", City := "杭州市", ISP := "电信" } ∧
      (({ sampleManager with v6Source := SourceIp2Region }).LoadV6Ip2Region
        sampleLib 1 2 [] FormatLegacy).1.Lookup "::1" = { Country := "未配置" }) ∧
    (sampleManager.Lookup "::1" = { Country := "中国" } ∧
      (sampleManager.LoadV6GeoLite2 sampleLib 1 2 []).1.Lookup "::1" =
        { Country := "未配置" }) := by
  decide

/-! ## The IPv4 parser -/

theorem isDigit_ne_sep (c : Char) (h : isDigit c = true) :
    (c == '.') = false ∧ (c == ':') = false ∧ (c == '%') = false := by
  simp only [isDigit, Bool.and_eq_true, decide_eq_true_eq] at h
  refine ⟨?_, ?_, ?_⟩ <;>
  · rw [beq_eq_false_iff_ne]
    rintro rfl
    simp at h

/-- A string accepted by `parseIPv4Fields` is dispatched to the IPv4 parser by
`ParseAddr`: its first `.`, `:` or `%` is a `.`. -/
theorem scan_of_loop (s : List Char) :
    ∀ (rest : List Char) (atStart prevDot : Bool) (val digLen : Nat) (fields b : List Nat),
      parseIPv4Fields.loop rest atStart prevDot val digLen fields = some b →
      fields.length < 3 → ParseAddr.scan s rest = parseIPv4 s := by
  intro rest
  induction rest with
  | nil =>
    intro atStart prevDot val digLen fields b h hlen
    simp [parseIPv4Fields.loop, hlen] at h
  | cons c t ih =>
    intro atStart prevDot val digLen fields b h hlen
    by_cases hd : isDigit c = true
    · obtain ⟨h1, h2, h3⟩ := isDigit_ne_sep c hd
      simp only [parseIPv4Fields.loop, hd, if_true] at h
      simp only [ParseAddr.scan, h1, h2, h3, Bool.false_eq_true, if_false]
      split at h
      · exact absurd h (by simp)
      · split at h
        · exact absurd h (by simp)
        · exact ih _ _ _ _ _ _ h hlen
    · by_cases hdot : (c == '.') = true
      · simp [ParseAddr.scan, hdot]
      · simp [parseIPv4Fields.loop, hd, hdot] at h

theorem ParseAddr_of_parseIPv4Fields (s : List Char) (b : List Nat)
    (h : parseIPv4Fields s = some b) : ParseAddr s = some (Addr.v4 b) := by
  have := scan_of_loop s s true false 0 0 [] b h (by simp)
  rw [ParseAddr, this, parseIPv4, h]

theorem ParseIP_of_parseIPv4Fields (s : String) (b : List Nat)
    (h : parseIPv4Fields s.data = some b) : ParseIP s = some (v4InV6Prefix ++ b) := by
  simp [ParseIP, ParseAddr_of_parseIPv4Fields s.data b h, Addr.Zone, Addr.As16]

/-- The four octets: a result of `parseIPv4Fields` has four bytes, each below 256. -/
theorem loop_octets :
    ∀ (rest : List Char) (atStart prevDot : Bool) (val digLen : Nat) (fields b : List Nat),
      parseIPv4Fields.loop rest atStart prevDot val digLen fields = some b →
      fields.length ≤ 3 → val ≤ 255 → (∀ x ∈ fields, x ≤ 255) →
      b.length = 4 ∧ ∀ x ∈ b, x ≤ 255 := by
  intro rest
  induction rest with
  | nil =>
    intro atStart prevDot val digLen fields b h hlen hval hf
    simp only [parseIPv4Fields.loop] at h
    split at h
    · exact absurd h (by simp)
    · simp only [Option.some.injEq] at h
      subst h
      refine ⟨by simp; omega, ?_⟩
      intro x hx
      rcases List.mem_append.1 hx with hx | hx
      · exact hf x hx
      · simp at hx; omega
  | cons c t ih =>
    intro atStart prevDot val digLen fields b h hlen hval hf
    simp only [parseIPv4Fields.loop] at h
    split at h
    · split at h
      · exact absurd h (by simp)
      · split at h
        · exact absurd h (by simp)
        · exact ih _ _ _ _ _ _ h hlen (by omega) hf
    · split at h
      · split at h
        · exact absurd h (by simp)
        · split at h
          · exact absurd h (by simp)
          · rename_i h3
            refine ih _ _ _ _ _ _ h ?_ (by omega) ?_
            · simp only [beq_iff_eq] at h3
              simp; omega
            · intro x hx
              rcases List.mem_append.1 hx with hx | hx
              · exact hf x hx
              · simp at hx; omega
      · exact absurd h (by simp)

theorem parseIPv4Fields_octets (s : List Char) (b : List Nat)
    (h : parseIPv4Fields s = some b) :
    ∃ b0 b1 b2 b3, b = [b0, b1, b2, b3] ∧ b0 ≤ 255 ∧ b1 ≤ 255 ∧ b2 ≤ 255 ∧ b3 ≤ 255 := by
  obtain ⟨hl, hb⟩ := loop_octets s true false 0 0 [] b h (by simp) (by omega) (by simp)
  match b, hl, hb with
  | [b0, b1, b2, b3], _, hb =>
    exact ⟨b0, b1, b2, b3, rfl, hb _ (by simp), hb _ (by simp), hb _ (by simp), hb _ (by simp)⟩

/-! ## `bytes.Compare` and the lexicographic order -/

theorem cons_lt_cons_iff (x y : Nat) (a b : List Nat) :
    x :: a < y :: b ↔ x < y ∨ (x = y ∧ a < b) := by
  constructor
  · intro h
    cases h with
    | rel h => exact Or.inl h
    | cons h => exact Or.inr ⟨rfl, h⟩
  · rintro (h | ⟨rfl, h⟩)
    · exact List.Lex.rel h
    · exact List.Lex.cons h

theorem not_lt_nil (a : List Nat) : ¬ a < [] := by
  intro h
  cases h

theorem nil_lt_cons (x : Nat) (a : List Nat) : [] < x :: a := List.Lex.nil

theorem bytesCompare_neg_iff (a b : List Nat) : bytesCompare a b < 0 ↔ a < b := by
  induction a generalizing b with
  | nil =>
    cases b with
    | nil => simp [bytesCompare, not_lt_nil]
    | cons y b => simp [bytesCompare, nil_lt_cons]
  | cons x a ih =>
    cases b with
    | nil => simp [bytesCompare, not_lt_nil]
    | cons y b =>
      rw [cons_lt_cons_iff]
      simp only [bytesCompare]
      split
      · simp [*]
      · split
        · simp; omega
        · rw [ih]
          constructor
          · intro h; exact Or.inr ⟨by omega, h⟩
          · rintro (h | ⟨-, h⟩)
            · omega
            · exact h

theorem bytesCompare_pos_iff (a b : List Nat) : 0 < bytesCompare a b ↔ b < a := by
  induction a generalizing b with
  | nil =>
    cases b with
    | nil => simp [bytesCompare, not_lt_nil]
    | cons y b => simp [bytesCompare, not_lt_nil]
  | cons x a ih =>
    cases b with
    | nil => simp [bytesCompare, nil_lt_cons]
    | cons y b =>
      rw [cons_lt_cons_iff]
      simp only [bytesCompare]
      split
      · simp; omega
      · split
        · simp [*]
        · rw [ih]
          constructor
          · intro h; exact Or.inr ⟨by omega, h⟩
          · rintro (h | ⟨-, h⟩)
            · omega
            · exact h

theorem bytesCompare_nonneg_iff (a b : List Nat) : bytesCompare a b ≥ 0 ↔ b ≤ a := by
  have h := bytesCompare_neg_iff a b
  constructor
  · intro h1
    exact not_lt.1 (fun hlt => by have := h.2 hlt; omega)
  · intro h1
    by_contra hc
    exact (not_lt.2 h1) (h.1 (by omega))

theorem bytesCompare_nonpos_iff (a b : List Nat) : bytesCompare a b ≤ 0 ↔ a ≤ b := by
  have h := bytesCompare_pos_iff a b
  constructor
  · intro h1
    exact not_lt.1 (fun hlt => by have := h.2 hlt; omega)
  · intro h1
    by_contra hc
    exact (not_lt.2 h1) (h.1 (by omega))

theorem append_lt_append_iff (p a b : List Nat) : p ++ a < p ++ b ↔ a < b := by
  induction p with
  | nil => simp
  | cons x p ih => simp [cons_lt_cons_iff, ih]

/-- The result of `IPInRange` on three parsable arguments, in terms of the
lexicographic order of the parsed 16-byte forms. -/
theorem IPInRange_of_parsed (ip startIP endIP : String) (x s e : List Nat)
    (hx : ParseIP ip = some x) (hs : ParseIP startIP = some s) (he : ParseIP endIP = some e) :
    IPInRange ip startIP endIP = true ↔ (IP.To16 s ≤ IP.To16 x ∧ IP.To16 x ≤ IP.To16 e) := by
  simp only [IPInRange, hx, hs, he, Bool.and_eq_true, decide_eq_true_eq,
    bytesCompare_nonneg_iff, bytesCompare_nonpos_iff]

theorem quad_lt_iff (a0 a1 a2 a3 b0 b1 b2 b3 : Nat)
    (ha1 : a1 ≤ 255) (ha2 : a2 ≤ 255) (ha3 : a3 ≤ 255)
    (hb1 : b1 ≤ 255) (hb2 : b2 ≤ 255) (hb3 : b3 ≤ 255) :
    [a0, a1, a2, a3] < [b0, b1, b2, b3] ↔
      beValue [a0, a1, a2, a3] < beValue [b0, b1, b2, b3] := by
  simp only [cons_lt_cons_iff, not_lt_nil, beValue, List.foldl, and_false, or_false]
  omega

theorem append_le_append_iff (p a b : List Nat) : p ++ a ≤ p ++ b ↔ a ≤ b := by
  rw [← not_lt, ← not_lt, append_lt_append_iff]

theorem To16_mapped (b0 b1 b2 b3 : Nat) :
    IP.To16 (v4InV6Prefix ++ [b0, b1, b2, b3]) = v4InV6Prefix ++ [b0, b1, b2, b3] := by
  simp [IP.To16, v4InV6Prefix]

/-- `IPInRange` on three dotted quads, in terms of their octets. -/
theorem IPInRange_quads (ip startIP endIP : String) (x s e : List Nat)
    (hx : parseIPv4Fields ip.data = some x) (hs : parseIPv4Fields startIP.data = some s)
    (he : parseIPv4Fields endIP.data = some e) :
    IPInRange ip startIP endIP = true ↔ s ≤ x ∧ x ≤ e := by
  rw [IPInRange_of_parsed ip startIP endIP _ _ _ (ParseIP_of_parseIPv4Fields ip x hx)
    (ParseIP_of_parseIPv4Fields startIP s hs) (ParseIP_of_parseIPv4Fields endIP e he)]
  obtain ⟨x0, x1, x2, x3, rfl, -⟩ := parseIPv4Fields_octets _ _ hx
  obtain ⟨s0, s1, s2, s3, rfl, -⟩ := parseIPv4Fields_octets _ _ hs
  obtain ⟨e0, e1, e2, e3, rfl, -⟩ := parseIPv4Fields_octets _ _ he
  rw [To16_mapped, To16_mapped, To16_mapped, append_le_append_iff, append_le_append_iff]

theorem quads_le_iff (a b : List Nat) (sa sb : List Char)
    (ha : parseIPv4Fields sa = some a) (hb : parseIPv4Fields sb = some b) :
    a ≤ b ↔ beValue a ≤ beValue b := by
  obtain ⟨a0, a1, a2, a3, rfl, -, h1, h2, h3⟩ := parseIPv4Fields_octets _ _ ha
  obtain ⟨b0, b1, b2, b3, rfl, -, k1, k2, k3⟩ := parseIPv4Fields_octets _ _ hb
  rw [← not_lt, quad_lt_iff b0 b1 b2 b3 a0 a1 a2 a3 k1 k2 k3 h1 h2 h3, Nat.not_lt]

/-- C1: for dotted-quad IPv4 strings `ip`, `start`, `end` (strings that the
IPv4 parser accepts, with octets `x`, `s`, `e`), `IPInRange(ip, start, end)` is
true exactly when `s ≤ x ≤ e` in the lexicographic order of the 4-byte
sequences, which is the order of their big-endian values; both bounds are
inclusive, and an `ip` strictly below `start` or strictly above `end` gives
false. -/
theorem IPInRange_ipv4 (ip startIP endIP : String) (x s e : List Nat)
    (hx : parseIPv4Fields ip.data = some x) (hs : parseIPv4Fields startIP.data = some s)
    (he : parseIPv4Fields endIP.data = some e) :
    (IPInRange ip startIP endIP = true ↔ s ≤ x ∧ x ≤ e) ∧
    (IPInRange ip startIP endIP = true ↔ beValue s ≤ beValue x ∧ beValue x ≤ beValue e) ∧
    ((x < s ∨ e < x) → IPInRange ip startIP endIP = false) := by
  have h := IPInRange_quads ip startIP endIP x s e hx hs he
  refine ⟨h, ?_, ?_⟩
  · rw [h, quads_le_iff s x _ _ hs hx, quads_le_iff x e _ _ hx he]
  · intro hout
    rw [← Bool.not_eq_true, h]
    rintro ⟨h1, h2⟩
    rcases hout with hlt | hlt
    · exact (not_lt.2 h1) hlt
    · exact (not_lt.2 h2) hlt

theorem IPInRange_ipv4_witness :
    (IPInRange "172.18.0.1" "172.16.0.0" "172.20.255.254" = true ↔
      [172, 16, 0, 0] ≤ [172, 18, 0, 1] ∧ [172, 18, 0, 1] ≤ [172, 20, 255, 254]) ∧
    (IPInRange "172.21.0.0" "172.16.0.0" "172.20.255.254" = true ↔
      beValue [172, 16, 0, 0] ≤ beValue [172, 21, 0, 0] ∧
      beValue [172, 21, 0, 0] ≤ beValue [172, 20, 255, 254]) :=
  ⟨(IPInRange_ipv4 "172.18.0.1" "172.16.0.0" "172.20.255.254" [172, 18, 0, 1] [172, 16, 0, 0]
      [172, 20, 255, 254] (by decide) (by decide) (by decide)).1,
   (IPInRange_ipv4 "172.21.0.0" "172.16.0.0" "172.20.255.254" [172, 21, 0, 0] [172, 16, 0, 0]
      [172, 20, 255, 254] (by decide) (by decide) (by decide)).2.1⟩

/-! ## The IPv6 parser on an IPv4-mapped spelling -/

/-- Every character of a string accepted by the IPv4 parser is a digit or a dot. -/
theorem loop_chars :
    ∀ (rest : List Char) (atStart prevDot : Bool) (val digLen : Nat) (fields b : List Nat),
      parseIPv4Fields.loop rest atStart prevDot val digLen fields = some b →
      ∀ c ∈ rest, isDigit c = true ∨ c = '.' := by
  intro rest
  induction rest with
  | nil => intro _ _ _ _ _ _ _ c hc; cases hc
  | cons c t ih =>
    intro atStart prevDot val digLen fields b h d hd
    simp only [parseIPv4Fields.loop] at h
    split at h
    · rename_i hdig
      split at h
      · exact absurd h (by simp)
      · split at h
        · exact absurd h (by simp)
        · rcases List.mem_cons.1 hd with rfl | hd
          · exact Or.inl hdig
          · exact ih _ _ _ _ _ _ h d hd
    · split at h
      · rename_i hdot
        split at h
        · exact absurd h (by simp)
        · split at h
          · exact absurd h (by simp)
          · rcases List.mem_cons.1 hd with rfl | hd
            · exact Or.inr (by simpa using hdot)
            · exact ih _ _ _ _ _ _ h d hd
      · exact absurd h (by simp)

/-- The shape of an accepted string from any loop state: at most three more
digits of the current octet, then a dot. -/
theorem loop_shape :
    ∀ (rest : List Char) (atStart prevDot : Bool) (val digLen : Nat) (fields b : List Nat),
      parseIPv4Fields.loop rest atStart prevDot val digLen fields = some b →
      fields.length < 3 → digLen ≤ 3 → (2 ≤ digLen → 10 ≤ val) → (3 ≤ digLen → 100 ≤ val) →
      ∃ ds t, rest = ds ++ '.' :: t ∧ (∀ c ∈ ds, isDigit c = true) ∧
        ds.length + digLen ≤ 3 ∧ (atStart = true → ds ≠ []) := by
  intro rest
  induction rest with
  | nil =>
    intro atStart prevDot val digLen fields b h hlen
    simp [parseIPv4Fields.loop, hlen] at h
  | cons c t ih =>
    intro atStart prevDot val digLen fields b h hlen hd3 h2 h3
    simp only [parseIPv4Fields.loop] at h
    split at h
    · rename_i hdig
      split at h
      · exact absurd h (by simp)
      · rename_i hz
        split at h
        · exact absurd h (by simp)
        · rename_i hle
          simp only [Bool.and_eq_true, beq_iff_eq, not_and] at hz
          have hd2 : digLen ≤ 2 := by
            by_contra hc
            have := h3 (by omega)
            omega
          obtain ⟨ds, t', ht, hds, hl, -⟩ :=
            ih false false _ (digLen + 1) fields b h hlen (by omega)
              (by intro _; by_cases h1 : digLen = 1
                  · have := hz h1; omega
                  · have := h2 (by omega); omega)
              (by intro _; have := h2 (by omega); omega)
          refine ⟨c :: ds, t', by simp [ht], ?_, by simp; omega, by simp⟩
          intro x hx
          rcases List.mem_cons.1 hx with rfl | hx
          · exact hdig
          · exact hds x hx
    · split at h
      · rename_i hdot
        split at h
        · exact absurd h (by simp)
        · rename_i hst
          refine ⟨[], t, by simp at hdot; simp [hdot], by simp, by simp; omega, ?_⟩
          intro ha
          simp [ha] at hst
      · exact absurd h (by simp)

theorem hexVal_digit (c : Char) (h : isDigit c = true) :
    ∃ d, hexVal c = some d ∧ d ≤ 9 := by
  simp only [isDigit, Bool.and_eq_true, decide_eq_true_eq] at h
  exact ⟨c.toNat - 48, by simp [hexVal, h], by omega⟩

theorem hexVal_dot : hexVal '.' = none := by decide

/-- The hexadecimal group loop over decimal digits followed by a dot stops at
the dot. -/
theorem hex_digits_dot (t : List Char) :
    ∀ (ds : List Char) (off acc : Nat), (∀ c ∈ ds, isDigit c = true) →
      off + ds.length ≤ 4 → acc < 16 ^ off →
      ∃ acc2, parseIPv6.hex (ds ++ '.' :: t) off acc = some (acc2, off + ds.length) := by
  intro ds
  induction ds with
  | nil =>
    intro off acc _ _ _
    exact ⟨acc, by simp [parseIPv6.hex, hexVal_dot]⟩
  | cons c ds ih =>
    intro off acc hds hlen hacc
    obtain ⟨d, hd, hd9⟩ := hexVal_digit c (hds c (by simp))
    simp only [List.length_cons] at hlen
    have hoff : off ≤ 3 := by omega
    have hpow : 16 ^ off ≤ 16 ^ 3 := Nat.pow_le_pow_right (by omega) hoff
    have hpow2 : 16 ^ (off + 1) = 16 ^ off * 16 := Nat.pow_succ 16 off
    obtain ⟨acc2, h2⟩ := ih (off + 1) (acc * 16 + d) (fun x hx => hds x (by simp [hx]))
      (by omega) (by rw [hpow2]; omega)
    refine ⟨acc2, ?_⟩
    have h3 : parseIPv6.hex (c :: (ds ++ '.' :: t)) off acc =
        parseIPv6.hex (ds ++ '.' :: t) (off + 1) (acc * 16 + d) := by
      simp only [parseIPv6.hex, hd]
      rw [if_neg (by omega), if_neg (by omega)]
    rw [List.cons_append, h3, h2, List.length_cons]
    congr 2
    omega

/-- One turn of the IPv6 loop on a remaining text that is a dotted quad, after
an ellipsis: the quad is read as the embedded IPv4 address and ends the loop. -/
theorem loop_embedded_quad (s : List Char) (b : List Nat) (h : parseIPv4Fields s = some b)
    (fuel : Nat) (ip : List Nat) (e : Nat) (hip : ip.length + 4 ≤ 16) :
    parseIPv6.loop (fuel + 1) s ip (some e) = some ([], ip ++ b, some e) := by
  obtain ⟨ds, t, hs, hds, hl, hne⟩ :=
    loop_shape s true false 0 0 [] b h (by simp) (by omega) (by omega) (by omega)
  have hne2 : ds ≠ [] := hne rfl
  have hpos : 0 < ds.length := List.length_pos.2 hne2
  obtain ⟨acc2, hhex⟩ := hex_digits_dot t ds 0 0 hds (by omega) (by simp)
  rw [← hs, Nat.zero_add] at hhex
  have hget : s.get? ds.length = some '.' := by
    rw [hs, List.get?_eq_getElem?, List.getElem?_append_right (Nat.le_refl _)]
    simp
  have hlt : ds.length < s.length := by
    rw [hs, List.length_append, List.length_cons]
    omega
  have hoff : (ds.length == 0) = false := by
    rw [beq_eq_false_iff_ne]
    omega
  have hroom : ¬ (ip.length + 4 > 16) := by omega
  rw [parseIPv6.loop]
  simp only [hhex, hoff, hget, hlt, h, hroom, decide_True, Bool.true_and, beq_self_eq_true,
    Option.isNone_some, Bool.false_and, if_true, if_false, Bool.false_eq_true]

theorem hex_ffff (s : List Char) :
    parseIPv6.hex ('f' :: 'f' :: 'f' :: 'f' :: ':' :: s) 0 0 = some (0xffff, 4) := by
  have hf : hexVal 'f' = some 15 := by decide
  have hc : hexVal ':' = none := by decide
  simp [parseIPv6.hex, hf, hc]

/-- The first turn of the IPv6 loop on `ffff:` followed by a digit. -/
theorem loop_ffff (d : Char) (s2 : List Char) (hd : isDigit d = true) :
    parseIPv6.loop 8 ('f' :: 'f' :: 'f' :: 'f' :: ':' :: d :: s2) [] (some 0) =
      parseIPv6.loop 7 (d :: s2) [255, 255] (some 0) := by
  have hdc : (d == ':') = false := (isDigit_ne_sep d hd).2.1
  rw [show (8 : Nat) = 7 + 1 from rfl, parseIPv6.loop]
  simp only [hex_ffff]
  simp [hdc]

/-- The IPv4-mapped spelling `::ffff:a.b.c.d` of a dotted quad parses to the
16 bytes `::ffff:a.b.c.d`, without zone. -/
theorem ParseAddr_mapped (s : List Char) (b : List Nat) (h : parseIPv4Fields s = some b) :
    ParseAddr ("::ffff:".data ++ s) = some (Addr.v6 (v4InV6Prefix ++ b) []) := by
  obtain ⟨b0, b1, b2, b3, rfl, -⟩ := parseIPv4Fields_octets s _ h
  obtain ⟨ds, t, hs, hds, hl, hne⟩ :=
    loop_shape s true false 0 0 [] _ h (by simp) (by omega) (by omega) (by omega)
  have hchars := loop_chars s true false 0 0 [] _ h
  have hpc : ("::ffff:".data ++ s).contains '%' = false := by
    rw [Bool.eq_false_iff]
    intro hc
    have hmem : '%' ∈ "::ffff:".data ++ s := List.mem_of_elem_eq_true hc
    rcases List.mem_append.1 hmem with hc | hc
    · revert hc; decide
    · rcases hchars _ hc with hd | hd
      · exact absurd hd (by decide)
      · exact absurd hd (by decide)
  obtain ⟨d, s2, hcons, hdd⟩ : ∃ d s2, s = d :: s2 ∧ isDigit d = true := by
    cases ds with
    | nil => exact absurd rfl (hne rfl)
    | cons d ds2 => exact ⟨d, ds2 ++ '.' :: t, by simp [hs], hds d (by simp)⟩
  have hquad := loop_embedded_quad s _ h 6 [255, 255] 0 (by simp)
  have hstep := loop_ffff d s2 hdd
  rw [← hcons, hquad] at hstep
  have hdata : "::ffff:".data ++ s = ':' :: ':' :: 'f' :: 'f' :: 'f' :: 'f' :: ':' :: s := rfl
  rw [hdata] at hpc ⊢
  unfold ParseAddr
  rw [ParseAddr.scan, if_neg (by decide), if_pos (by decide)]
  simp only [parseIPv6, hpc, Bool.false_eq_true, if_false, parseIPv6.body, List.isEmpty_cons,
    hstep, parseIPv6.finish]
  simp [v4InV6Prefix]

theorem ParseIP_mapped (s : String) (b : List Nat) (h : parseIPv4Fields s.data = some b) :
    ParseIP ("::ffff:" ++ s) = ParseIP s := by
  rw [ParseIP_of_parseIPv4Fields s b h]
  have hd : ("::ffff:" ++ s).data = "::ffff:".data ++ s.data := String.data_append _ _
  rw [ParseIP, hd, ParseAddr_mapped s.data b h]
  simp [Addr.Zone, Addr.As16]

/-! ## Every parsed address has 16 bytes -/

theorem parseIPv6_loop_length :
    ∀ (fuel : Nat) (s : List Char) (ip : List Nat) (e : Option Nat)
      (r : List Char × List Nat × Option Nat),
      parseIPv6.loop fuel s ip e = some r → ip.length + 2 * fuel ≤ 16 → r.2.1.length ≤ 16 := by
  intro fuel
  induction fuel with
  | zero =>
    intro s ip e r h hl
    simp only [parseIPv6.loop, Option.some.injEq] at h
    subst h
    simpa using hl
  | succ n ih =>
    intro s ip e r h hl
    rw [parseIPv6.loop] at h
    split at h
    · exact absurd h (by simp)
    · split at h
      · exact absurd h (by simp)
      · split at h
        · split at h
          · exact absurd h (by simp)
          · split at h
            · exact absurd h (by simp)
            · rename_i hroom
              split at h
              · exact absurd h (by simp)
              · rename_i f hf
                obtain ⟨b0, b1, b2, b3, rfl, -⟩ := parseIPv4Fields_octets _ _ hf
                simp only [Option.some.injEq] at h
                subst h
                simp at hroom ⊢
                omega
        · split at h
          · simp only [Option.some.injEq] at h
            subst h
            simp
            omega
          · split at h
            · exact absurd h (by simp)
            · split at h
              · exact absurd h (by simp)
              · split at h
                · split at h
                  · exact absurd h (by simp)
                  · split at h
                    · simp only [Option.some.injEq] at h
                      subst h
                      simp
                      omega
                    · exact ih _ _ _ _ h (by simp; omega)
                · exact ih _ _ _ _ h (by simp; omega)

theorem parseIPv6_finish_length (zone : List Char)
    (r : Option (List Char × List Nat × Option Nat)) (a : Addr)
    (hr : ∀ x, r = some x → x.2.1.length ≤ 16)
    (h : parseIPv6.finish zone r = some a) : a.As16.length = 16 := by
  cases r with
  | none => simp [parseIPv6.finish] at h
  | some x =>
    obtain ⟨s, ip, e⟩ := x
    have hle : ip.length ≤ 16 := hr _ rfl
    simp only [parseIPv6.finish] at h
    split at h
    · exact absurd h (by simp)
    · split at h
      · split at h
        · exact absurd h (by simp)
        · simp only [Option.some.injEq] at h
          subst h
          simp [Addr.As16]
          omega
      · split at h
        · exact absurd h (by simp)
        · simp only [Option.some.injEq] at h
          subst h
          simp [Addr.As16]
          omega

theorem parseIPv6_body_length (s zone : List Char) (a : Addr)
    (h : parseIPv6.body s zone = some a) : a.As16.length = 16 := by
  unfold parseIPv6.body at h
  split at h
  · split at h
    · simp only [Option.some.injEq] at h
      subst h
      simp [Addr.As16]
    · exact parseIPv6_finish_length zone _ a
        (fun x hx => parseIPv6_loop_length 8 _ [] _ x hx (by simp)) h
  · exact parseIPv6_finish_length zone _ a
      (fun x hx => parseIPv6_loop_length 8 _ [] _ x hx (by simp)) h

theorem parseIPv6_length (s : List Char) (a : Addr) (h : parseIPv6 s = some a) :
    a.As16.length = 16 := by
  unfold parseIPv6 at h
  split at h
  · simp only at h
    split at h
    · exact absurd h (by simp)
    · exact parseIPv6_body_length _ _ a h
  · exact parseIPv6_body_length _ _ a h

theorem parseIPv4_length (s : List Char) (a : Addr) (h : parseIPv4 s = some a) :
    a.As16.length = 16 := by
  unfold parseIPv4 at h
  split at h
  · exact absurd h (by simp)
  · rename_i f hf
    obtain ⟨b0, b1, b2, b3, rfl, -⟩ := parseIPv4Fields_octets _ _ hf
    simp only [Option.some.injEq] at h
    subst h
    simp [Addr.As16, v4InV6Prefix]

theorem scan_cases (s : List Char) (a : Addr) :
    ∀ rest : List Char, ParseAddr.scan s rest = some a →
      parseIPv4 s = some a ∨ parseIPv6 s = some a := by
  intro rest
  induction rest with
  | nil => intro h; simp [ParseAddr.scan] at h
  | cons c t ih =>
    intro h
    simp only [ParseAddr.scan] at h
    split at h
    · exact Or.inl h
    · split at h
      · exact Or.inr h
      · split at h
        · exact absurd h (by simp)
        · exact ih h

/-- `ParseIP` gives 16 bytes: the normalised form of the address, on which
`To16` changes nothing. -/
theorem ParseIP_length (s : String) (x : List Nat) (h : ParseIP s = some x) :
    x.length = 16 ∧ IP.To16 x = x := by
  have hl : x.length = 16 := by
    unfold ParseIP at h
    split at h
    · exact absurd h (by simp)
    · rename_i a ha
      split at h
      · exact absurd h (by simp)
      · simp only [Option.some.injEq] at h
        subst h
        rcases scan_cases _ a _ ha with h4 | h6
        · exact parseIPv4_length _ a h4
        · exact parseIPv6_length _ a h6
  exact ⟨hl, by simp [IP.To16, hl]⟩

theorem IPInRange_congr (a a2 b b2 c c2 : String) (ha : ParseIP a = ParseIP a2)
    (hb : ParseIP b = ParseIP b2) (hc : ParseIP c = ParseIP c2) :
    IPInRange a b c = IPInRange a2 b2 c2 := by
  simp only [IPInRange, ha, hb, hc]

/-- C8: for parsable `ip`, `start`, `end` of any family, with 16-byte
normalised forms `x`, `s`, `e` (what `ParseIP` gives; `To16` leaves them as
they are), `IPInRange` is true exactly when `s ≤ x ≤ e` in the bytewise
lexicographic order, and it is false when `s > e`. A dotted quad `q` with
octets `b` normalises to `::ffff:` followed by `b`, as its IPv4-mapped spelling
does, so replacing any argument by that spelling does not change the result. -/
theorem IPInRange_normalised (ip startIP endIP : String) (x s e : List Nat)
    (hx : ParseIP ip = some x) (hs : ParseIP startIP = some s) (he : ParseIP endIP = some e) :
    ((x.length = 16 ∧ IP.To16 x = x) ∧ (s.length = 16 ∧ IP.To16 s = s) ∧
      (e.length = 16 ∧ IP.To16 e = e)) ∧
    (IPInRange ip startIP endIP = true ↔ s ≤ x ∧ x ≤ e) ∧
    (e < s → IPInRange ip startIP endIP = false) ∧
    (∀ (q : String) (b : List Nat), parseIPv4Fields q.data = some b →
      ParseIP q = some (v4InV6Prefix ++ b) ∧
      ParseIP ("::ffff:" ++ q) = some (v4InV6Prefix ++ b) ∧
      IPInRange ("::ffff:" ++ q) startIP endIP = IPInRange q startIP endIP ∧
      IPInRange ip ("::ffff:" ++ q) endIP = IPInRange ip q endIP ∧
      IPInRange ip startIP ("::ffff:" ++ q) = IPInRange ip startIP q) := by
  have lx := ParseIP_length ip x hx
  have ls := ParseIP_length startIP s hs
  have le := ParseIP_length endIP e he
  have hiff : IPInRange ip startIP endIP = true ↔ s ≤ x ∧ x ≤ e := by
    rw [IPInRange_of_parsed ip startIP endIP x s e hx hs he, lx.2, ls.2, le.2]
  refine ⟨⟨lx, ls, le⟩, hiff, ?_, ?_⟩
  · intro hlt
    rw [← Bool.not_eq_true, hiff]
    rintro ⟨h1, h2⟩
    exact (not_lt.2 (le_trans h1 h2)) hlt
  · intro q b hq
    have hm := ParseIP_mapped q b hq
    have hp := ParseIP_of_parseIPv4Fields q b hq
    exact ⟨hp, hm.trans hp, IPInRange_congr _ _ _ _ _ _ hm rfl rfl,
      IPInRange_congr _ _ _ _ _ _ rfl hm rfl, IPInRange_congr _ _ _ _ _ _ rfl rfl hm⟩

theorem IPInRange_normalised_witness :
    (IPInRange "2001:db8::5" "192.168.0.1" "2001:db8::ff" = true ↔
      [0, 0, 0, 0, 0, 0, 0, 0, 0, 0, 255, 255, 192, 168, 0, 1] ≤
        [32, 1, 13, 184, 0, 0, 0, 0, 0, 0, 0, 0, 0, 0, 0, 5] ∧
      [32, 1, 13, 184, 0, 0, 0, 0, 0, 0, 0, 0, 0, 0, 0, 5] ≤
        [32, 1, 13, 184, 0, 0, 0, 0, 0, 0, 0, 0, 0, 0, 0, 255]) ∧
    IPInRange "2001:db8::5" "::ffff:192.168.0.1" "2001:db8::ff" =
      IPInRange "2001:db8::5" "192.168.0.1" "2001:db8::ff" :=
  ⟨(IPInRange_normalised "2001:db8::5" "192.168.0.1" "2001:db8::ff" _ _ _
      (by decide) (by decide) (by decide)).2.1,
   ((IPInRange_normalised "2001:db8::5" "192.168.0.1" "2001:db8::ff"
      [32, 1, 13, 184, 0, 0, 0, 0, 0, 0, 0, 0, 0, 0, 0, 5]
      [0, 0, 0, 0, 0, 0, 0, 0, 0, 0, 255, 255, 192, 168, 0, 1]
      [32, 1, 13, 184, 0, 0, 0, 0, 0, 0, 0, 0, 0, 0, 0, 255]
      (by decide) (by decide) (by decide)).2.2.2 "192.168.0.1" [192, 168, 0, 1] (by decide)).2.2.2.1⟩

/-! ## `ParseCIDR` and `Contains` on IPv4 blocks -/

theorem takeWhile_append_sep (sep : Char) (a m : List Char) (h : ∀ c ∈ a, c ≠ sep) :
    (a ++ sep :: m).takeWhile (· != sep) = a ∧
    (a ++ sep :: m).dropWhile (· != sep) = sep :: m ∧
    (a ++ sep :: m).contains sep = true := by
  induction a with
  | nil => simp
  | cons c a ih =>
    have hc : c ≠ sep := h c (by simp)
    have hc2 : (sep == c) = false := by
      rw [beq_eq_false_iff_ne]; exact fun h => hc h.symm
    obtain ⟨h1, h2, h3⟩ := ih (fun x hx => h x (by simp [hx]))
    have hc3 : (c != sep) = true := by simp [hc]
    simp only [List.contains] at h3
    refine ⟨?_, ?_, ?_⟩
    · rw [List.cons_append, List.takeWhile_cons, hc3, if_pos rfl, h1]
    · rw [List.cons_append, List.dropWhile_cons, hc3, if_pos rfl, h2]
    · simp [h3]

theorem quad_no_slash (s : List Char) (b : List Nat) (h : parseIPv4Fields s = some b) :
    ∀ c ∈ s, c ≠ '/' := by
  intro c hc
  rcases loop_chars s true false 0 0 [] b h c hc with hd | hd
  · rintro rfl
    exact absurd hd (by decide)
  · rw [hd]
    decide

/-- `ParseCIDR` on `base/mask` for a dotted quad `base` and a decimal prefix
length `n ≤ 32`. -/
theorem ParseCIDR_quad (base mask : String) (b : List Nat) (n : Nat)
    (hb : parseIPv4Fields base.data = some b)
    (hm : dtoi mask.data = (n, mask.data.length, true)) (hn : n ≤ 32) :
    ParseCIDR (base ++ "/" ++ mask) =
      some { IP := IP.Mask (v4InV6Prefix ++ b) (CIDRMask n 32), Mask := CIDRMask n 32 } := by
  have hd : (base ++ "/" ++ mask).data = base.data ++ '/' :: mask.data := by
    rw [String.data_append, String.data_append]
    simp
  obtain ⟨h1, h2, h3⟩ := takeWhile_append_sep '/' base.data mask.data (quad_no_slash _ b hb)
  have hnot : ¬ (n > 32) := by omega
  simp [ParseCIDR, hd, h1, h2, h3, ParseAddr_of_parseIPv4Fields _ b hb, Addr.Zone, hm,
    Addr.BitLen, Addr.As16, hnot]

set_option maxRecDepth 100000 in
/-- A byte masked by the mask byte with `k` leading ones keeps its first `k`
bits. -/
theorem land_mask_byte :
    ∀ k, k < 9 → ∀ y, y < 256 →
      y &&& (255 - 255 / 2 ^ k) = y / 2 ^ (8 - k) * 2 ^ (8 - k) := by
  decide

set_option maxRecDepth 100000 in
/-- The four bytes of the IPv4 mask with `n` leading ones. -/
theorem CIDRMask_quad :
    ∀ n, n < 33 → CIDRMask n 32 =
      [255 - 255 / 2 ^ min n 8, 255 - 255 / 2 ^ min (n - 8) 8,
       255 - 255 / 2 ^ min (n - 16) 8, 255 - 255 / 2 ^ min (n - 24) 8] := by
  decide

theorem land_land_self (b m : Nat) : b &&& m &&& m = b &&& m := by
  rw [Nat.land_assoc, Nat.and_self]

/-- `Contains` for an IPv4 network with a 4-byte mask and an IPv4 address:
the masked octets are compared one by one. -/
theorem Contains_quad (b0 b1 b2 b3 m0 m1 m2 m3 x0 x1 x2 x3 : Nat) :
    IPNet.Contains
        { IP := IP.Mask (v4InV6Prefix ++ [b0, b1, b2, b3]) [m0, m1, m2, m3],
          Mask := [m0, m1, m2, m3] }
        (v4InV6Prefix ++ [x0, x1, x2, x3]) = true ↔
      (b0 &&& m0 = x0 &&& m0 ∧ b1 &&& m1 = x1 &&& m1 ∧
        b2 &&& m2 = x2 &&& m2 ∧ b3 &&& m3 = x3 &&& m3) := by
  have hmask : IP.Mask (v4InV6Prefix ++ [b0, b1, b2, b3]) [m0, m1, m2, m3] =
      [b0 &&& m0, b1 &&& m1, b2 &&& m2, b3 &&& m3] := by
    simp [IP.Mask, v4InV6Prefix]
  have hto4 : IP.To4 (v4InV6Prefix ++ [x0, x1, x2, x3]) = some [x0, x1, x2, x3] := by
    simp [IP.To4, v4InV6Prefix]
  have hnet : networkNumberAndMask
      { IP := [b0 &&& m0, b1 &&& m1, b2 &&& m2, b3 &&& m3], Mask := [m0, m1, m2, m3] } =
      some ([b0 &&& m0, b1 &&& m1, b2 &&& m2, b3 &&& m3], [m0, m1, m2, m3]) := by
    simp [networkNumberAndMask, IP.To4]
  rw [hmask]
  simp only [IPNet.Contains, hto4, hnet, List.length_cons, List.length_nil,
    IPNet.Contains.loop, land_land_self]
  simp

set_option maxHeartbeats 4000000 in
/-- Comparing the four octets under the mask with `n` leading ones is
comparing the first `n` bits of the two addresses. -/
theorem masked_octets_iff_firstBits (n : Nat) (hn : n ≤ 32)
    (b0 b1 b2 b3 x0 x1 x2 x3 : Nat)
    (hb0 : b0 ≤ 255) (hb1 : b1 ≤ 255) (hb2 : b2 ≤ 255) (hb3 : b3 ≤ 255)
    (hx0 : x0 ≤ 255) (hx1 : x1 ≤ 255) (hx2 : x2 ≤ 255) (hx3 : x3 ≤ 255) :
    (b0 / 2 ^ (8 - min n 8) * 2 ^ (8 - min n 8) = x0 / 2 ^ (8 - min n 8) * 2 ^ (8 - min n 8) ∧
      b1 / 2 ^ (8 - min (n - 8) 8) * 2 ^ (8 - min (n - 8) 8) =
        x1 / 2 ^ (8 - min (n - 8) 8) * 2 ^ (8 - min (n - 8) 8) ∧
      b2 / 2 ^ (8 - min (n - 16) 8) * 2 ^ (8 - min (n - 16) 8) =
        x2 / 2 ^ (8 - min (n - 16) 8) * 2 ^ (8 - min (n - 16) 8) ∧
      b3 / 2 ^ (8 - min (n - 24) 8) * 2 ^ (8 - min (n - 24) 8) =
        x3 / 2 ^ (8 - min (n - 24) 8) * 2 ^ (8 - min (n - 24) 8)) ↔
    firstBits n [x0, x1, x2, x3] = firstBits n [b0, b1, b2, b3] := by
  simp only [firstBits, beValue, List.foldl]
  interval_cases n <;>
  simp only [Nat.min_def, Nat.reduceSub, Nat.reduceLeDiff, Nat.reducePow, if_true, if_false] <;>
  omega

/-- The decimal numeral of a prefix length `n ≤ 32` is read back as `n` by
`dtoi`, which uses the whole numeral. -/
theorem dtoi_decimal :
    ∀ n, n < 33 → dtoi (toString n).data = (n, (toString n).data.length, true) := by
  decide

/-- `IPInCIDR` on a dotted quad and an IPv4 block, in terms of the first `n`
bits. -/
theorem IPInCIDR_quad (ip base mask : String) (x b : List Nat) (n : Nat)
    (hx : parseIPv4Fields ip.data = some x) (hb : parseIPv4Fields base.data = some b)
    (hm : dtoi mask.data = (n, mask.data.length, true)) (hn : n ≤ 32) :
    IPInCIDR ip (base ++ "/" ++ mask) = true ↔ firstBits n x = firstBits n b := by
  have hcidr := ParseCIDR_quad base mask b n hb hm hn
  have hip := ParseIP_of_parseIPv4Fields ip x hx
  obtain ⟨x0, x1, x2, x3, rfl, hx0, hx1, hx2, hx3⟩ := parseIPv4Fields_octets _ _ hx
  obtain ⟨b0, b1, b2, b3, rfl, hb0, hb1, hb2, hb3⟩ := parseIPv4Fields_octets _ _ hb
  have hk : ∀ k, min (n - k) 8 < 9 := fun k => by omega
  have hk0 : min n 8 < 9 := by omega
  simp only [IPInCIDR, hip, hcidr]
  rw [CIDRMask_quad n (by omega), Contains_quad,
    land_mask_byte _ hk0 b0 (by omega), land_mask_byte _ hk0 x0 (by omega),
    land_mask_byte _ (hk 8) b1 (by omega), land_mask_byte _ (hk 8) x1 (by omega),
    land_mask_byte _ (hk 16) b2 (by omega), land_mask_byte _ (hk 16) x2 (by omega),
    land_mask_byte _ (hk 24) b3 (by omega), land_mask_byte _ (hk 24) x3 (by omega)]
  exact masked_octets_iff_firstBits n hn b0 b1 b2 b3 x0 x1 x2 x3 hb0 hb1 hb2 hb3 hx0 hx1 hx2 hx3

/-- C7: for a dotted-quad `ip` with octets `x` and a CIDR string `base/mask`
whose base is a dotted quad with octets `b` and whose mask is the decimal
prefix length `n ≤ 32`, `IPInCIDR(ip, cidr)` is true exactly when the first
`n` bits of `ip` are the first `n` bits of the base (which need not be
aligned). With `n = 0` every IPv4 address matches, with `n = 32` only the base
address itself. -/
theorem IPInCIDR_ipv4 (ip base mask : String) (x b : List Nat) (n : Nat)
    (hx : parseIPv4Fields ip.data = some x) (hb : parseIPv4Fields base.data = some b)
    (hm : dtoi mask.data = (n, mask.data.length, true)) (hn : n ≤ 32) :
    (IPInCIDR ip (base ++ "/" ++ mask) = true ↔ firstBits n x = firstBits n b) ∧
    (n = 0 → IPInCIDR ip (base ++ "/" ++ mask) = true) ∧
    (n = 32 → (IPInCIDR ip (base ++ "/" ++ mask) = true ↔ x = b)) := by
  have h := IPInCIDR_quad ip base mask x b n hx hb hm hn
  obtain ⟨x0, x1, x2, x3, rfl, hx0, hx1, hx2, hx3⟩ := parseIPv4Fields_octets _ _ hx
  obtain ⟨b0, b1, b2, b3, rfl, hb0, hb1, hb2, hb3⟩ := parseIPv4Fields_octets _ _ hb
  refine ⟨h, ?_, ?_⟩
  · intro h0
    subst h0
    rw [h]
    simp only [firstBits, beValue, List.foldl]
    omega
  · intro h32
    subst h32
    rw [h]
    simp only [firstBits, beValue, List.foldl, List.cons.injEq, and_true]
    omega

theorem IPInCIDR_ipv4_witness :
    (IPInCIDR "192.168.1.100" ("192.168.1.7" ++ "/" ++ "24") = true ↔
      firstBits 24 [192, 168, 1, 100] = firstBits 24 [192, 168, 1, 7]) ∧
    IPInCIDR "11.0.0.1" ("10.0.0.0" ++ "/" ++ "0") = true :=
  ⟨(IPInCIDR_ipv4 "192.168.1.100" "192.168.1.7" "24" [192, 168, 1, 100] [192, 168, 1, 7] 24
      (by decide) (by decide) (by decide) (by decide)).1,
   (IPInCIDR_ipv4 "11.0.0.1" "10.0.0.0" "0" [11, 0, 0, 1] [10, 0, 0, 0] 0
      (by decide) (by decide) (by decide) (by decide)).2.1 rfl⟩

/-! ## `In` and `InIgnoreCase` -/

theorem In_iff_mem (value : String) (list : List String) :
    In value list = true ↔ value ∈ list := by
  induction list with
  | nil => simp [In]
  | cons item list ih =>
    simp only [In, List.mem_cons]
    by_cases h : value = item
    · simp [h]
    · simp [h, ih]

theorem InIgnoreCase_loop_eq_In (lower : Char → Char) (v : String) (list : List String) :
    InIgnoreCase.loop lower v list = In v (list.map (stringsToLower lower)) := by
  induction list with
  | nil => simp [InIgnoreCase.loop, In]
  | cons item list ih => simp only [InIgnoreCase.loop, In, List.map_cons, ih]

/-- C11: `In(value, list)` is true exactly when `value` is equal, as a string,
to some element of `list` (so it is false on the empty list);
`InIgnoreCase(value, list)` is true exactly when the lower-cased value is the
lower-cased form of some element, it is `In(lower(value), map lower list)`,
and `In(value, list)` implies `InIgnoreCase(value, list)`. The case table of
`unicode.ToLower` is any function `lower`. -/
theorem In_and_InIgnoreCase (lower : Char → Char) (value : String) (list : List String) :
    (In value list = true ↔ value ∈ list) ∧
    In value [] = false ∧
    (InIgnoreCase lower value list = true ↔
      ∃ item ∈ list, stringsToLower lower value = stringsToLower lower item) ∧
    InIgnoreCase lower value list =
      In (stringsToLower lower value) (list.map (stringsToLower lower)) ∧
    (In value list = true → InIgnoreCase lower value list = true) := by
  have heq : InIgnoreCase lower value list =
      In (stringsToLower lower value) (list.map (stringsToLower lower)) := by
    simp only [InIgnoreCase, InIgnoreCase_loop_eq_In]
  have hiff : InIgnoreCase lower value list = true ↔
      ∃ item ∈ list, stringsToLower lower value = stringsToLower lower item := by
    rw [heq, In_iff_mem, List.mem_map]
    constructor
    · rintro ⟨item, hm, he⟩; exact ⟨item, hm, he.symm⟩
    · rintro ⟨item, hm, he⟩; exact ⟨item, hm, he.symm⟩
  refine ⟨In_iff_mem value list, by simp [In], hiff, heq, ?_⟩
  intro h
  exact hiff.2 ⟨value, (In_iff_mem value list).1 h, rfl⟩

theorem In_and_InIgnoreCase_witness :
    In "GET" ["POST", "GET"] = true ∧ InIgnoreCase Char.toLower "GET" ["POST", "GET"] = true ∧
    In "get" ["POST", "GET"] = false ∧ InIgnoreCase Char.toLower "get" ["POST", "GET"] = true :=
  ⟨by decide,
   (In_and_InIgnoreCase Char.toLower "GET" ["POST", "GET"]).2.2.2.2 (by decide),
   by decide, by decide⟩

/-! ## Geolocation manager: `Lookup` -/

/-- C15: for every manager state and every string that does not parse as an
IP address, `Lookup` returns the result whose Country is "无效IP" and whose
other five fields are empty; no backend of the manager enters the result. -/
theorem Lookup_invalid (m : Manager) (ipStr : String) (h : ParseIP ipStr = none) :
    m.Lookup ipStr =
      { Country := "无效IP", Province := "", City := "", ISP := "", Region := "",
        District := "" } := by
  simp [Manager.Lookup, h]

theorem Lookup_invalid_witness :
    ParseIP "not an ip" = none ∧
    sampleManager.Lookup "not an ip" = { Country := "无效IP" } ∧
    NewManager.Lookup "not an ip" = { Country := "无效IP" } :=
  ⟨by decide, Lookup_invalid sampleManager "not an ip" (by decide),
   Lookup_invalid NewManager "not an ip" (by decide)⟩

theorem lookupV4_unconfigured (m : Manager) (ipStr : String)
    (h1 : m.v4Source = SourceIp2Region → m.v4Searcher = none)
    (h2 : m.v4Source = SourceGeoLite2 → m.v4GeoReader = none) :
    m.lookupV4 ipStr = { Country := "未配置" } := by
  unfold Manager.lookupV4
  by_cases hs : m.v4Source = SourceIp2Region
  · have hne : ¬ (SourceIp2Region = SourceGeoLite2) := by decide
    simp [hs, h1 hs, hne]
  · by_cases hg : m.v4Source = SourceGeoLite2
    · have hne2 : ¬ (SourceGeoLite2 = SourceIp2Region) := by decide
      simp [hg, h2 hg, hne2]
    · simp [hs, hg]

theorem lookupV6_unconfigured (m : Manager) (ipStr : String)
    (h1 : m.v6Source = SourceIp2Region → m.v6Searcher = none)
    (h2 : m.v6Source = SourceGeoLite2 → m.v6GeoReader = none) :
    m.lookupV6 ipStr = { Country := "未配置" } := by
  unfold Manager.lookupV6
  by_cases hs : m.v6Source = SourceIp2Region
  · have hne : ¬ (SourceIp2Region = SourceGeoLite2) := by decide
    simp [hs, h1 hs, hne]
  · by_cases hg : m.v6Source = SourceGeoLite2
    · have hne2 : ¬ (SourceGeoLite2 = SourceIp2Region) := by decide
      simp [hg, h2 hg, hne2]
    · simp [hs, hg]

/-- C16: when the backend of the selected source is nil for the family of the
address (no searcher under "ip2region", no reader under "geolite2"), `Lookup`
of every valid address of that family returns the result whose Country is
"未配置" and whose other fields are empty. A freshly constructed manager is in
that state for both families. -/
theorem Lookup_unconfigured (m : Manager) (ipStr : String) (ip : List Nat)
    (hip : ParseIP ipStr = some ip) :
    ((IP.To4 ip).isSome = true →
      (m.v4Source = SourceIp2Region → m.v4Searcher = none) →
      (m.v4Source = SourceGeoLite2 → m.v4GeoReader = none) →
      m.Lookup ipStr =
        { Country := "未配置", Province := "", City := "", ISP := "", Region := "",
          District := "" }) ∧
    ((IP.To4 ip).isSome = false →
      (m.v6Source = SourceIp2Region → m.v6Searcher = none) →
      (m.v6Source = SourceGeoLite2 → m.v6GeoReader = none) →
      m.Lookup ipStr =
        { Country := "未配置", Province := "", City := "", ISP := "", Region := "",
          District := "" }) ∧
    NewManager.Lookup ipStr =
      { Country := "未配置", Province := "", City := "", ISP := "", Region := "",
        District := "" } := by
  refine ⟨?_, ?_, ?_⟩
  · intro h4 h1 h2
    simp only [Manager.Lookup, hip, h4, if_true]
    exact lookupV4_unconfigured m ipStr h1 h2
  · intro h6 h1 h2
    simp only [Manager.Lookup, hip, h6]
    exact lookupV6_unconfigured m ipStr h1 h2
  · simp only [Manager.Lookup, hip]
    split
    · exact lookupV4_unconfigured _ _ (fun _ => rfl) (fun _ => rfl)
    · exact lookupV6_unconfigured _ _ (fun _ => rfl) (fun _ => rfl)

theorem Lookup_unconfigured_witness :
    NewManager.Lookup "8.8.8.8" = { Country := "未配置" } ∧
    ({ sampleManager with v6GeoReader := none }).Lookup "2001:db8::1" =
      { Country := "未配置" } :=
  ⟨(Lookup_unconfigured NewManager "8.8.8.8"
      [0, 0, 0, 0, 0, 0, 0, 0, 0, 0, 255, 255, 8, 8, 8, 8] (by decide)).2.2,
   (Lookup_unconfigured { sampleManager with v6GeoReader := none } "2001:db8::1"
      [32, 1, 13, 184, 0, 0, 0, 0, 0, 0, 0, 0, 0, 0, 0, 1] (by decide)).2.1
      (by decide) (fun h => absurd h (by decide)) (fun _ => rfl)⟩

/-- C17: on the geo-database path, when the reader returns a record without
error, Country is the zh-CN name of the record if that is not empty, else its
en name. When both names are empty the IPv6 path gives "内网", so its Country
is never empty, and the IPv4 path gives the empty Country. -/
theorem Lookup_geo_country (m : Manager) (ipStr : String) (ip : List Nat) (reader : GeoReader)
    (names : List (String × String))
    (hip : ParseIP ipStr = some ip) (hrec : reader.Country ip = some names) :
    ((IP.To4 ip).isSome = true → m.v4Source = SourceGeoLite2 → m.v4GeoReader = some reader →
      m.Lookup ipStr =
        { Country := if mapGet names "zh-CN" ≠ "" then mapGet names "zh-CN"
                     else mapGet names "en" } ∧
      (mapGet names "zh-CN" = "" → mapGet names "en" = "" → (m.Lookup ipStr).Country = "")) ∧
    ((IP.To4 ip).isSome = false → m.v6Source = SourceGeoLite2 → m.v6GeoReader = some reader →
      m.Lookup ipStr =
        { Country := if mapGet names "zh-CN" ≠ "" then mapGet names "zh-CN"
                     else if mapGet names "en" ≠ "" then mapGet names "en" else "内网" } ∧
      (m.Lookup ipStr).Country ≠ "") := by
  have hne : ¬ (SourceGeoLite2 = SourceIp2Region) := by decide
  constructor
  · intro h4 hsrc hr
    have hl : m.Lookup ipStr =
        { Country := if mapGet names "zh-CN" ≠ "" then mapGet names "zh-CN"
                     else mapGet names "en" } := by
      simp only [Manager.Lookup, hip, h4, if_true, Manager.lookupV4, hsrc, hr, Option.getD_some]
      by_cases hz : mapGet names "zh-CN" = "" <;> simp [hne, hrec, hz]
    refine ⟨hl, ?_⟩
    intro hz he
    rw [hl]
    simp [hz, he]
  · intro h6 hsrc hr
    have hl : m.Lookup ipStr =
        { Country := if mapGet names "zh-CN" ≠ "" then mapGet names "zh-CN"
                     else if mapGet names "en" ≠ "" then mapGet names "en" else "内网" } := by
      simp only [Manager.Lookup, hip, h6, Manager.lookupV6, hsrc, hr, Option.getD_some]
      by_cases hz : mapGet names "zh-CN" = "" <;> by_cases he : mapGet names "en" = "" <;>
        simp [hne, hrec, hz, he]
    refine ⟨hl, ?_⟩
    rw [hl]
    by_cases hz : mapGet names "zh-CN" = "" <;> by_cases he : mapGet names "en" = "" <;>
      simp [hz, he]

theorem Lookup_geo_country_witness :
    ({ sampleManager with v4Source := SourceGeoLite2,
                          v4GeoReader := some { Country := fun _ => some [("en", "China")] } }
      ).Lookup "1.2.3.4" = { Country := "China" } ∧
    ({ sampleManager with v6GeoReader := some { Country := fun _ => some [] } }
      ).Lookup "::1" = { Country := "内网" } ∧
    ({ sampleManager with v4Source := SourceGeoLite2,
                          v4GeoReader := some { Country := fun _ => some [] } }
      ).Lookup "1.2.3.4" = { Country := "" } :=
  ⟨((Lookup_geo_country
      { sampleManager with v4Source := SourceGeoLite2,
                           v4GeoReader := some { Country := fun _ => some [("en", "China")] } }
      "1.2.3.4" [0, 0, 0, 0, 0, 0, 0, 0, 0, 0, 255, 255, 1, 2, 3, 4]
      { Country := fun _ => some [("en", "China")] } [("en", "China")]
      (by decide) rfl).1 (by decide) rfl rfl).1,
   by decide, by decide⟩

/-! ## Rule helper -/

/-- C18: for every rule helper whose `KnowledgeBase` is nil, every fact name
and every fact (a nil one included), `Match` returns no matched rules and the
error "没有规则数据"; the answer is the same for every engine, which is not
called. -/
theorem Match_without_knowledge_base (h : RuleHelper) (key : String) (ruleinfo : Option WebLog)
    (hkb : h.KnowledgeBase = none) :
    h.Match key ruleinfo = ([], some "没有规则数据") ∧
    ∀ e : GruleEngine, ({ h with engine := e }).Match key ruleinfo = h.Match key ruleinfo := by
  constructor
  · simp [RuleHelper.Match, hkb]
  · intro e
    simp [RuleHelper.Match, hkb]

theorem Match_without_knowledge_base_witness :
    ({ sampleHelper with KnowledgeBase := none }).Match "MF" (some { SRC_IP := "127.0.0.1" }) =
      ([], some "没有规则数据") ∧
    sampleHelper.Match "MF" (some { SRC_IP := "127.0.0.1" }) = ([{ RuleName := "R1" }], none) :=
  ⟨(Match_without_knowledge_base { sampleHelper with KnowledgeBase := none } "MF"
      (some { SRC_IP := "127.0.0.1" }) rfl).1, by decide⟩

/-! ## `ParseRegion` -/

theorem splitChars_ne_nil (sep : Char) (s : List Char) : splitChars sep s ≠ [] := by
  cases s with
  | nil => simp [splitChars]
  | cons c t =>
    simp only [splitChars]
    split
    · simp
    · split <;> simp

theorem stringsSplit_ne_nil (s : String) (sep : Char) : stringsSplit s sep ≠ [] := by
  simp [stringsSplit, splitChars_ne_nil]

theorem stringsSplit_getLast (s : String) (sep : Char) :
    ∃ last, (stringsSplit s sep).getLast? = some last := by
  cases h : (stringsSplit s sep).getLast? with
  | none => exact absurd (List.getLast?_eq_none_iff.1 h) (stringsSplit_ne_nil s sep)
  | some last => exact ⟨last, rfl⟩

/-- `getField` on a field that is present, not blank, not `"0"` and without
surrounding white space is the field itself; on an absent index it is `""`. -/
theorem getField_clean (fields : List String) (i : Nat)
    (hf : ∀ f ∈ fields, f ≠ "" ∧ f ≠ "0" ∧ TrimSpace f = f) :
    getField fields i = fields.getD i "" := by
  unfold getField
  by_cases hi : i ≥ fields.length
  · rw [if_pos hi, List.getD_eq_default _ _ hi]
  · have hlt : i < fields.length := by omega
    have hmem : fields.getD i "" ∈ fields := by
      rw [List.getD_eq_getElem _ _ hlt]
      exact List.getElem_mem _
    obtain ⟨h1, h2, h3⟩ := hf _ hmem
    rw [if_neg hi]
    generalize fields.getD i "" = x at h1 h2 h3 ⊢
    simp [h3, h1, h2]

/-- Without the marker in the last field, `ParseRegion` is the positional
reading of the fields. -/
theorem ParseRegion_eq_positional (region : String) (format : DBFormat) (hne : region ≠ "")
    (hl : ∀ last, (stringsSplit region '|').getLast? = some last →
      stringsContains last "内网IP" = false) :
    ParseRegion region format = ParseRegion.positional (stringsSplit region '|') format := by
  obtain ⟨last, hlast⟩ := stringsSplit_getLast region '|'
  simp [ParseRegion, hne, hlast, hl last hlast]

/-- With the marker in the last field, `ParseRegion` overrides five fields of
the positional reading. -/
theorem ParseRegion_eq_override (region : String) (format : DBFormat) (hne : region ≠ "")
    (last : String) (hlast : (stringsSplit region '|').getLast? = some last)
    (hm : stringsContains last "内网IP" = true) :
    ParseRegion region format =
      { ParseRegion.positional (stringsSplit region '|') format with
        Country := "内网", Province := "内网", City := "内网", Region := "", ISP := "" } := by
  simp [ParseRegion, hne, hlast, hm]

theorem positional_legacy (fields : List String) :
    ParseRegion.positional fields FormatLegacy =
      { Country := getField fields 0, Region := getField fields 1,
        Province := getField fields 2, City := getField fields 3, ISP := getField fields 4 } := by
  simp [ParseRegion.positional]

theorem positional_opensource (fields : List String) :
    ParseRegion.positional fields FormatOpenSource =
      { Country := getField fields 0, Province := getField fields 1,
        City := getField fields 2, ISP := getField fields 3 } := by
  have h1 : (FormatOpenSource == FormatLegacy) = false := by decide
  simp [ParseRegion.positional, h1]

theorem positional_full (fields : List String) :
    ParseRegion.positional fields FormatFull =
      { Region := getField fields 0, Country := getField fields 1,
        Province := getField fields 2, City := getField fields 3,
        District := getField fields 4, ISP := getField fields 5 } := by
  have h1 : (FormatFull == FormatLegacy) = false := by decide
  have h2 : (FormatFull == FormatOpenSource) = false := by decide
  simp [ParseRegion.positional, h1, h2]

theorem positional_standard (fields : List String) :
    ParseRegion.positional fields FormatStandard =
      { Country := getField fields 0, Province := getField fields 1,
        City := getField fields 2, District := getField fields 3, ISP := getField fields 4 } := by
  have h1 : (FormatStandard == FormatLegacy) = false := by decide
  have h2 : (FormatStandard == FormatOpenSource) = false := by decide
  have h3 : (FormatStandard == FormatFull) = false := by decide
  simp [ParseRegion.positional, h1, h2, h3]

theorem positional_compact (fields : List String) :
    ParseRegion.positional fields FormatCompact =
      { Country := getField fields 0, Province := getField fields 1,
        City := getField fields 2, ISP := getField fields 3 } := by
  have h1 : (FormatCompact == FormatLegacy) = false := by decide
  have h2 : (FormatCompact == FormatOpenSource) = false := by decide
  have h3 : (FormatCompact == FormatFull) = false := by decide
  have h4 : (FormatCompact == FormatStandard) = false := by decide
  simp [ParseRegion.positional, h1, h2, h3, h4]

theorem positional_other (fields : List String) (format : DBFormat)
    (h1 : format ≠ FormatOpenSource) (h2 : format ≠ FormatFull) (h3 : format ≠ FormatStandard)
    (h4 : format ≠ FormatCompact) :
    ParseRegion.positional fields format =
      { Country := getField fields 0, Region := getField fields 1,
        Province := getField fields 2, City := getField fields 3, ISP := getField fields 4 } := by
  simp only [ParseRegion.positional, beq_iff_eq, h1, h2, h3, h4, if_false]
  split <;> rfl

/-- C12: `ParseRegion` reads the `|`-separated fields by position, per format.
For a region string whose fields are all non-empty, not `"0"`, without
surrounding white space, and whose last field does not contain the marker
"内网IP", each named result field is the field at its position (`""` when
the string has no field there), and the fields a format does not name are
empty. -/
theorem ParseRegion_positional_fields (region : String)
    (hf : ∀ f ∈ stringsSplit region '|', f ≠ "" ∧ f ≠ "0" ∧ TrimSpace f = f)
    (hl : ∀ last, (stringsSplit region '|').getLast? = some last →
      stringsContains last "内网IP" = false) :
    ParseRegion region FormatLegacy =
      { Country := (stringsSplit region '|').getD 0 "",
        Region := (stringsSplit region '|').getD 1 "",
        Province := (stringsSplit region '|').getD 2 "",
        City := (stringsSplit region '|').getD 3 "",
        ISP := (stringsSplit region '|').getD 4 "" } ∧
    ParseRegion region FormatOpenSource =
      { Country := (stringsSplit region '|').getD 0 "",
        Province := (stringsSplit region '|').getD 1 "",
        City := (stringsSplit region '|').getD 2 "",
        ISP := (stringsSplit region '|').getD 3 "" } ∧
    ParseRegion region FormatFull =
      { Region := (stringsSplit region '|').getD 0 "",
        Country := (stringsSplit region '|').getD 1 "",
        Province := (stringsSplit region '|').getD 2 "",
        City := (stringsSplit region '|').getD 3 "",
        District := (stringsSplit region '|').getD 4 "",
        ISP := (stringsSplit region '|').getD 5 "" } ∧
    ParseRegion region FormatStandard =
      { Country := (stringsSplit region '|').getD 0 "",
        Province := (stringsSplit region '|').getD 1 "",
        City := (stringsSplit region '|').getD 2 "",
        District := (stringsSplit region '|').getD 3 "",
        ISP := (stringsSplit region '|').getD 4 "" } ∧
    ParseRegion region FormatCompact =
      { Country := (stringsSplit region '|').getD 0 "",
        Province := (stringsSplit region '|').getD 1 "",
        City := (stringsSplit region '|').getD 2 "",
        ISP := (stringsSplit region '|').getD 3 "" } := by
  have hne : region ≠ "" := by
    rintro rfl
    exact (hf "" (by decide)).1 rfl
  have hg := getField_clean (stringsSplit region '|')
  refine ⟨?_, ?_, ?_, ?_, ?_⟩
  · rw [ParseRegion_eq_positional region _ hne hl, positional_legacy]
    simp only [hg _ hf]
  · rw [ParseRegion_eq_positional region _ hne hl, positional_opensource]
    simp only [hg _ hf]
  · rw [ParseRegion_eq_positional region _ hne hl, positional_full]
    simp only [hg _ hf]
  · rw [ParseRegion_eq_positional region _ hne hl, positional_standard]
    simp only [hg _ hf]
  · rw [ParseRegion_eq_positional region _ hne hl, positional_compact]
    simp only [hg _ hf]

theorem ParseRegion_positional_fields_witness :
    ParseRegion "亚洲|中国|浙江省|杭州市|西湖区|电信|x" FormatFull =
      { Region := "亚洲", Country := "中国", Province := "浙江省", City := "杭州市",
        District := "西湖区", ISP := "电信" } ∧
    ParseRegion "中国|浙江省|杭州市" FormatLegacy =
      { Country := "中国", Region := "浙江省", Province := "杭州市", City := "", ISP := "" } :=
  ⟨(ParseRegion_positional_fields "亚洲|中国|浙江省|杭州市|西湖区|电信|x"
      (by decide) (by decide)).2.2.1,
   (ParseRegion_positional_fields "中国|浙江省|杭州市" (by decide) (by decide)).1⟩

/-- C13: for every format and every non-empty region string, with `last` the
last `|`-separated field: if `last` contains "内网IP", then Country, Province
and City are "内网", ISP and Region are empty and District is the value read
by position; if `last` does not contain it, the result is the positional
reading, whatever the earlier fields contain. -/
theorem ParseRegion_private_marker (region : String) (format : DBFormat) (hne : region ≠ "") :
    ∃ last, (stringsSplit region '|').getLast? = some last ∧
      (stringsContains last "内网IP" = true →
        (ParseRegion region format).Country = "内网" ∧
        (ParseRegion region format).Province = "内网" ∧
        (ParseRegion region format).City = "内网" ∧
        (ParseRegion region format).ISP = "" ∧
        (ParseRegion region format).Region = "" ∧
        (ParseRegion region format).District =
          (ParseRegion.positional (stringsSplit region '|') format).District) ∧
      (stringsContains last "内网IP" = false →
        ParseRegion region format =
          ParseRegion.positional (stringsSplit region '|') format) := by
  obtain ⟨last, hlast⟩ := stringsSplit_getLast region '|'
  refine ⟨last, hlast, ?_, ?_⟩
  · intro hm
    rw [ParseRegion_eq_override region format hne last hlast hm]
    exact ⟨rfl, rfl, rfl, rfl, rfl, rfl⟩
  · intro hm
    apply ParseRegion_eq_positional region format hne
    intro l hl
    rw [hlast] at hl
    cases hl
    exact hm

theorem ParseRegion_private_marker_witness :
    ParseRegion "0|0|0|内网IP|内网IP" FormatLegacy =
      { Country := "内网", Province := "内网", City := "内网" } ∧
    ParseRegion "保留|x|y|z|内网IP 段" FormatStandard =
      { Country := "内网", Province := "内网", City := "内网", District := "z" } ∧
    ParseRegion "内网IP|浙江省|杭州市|电信" FormatOpenSource =
      { Country := "内网IP", Province := "浙江省", City := "杭州市", ISP := "电信" } ∧
    (∃ last, (stringsSplit "0|0|0|内网IP|内网IP" '|').getLast? = some last ∧
      stringsContains last "内网IP" = true) :=
  ⟨by decide, by decide, by decide,
   (ParseRegion_private_marker "0|0|0|内网IP|内网IP" FormatLegacy (by decide)).elim
     (fun last h => ⟨last, h.1, by
       have h1 := h.1
       have h2 : (stringsSplit "0|0|0|内网IP|内网IP" '|').getLast? = some "内网IP" := by decide
       rw [h2] at h1
       cases h1
       decide⟩)⟩

theorem ParseRegion_District (region : String) (format : DBFormat) :
    (ParseRegion region format).District = "" ∨
    (ParseRegion region format).District =
      (ParseRegion.positional (stringsSplit region '|') format).District := by
  by_cases hne : region = ""
  · left
    simp [ParseRegion, hne]
  · obtain ⟨last, hlast⟩ := stringsSplit_getLast region '|'
    right
    cases hm : stringsContains last "内网IP" with
    | true => rw [ParseRegion_eq_override region format hne last hlast hm]
    | false =>
      rw [ParseRegion_eq_positional region format hne (fun l hl => by
        rw [hlast] at hl
        cases hl
        exact hm)]

theorem ParseRegion_Region (region : String) (format : DBFormat) :
    (ParseRegion region format).Region = "" ∨
    (ParseRegion region format).Region =
      (ParseRegion.positional (stringsSplit region '|') format).Region := by
  by_cases hne : region = ""
  · left
    simp [ParseRegion, hne]
  · obtain ⟨last, hlast⟩ := stringsSplit_getLast region '|'
    cases hm : stringsContains last "内网IP" with
    | true =>
      left
      rw [ParseRegion_eq_override region format hne last hlast hm]
    | false =>
      right
      rw [ParseRegion_eq_positional region format hne (fun l hl => by
        rw [hlast] at hl
        cases hl
        exact hm)]

/-- C14: the fields that a format does not carry are empty in the result of
`ParseRegion`, for every input string: Region and District with opensource
and compact, District with legacy and with every unrecognised format, Region
with standard. -/
theorem ParseRegion_absent_fields (region : String) (format : DBFormat) :
    ((format = FormatOpenSource ∨ format = FormatCompact) →
      (ParseRegion region format).Region = "" ∧ (ParseRegion region format).District = "") ∧
    ((format = FormatLegacy ∨
        (format ≠ FormatOpenSource ∧ format ≠ FormatFull ∧ format ≠ FormatStandard ∧
          format ≠ FormatCompact)) →
      (ParseRegion region format).District = "") ∧
    (format = FormatStandard → (ParseRegion region format).Region = "") := by
  have hD := ParseRegion_District region format
  have hR := ParseRegion_Region region format
  refine ⟨?_, ?_, ?_⟩
  · rintro (rfl | rfl)
    · rw [positional_opensource] at hD hR
      exact ⟨hR.elim id id, hD.elim id id⟩
    · rw [positional_compact] at hD hR
      exact ⟨hR.elim id id, hD.elim id id⟩
  · rintro (rfl | ⟨h1, h2, h3, h4⟩)
    · rw [positional_legacy] at hD
      exact hD.elim id id
    · rw [positional_other _ _ h1 h2 h3 h4] at hD
      exact hD.elim id id
  · rintro rfl
    rw [positional_standard] at hR
    exact hR.elim id id

theorem ParseRegion_absent_fields_witness :
    (ParseRegion "中国|浙江省|杭州市|电信|extra|more|内网IP" FormatOpenSource).Region = "" ∧
    (ParseRegion "中国|浙江省|杭州市|电信|extra|more|内网IP" FormatOpenSource).District = "" ∧
    (ParseRegion "a|b|c|d|e|f|g" "no-such-format").District = "" ∧
    (ParseRegion "a|b|c|d|e|f|g" FormatStandard).Region = "" :=
  ⟨((ParseRegion_absent_fields "中国|浙江省|杭州市|电信|extra|more|内网IP" FormatOpenSource).1
      (Or.inl rfl)).1,
   ((ParseRegion_absent_fields "中国|浙江省|杭州市|电信|extra|more|内网IP" FormatOpenSource).1
      (Or.inl rfl)).2,
   (ParseRegion_absent_fields "a|b|c|d|e|f|g" "no-such-format").2.1
      (Or.inr ⟨by decide, by decide, by decide, by decide⟩),
   (ParseRegion_absent_fields "a|b|c|d|e|f|g" FormatStandard).2.2 rfl⟩

/-! ## Rule helper: `LoadRules` -/

theorem foldl_append_init (l : List String) (init : String) :
    l.foldl (fun r s => r ++ s) init = init ++ l.foldl (fun r s => r ++ s) "" := by
  induction l generalizing init with
  | nil => simp
  | cons a l ih =>
    rw [List.foldl_cons, List.foldl_cons, ih, ih ("" ++ a), String.empty_append,
      String.append_assoc]

theorem join_cons (a : String) (l : List String) :
    String.join (a :: l) = a ++ String.join l := by
  unfold String.join
  rw [List.foldl_cons, foldl_append_init, String.empty_append]

theorem concat_foldl (cfg : List Rules) (init : String) :
    cfg.foldl (fun rulestr v => rulestr ++ v.RuleContent ++ " \n") init =
      init ++ String.join (cfg.map (fun v => v.RuleContent ++ " \n")) := by
  induction cfg generalizing init with
  | nil => simp [String.join]
  | cons v cfg ih =>
    rw [List.foldl_cons, ih, List.map_cons, join_cons]
    simp [String.append_assoc]

theorem concatRules_eq_join (cfg : List Rules) :
    concatRules cfg = String.join (cfg.map (fun v => v.RuleContent ++ " \n")) := by
  unfold concatRules
  rw [concat_foldl]
  simp

/-- C19, what the code does: when the builder returns an error inside
`LoadRules`, the error is only logged and the call goes on as after a
successful build. The library of the helper is then what the failed build
left of the library on which the clearing loop has already called
`RemoveRuleEntry` for every rule. When the creation of the instance returns,
`KnowledgeBase` is replaced by that instance and the concatenated text is
returned; when it panics, the panic is recovered, `KnowledgeBase` is the one
from before and the returned text is empty. -/
theorem LoadRules_failed_build (ast : Ast) (h : RuleHelper) (cfg : List Rules)
    (lib lib2 : KnowledgeLibrary) (err : String)
    (hlib : h.knowledgeLibrary = some lib)
    (hbuild : h.ruleBuilder.BuildRuleFromResource (clearRuleEntries ast lib) "Region" "0.0.1"
      (concatRules cfg) = (lib2, Outcome.ok (some err))) :
    (h.LoadRules ast cfg).1.knowledgeLibrary = some lib2 ∧
    (∀ kb, ast.NewKnowledgeBaseInstance lib2 "Region" "0.0.1" = Outcome.ok kb →
      (h.LoadRules ast cfg).1.KnowledgeBase = kb ∧
      (h.LoadRules ast cfg).2 = concatRules cfg) ∧
    (ast.NewKnowledgeBaseInstance lib2 "Region" "0.0.1" = Outcome.panic →
      (h.LoadRules ast cfg).1.KnowledgeBase = h.KnowledgeBase ∧
      (h.LoadRules ast cfg).2 = "") := by
  refine ⟨?_, ?_, ?_⟩
  · simp only [RuleHelper.LoadRules, hlib, hbuild]
    cases ast.NewKnowledgeBaseInstance lib2 "Region" "0.0.1" <;> rfl
  · intro kb hkb
    simp [RuleHelper.LoadRules, hlib, hbuild, hkb]
  · intro hp
    simp [RuleHelper.LoadRules, hlib, hbuild, hp]

theorem LoadRules_failed_build_witness :
    sampleHelper.knowledgeLibrary =
      some { Library := [("Region:0.0.1",
        { Name := "Region", Version := "0.0.1",
          RuleEntries := [("R1", { RuleName := "R1" })] })] } ∧
    (sampleHelper.LoadRules sampleAst
        [{ RuleContent := "garbage", RuleStatus := 1 }]).1.knowledgeLibrary =
      some { Library := [("Region:0.0.1",
        { Name := "Region", Version := "0.0.1",
          RuleEntries := [("R1", { RuleName := "Deleted_R1", Deleted := true })] })] } ∧
    (sampleHelper.LoadRules sampleAst
        [{ RuleContent := "garbage", RuleStatus := 1 }]).1.KnowledgeBase ≠
      sampleHelper.KnowledgeBase ∧
    (sampleHelper.LoadRules panickingAst
        [{ RuleContent := "garbage", RuleStatus := 1 }]).1.KnowledgeBase =
      sampleHelper.KnowledgeBase ∧
    (sampleHelper.LoadRules panickingAst
        [{ RuleContent := "garbage", RuleStatus := 1 }]).1.knowledgeLibrary ≠
      sampleHelper.knowledgeLibrary ∧
    (sampleHelper.LoadRules panickingAst
        [{ RuleContent := "garbage", RuleStatus := 1 }]).2 = "" :=
  ⟨rfl,
   (LoadRules_failed_build sampleAst sampleHelper
      [{ RuleContent := "garbage", RuleStatus := 1 }] _ _ "GRL syntax error" rfl rfl).1,
   by decide,
   ((LoadRules_failed_build panickingAst sampleHelper
      [{ RuleContent := "garbage", RuleStatus := 1 }] _ _ "GRL syntax error" rfl rfl).2.2
      rfl).1,
   by decide,
   ((LoadRules_failed_build panickingAst sampleHelper
      [{ RuleContent := "garbage", RuleStatus := 1 }] _ _ "GRL syntax error" rfl rfl).2.2
      rfl).2⟩

set_option maxRecDepth 100000 in
/-- C20, the claim as written fails: an initialised helper is given two rule
configs with rule texts that compile, the first of them disabled
(`RuleStatus = 0`). The returned text is the body of the disabled rule, then
the body of the enabled one, each followed by `" \n"`: the body of the
disabled rule is in it, and it is not the concatenation of the bodies of the
enabled configs. -/
theorem LoadRules_keeps_disabled_rules :
    (initialisedHelper.LoadRules sampleAst
        [{ RuleContent := sampleRuleA, RuleStatus := 0 },
         { RuleContent := sampleRuleB, RuleStatus := 1 }]).2 =
      sampleRuleA ++ " \n" ++ sampleRuleB ++ " \n" ∧
    stringsContains
      (initialisedHelper.LoadRules sampleAst
        [{ RuleContent := sampleRuleA, RuleStatus := 0 },
         { RuleContent := sampleRuleB, RuleStatus := 1 }]).2 sampleRuleA = true ∧
    (initialisedHelper.LoadRules sampleAst
        [{ RuleContent := sampleRuleA, RuleStatus := 0 },
         { RuleContent := sampleRuleB, RuleStatus := 1 }]).2 ≠
      String.join
        (([{ RuleContent := sampleRuleA, RuleStatus := 0 },
           { RuleContent := sampleRuleB, RuleStatus := 1 }] : List Rules).filter
            (fun v => v.RuleStatus == 1) |>.map (fun v => v.RuleContent)) := by
  decide

/-- C20, amended: when no panic is recovered during the call (the helper is
initialised, and neither the builder nor the creation of the instance
panics), the text returned by `LoadRules(ruleConfigs)` is the in-order
concatenation, over every rule config passed and whatever its `RuleStatus`, of
the rule body followed by `" \n"`; this holds whether the builder reports an
error or not. When the builder or the creation of the instance panics, or the
helper was not initialised, the recovered call returns the empty text. -/
theorem LoadRules_text (ast : Ast) (h : RuleHelper) (cfg : List Rules) :
    (∀ lib lib2 err kb, h.knowledgeLibrary = some lib →
      h.ruleBuilder.BuildRuleFromResource (clearRuleEntries ast lib) "Region" "0.0.1"
        (concatRules cfg) = (lib2, Outcome.ok err) →
      ast.NewKnowledgeBaseInstance lib2 "Region" "0.0.1" = Outcome.ok kb →
      (h.LoadRules ast cfg).2 = String.join (cfg.map (fun v => v.RuleContent ++ " \n"))) ∧
    (∀ lib lib2, h.knowledgeLibrary = some lib →
      h.ruleBuilder.BuildRuleFromResource (clearRuleEntries ast lib) "Region" "0.0.1"
        (concatRules cfg) = (lib2, Outcome.panic) →
      (h.LoadRules ast cfg).2 = "") ∧
    (∀ lib lib2 err, h.knowledgeLibrary = some lib →
      h.ruleBuilder.BuildRuleFromResource (clearRuleEntries ast lib) "Region" "0.0.1"
        (concatRules cfg) = (lib2, Outcome.ok err) →
      ast.NewKnowledgeBaseInstance lib2 "Region" "0.0.1" = Outcome.panic →
      (h.LoadRules ast cfg).2 = "") ∧
    (h.knowledgeLibrary = none → (h.LoadRules ast cfg).2 = "") := by
  refine ⟨?_, ?_, ?_, ?_⟩
  · intro lib lib2 err kb hlib hbuild hkb
    rw [← concatRules_eq_join]
    simp [RuleHelper.LoadRules, hlib, hbuild, hkb]
  · intro lib lib2 hlib hbuild
    simp [RuleHelper.LoadRules, hlib, hbuild]
  · intro lib lib2 err hlib hbuild hp
    simp [RuleHelper.LoadRules, hlib, hbuild, hp]
  · intro hlib
    simp [RuleHelper.LoadRules, hlib]

theorem LoadRules_text_witness :
    (initialisedHelper.LoadRules sampleAst
        [{ RuleContent := sampleRuleA, RuleStatus := 0 },
         { RuleContent := sampleRuleB, RuleStatus := 1 }]).2 =
      String.join [sampleRuleA ++ " \n", sampleRuleB ++ " \n"] ∧
    (initialisedHelper.LoadRules panickingAst
        [{ RuleContent := sampleRuleB, RuleStatus := 1 }]).2 = "" ∧
    (({ initialisedHelper with knowledgeLibrary := none }).LoadRules sampleAst
        [{ RuleContent := sampleRuleB, RuleStatus := 1 }]).2 = "" :=
  ⟨(LoadRules_text sampleAst initialisedHelper
      [{ RuleContent := sampleRuleA, RuleStatus := 0 },
       { RuleContent := sampleRuleB, RuleStatus := 1 }]).1 _ _ _ _ rfl rfl rfl,
   (LoadRules_text panickingAst initialisedHelper
      [{ RuleContent := sampleRuleB, RuleStatus := 1 }]).2.2.1 _ _ _ rfl rfl rfl,
   (LoadRules_text sampleAst { initialisedHelper with knowledgeLibrary := none }
      [{ RuleContent := sampleRuleB, RuleStatus := 1 }]).2.2.2 rfl⟩

/-! ## Manager: the two address families, and `Close` -/

/-- An IPv4 lookup reads the IPv4 fields of the manager only. -/
theorem lookupV4_congr (m n : Manager) (ipStr : String)
    (h1 : n.v4Source = m.v4Source) (h2 : n.v4Format = m.v4Format)
    (h3 : n.v4Searcher = m.v4Searcher) (h4 : n.v4GeoReader = m.v4GeoReader) :
    n.lookupV4 ipStr = m.lookupV4 ipStr := by
  unfold Manager.lookupV4
  rw [h1, h2, h3, h4]

/-- An IPv6 lookup reads the IPv6 fields of the manager only. -/
theorem lookupV6_congr (m n : Manager) (ipStr : String)
    (h1 : n.v6Source = m.v6Source) (h2 : n.v6Format = m.v6Format)
    (h3 : n.v6Searcher = m.v6Searcher) (h4 : n.v6GeoReader = m.v6GeoReader) :
    n.lookupV6 ipStr = m.lookupV6 ipStr := by
  unfold Manager.lookupV6
  rw [h1, h2, h3, h4]

/-- The IPv6 fields of a manager. -/
theorem LoadV4Ip2Region_v6 (lib : Lib) (t1 t2 : Nat) (m : Manager) (data : List Nat)
    (format : DBFormat) :
    (m.LoadV4Ip2Region lib t1 t2 data format).1.v6Source = m.v6Source ∧
    (m.LoadV4Ip2Region lib t1 t2 data format).1.v6Format = m.v6Format ∧
    (m.LoadV4Ip2Region lib t1 t2 data format).1.v6Searcher = m.v6Searcher ∧
    (m.LoadV4Ip2Region lib t1 t2 data format).1.v6GeoReader = m.v6GeoReader ∧
    (m.LoadV4Ip2Region lib t1 t2 data format).1.v6FileSize = m.v6FileSize ∧
    (m.LoadV4Ip2Region lib t1 t2 data format).1.v6LoadTime = m.v6LoadTime ∧
    (m.LoadV4Ip2Region lib t1 t2 data format).1.v6CreateTime = m.v6CreateTime := by
  unfold Manager.LoadV4Ip2Region
  cases lib.NewWithBuffer true data <;> cases m.v4Searcher <;> simp

theorem LoadV4GeoLite2_v6 (lib : Lib) (t1 t2 : Nat) (m : Manager) (data : List Nat) :
    (m.LoadV4GeoLite2 lib t1 t2 data).1.v6Source = m.v6Source ∧
    (m.LoadV4GeoLite2 lib t1 t2 data).1.v6Format = m.v6Format ∧
    (m.LoadV4GeoLite2 lib t1 t2 data).1.v6Searcher = m.v6Searcher ∧
    (m.LoadV4GeoLite2 lib t1 t2 data).1.v6GeoReader = m.v6GeoReader ∧
    (m.LoadV4GeoLite2 lib t1 t2 data).1.v6FileSize = m.v6FileSize ∧
    (m.LoadV4GeoLite2 lib t1 t2 data).1.v6LoadTime = m.v6LoadTime ∧
    (m.LoadV4GeoLite2 lib t1 t2 data).1.v6CreateTime = m.v6CreateTime := by
  unfold Manager.LoadV4GeoLite2
  cases lib.FromBytes data <;> cases m.v4GeoReader <;> simp

theorem LoadV6Ip2Region_v4 (lib : Lib) (t1 t2 : Nat) (m : Manager) (data : List Nat)
    (format : DBFormat) :
    (m.LoadV6Ip2Region lib t1 t2 data format).1.v4Source = m.v4Source ∧
    (m.LoadV6Ip2Region lib t1 t2 data format).1.v4Format = m.v4Format ∧
    (m.LoadV6Ip2Region lib t1 t2 data format).1.v4Searcher = m.v4Searcher ∧
    (m.LoadV6Ip2Region lib t1 t2 data format).1.v4GeoReader = m.v4GeoReader ∧
    (m.LoadV6Ip2Region lib t1 t2 data format).1.v4FileSize = m.v4FileSize ∧
    (m.LoadV6Ip2Region lib t1 t2 data format).1.v4LoadTime = m.v4LoadTime ∧
    (m.LoadV6Ip2Region lib t1 t2 data format).1.v4CreateTime = m.v4CreateTime := by
  unfold Manager.LoadV6Ip2Region
  cases lib.NewWithBuffer false data <;> cases m.v6Searcher <;> simp

theorem LoadV6GeoLite2_v4 (lib : Lib) (t1 t2 : Nat) (m : Manager) (data : List Nat) :
    (m.LoadV6GeoLite2 lib t1 t2 data).1.v4Source = m.v4Source ∧
    (m.LoadV6GeoLite2 lib t1 t2 data).1.v4Format = m.v4Format ∧
    (m.LoadV6GeoLite2 lib t1 t2 data).1.v4Searcher = m.v4Searcher ∧
    (m.LoadV6GeoLite2 lib t1 t2 data).1.v4GeoReader = m.v4GeoReader ∧
    (m.LoadV6GeoLite2 lib t1 t2 data).1.v4FileSize = m.v4FileSize ∧
    (m.LoadV6GeoLite2 lib t1 t2 data).1.v4LoadTime = m.v4LoadTime ∧
    (m.LoadV6GeoLite2 lib t1 t2 data).1.v4CreateTime = m.v4CreateTime := by
  unfold Manager.LoadV6GeoLite2
  cases lib.FromBytes data <;> cases m.v6GeoReader <;> simp

/-- The lookup of an IPv6 address is the IPv6 lookup, the one of an IPv4
address the IPv4 lookup. -/
theorem Lookup_family (m : Manager) (ipStr : String) (ip : List Nat)
    (hip : ParseIP ipStr = some ip) :
    ((IP.To4 ip).isSome = false → m.Lookup ipStr = m.lookupV6 ipStr) ∧
    ((IP.To4 ip).isSome = true → m.Lookup ipStr = m.lookupV4 ipStr) := by
  constructor
  · intro h
    simp [Manager.Lookup, hip, h]
  · intro h
    simp [Manager.Lookup, hip, h]

/-- C29: whatever the library answers (success or failure), `LoadV4Ip2Region`
and `LoadV4GeoLite2` leave the IPv6 source, format, searcher, reader, size and
times of the manager as they are, and the `Lookup` of every IPv6 address
(parsable, not an IPv4 address) is the same after as before; `LoadV6Ip2Region`
and `LoadV6GeoLite2` do the same to the IPv4 fields and to the `Lookup` of
every IPv4 address. -/
theorem Load_families_independent (lib : Lib) (t1 t2 : Nat) (m : Manager) (data : List Nat)
    (format : DBFormat) :
    (∀ n ∈ [(m.LoadV4Ip2Region lib t1 t2 data format).1, (m.LoadV4GeoLite2 lib t1 t2 data).1],
      (n.v6Source = m.v6Source ∧ n.v6Format = m.v6Format ∧ n.v6Searcher = m.v6Searcher ∧
        n.v6GeoReader = m.v6GeoReader ∧ n.v6FileSize = m.v6FileSize ∧
        n.v6LoadTime = m.v6LoadTime ∧ n.v6CreateTime = m.v6CreateTime) ∧
      ∀ ipStr ip, ParseIP ipStr = some ip → (IP.To4 ip).isSome = false →
        n.Lookup ipStr = m.Lookup ipStr) ∧
    (∀ n ∈ [(m.LoadV6Ip2Region lib t1 t2 data format).1, (m.LoadV6GeoLite2 lib t1 t2 data).1],
      (n.v4Source = m.v4Source ∧ n.v4Format = m.v4Format ∧ n.v4Searcher = m.v4Searcher ∧
        n.v4GeoReader = m.v4GeoReader ∧ n.v4FileSize = m.v4FileSize ∧
        n.v4LoadTime = m.v4LoadTime ∧ n.v4CreateTime = m.v4CreateTime) ∧
      ∀ ipStr ip, ParseIP ipStr = some ip → (IP.To4 ip).isSome = true →
        n.Lookup ipStr = m.Lookup ipStr) := by
  have key6 : ∀ n : Manager,
      (n.v6Source = m.v6Source ∧ n.v6Format = m.v6Format ∧ n.v6Searcher = m.v6Searcher ∧
        n.v6GeoReader = m.v6GeoReader ∧ n.v6FileSize = m.v6FileSize ∧
        n.v6LoadTime = m.v6LoadTime ∧ n.v6CreateTime = m.v6CreateTime) →
      ∀ ipStr ip, ParseIP ipStr = some ip → (IP.To4 ip).isSome = false →
        n.Lookup ipStr = m.Lookup ipStr := by
    intro n h ipStr ip hip h6
    rw [(Lookup_family n ipStr ip hip).1 h6, (Lookup_family m ipStr ip hip).1 h6]
    exact lookupV6_congr m n ipStr h.1 h.2.1 h.2.2.1 h.2.2.2.1
  have key4 : ∀ n : Manager,
      (n.v4Source = m.v4Source ∧ n.v4Format = m.v4Format ∧ n.v4Searcher = m.v4Searcher ∧
        n.v4GeoReader = m.v4GeoReader ∧ n.v4FileSize = m.v4FileSize ∧
        n.v4LoadTime = m.v4LoadTime ∧ n.v4CreateTime = m.v4CreateTime) →
      ∀ ipStr ip, ParseIP ipStr = some ip → (IP.To4 ip).isSome = true →
        n.Lookup ipStr = m.Lookup ipStr := by
    intro n h ipStr ip hip h4
    rw [(Lookup_family n ipStr ip hip).2 h4, (Lookup_family m ipStr ip hip).2 h4]
    exact lookupV4_congr m n ipStr h.1 h.2.1 h.2.2.1 h.2.2.2.1
  constructor
  · intro n hn
    simp only [List.mem_cons, List.mem_singleton, List.not_mem_nil, or_false] at hn
    rcases hn with rfl | rfl
    · exact ⟨LoadV4Ip2Region_v6 lib t1 t2 m data format,
        key6 _ (LoadV4Ip2Region_v6 lib t1 t2 m data format)⟩
    · exact ⟨LoadV4GeoLite2_v6 lib t1 t2 m data, key6 _ (LoadV4GeoLite2_v6 lib t1 t2 m data)⟩
  · intro n hn
    simp only [List.mem_cons, List.mem_singleton, List.not_mem_nil, or_false] at hn
    rcases hn with rfl | rfl
    · exact ⟨LoadV6Ip2Region_v4 lib t1 t2 m data format,
        key4 _ (LoadV6Ip2Region_v4 lib t1 t2 m data format)⟩
    · exact ⟨LoadV6GeoLite2_v4 lib t1 t2 m data, key4 _ (LoadV6GeoLite2_v4 lib t1 t2 m data)⟩

/-- After `Close` the four backends are nil, and the sources and formats are
the ones from before. -/
theorem Close_state (m : Manager) :
    m.Close.v4Searcher = none ∧ m.Close.v4GeoReader = none ∧
    m.Close.v6Searcher = none ∧ m.Close.v6GeoReader = none ∧
    m.Close.v4Source = m.v4Source ∧ m.Close.v4Format = m.v4Format ∧
    m.Close.v6Source = m.v6Source ∧ m.Close.v6Format = m.v6Format := by
  obtain ⟨a1, a2, s4, r4, a5, a6, a7, b1, b2, s6, r6, b5, b6, b7⟩ := m
  cases s4 <;> cases r4 <;> cases s6 <;> cases r6 <;> simp [Manager.Close]

/-- C30: after `Close()`, from every state of the manager, the four backends
are nil; `Lookup` of every parsable address, IPv4 or IPv6, returns the result
whose Country is "未配置" and whose other fields are empty; `Lookup` of every
unparsable string returns the result whose Country is "无效IP"; a second
`Close` leaves the state as it is. -/
theorem Close_releases_backends (m : Manager) :
    (m.Close.v4Searcher = none ∧ m.Close.v4GeoReader = none ∧
      m.Close.v6Searcher = none ∧ m.Close.v6GeoReader = none) ∧
    (∀ ipStr ip, ParseIP ipStr = some ip →
      m.Close.Lookup ipStr =
        { Country := "未配置", Province := "", City := "", ISP := "", Region := "",
          District := "" }) ∧
    (∀ ipStr, ParseIP ipStr = none →
      m.Close.Lookup ipStr =
        { Country := "无效IP", Province := "", City := "", ISP := "", Region := "",
          District := "" }) ∧
    m.Close.Close = m.Close := by
  obtain ⟨h1, h2, h3, h4, -⟩ := Close_state m
  refine ⟨⟨h1, h2, h3, h4⟩, ?_, ?_, ?_⟩
  · intro ipStr ip hip
    simp only [Manager.Lookup, hip]
    split
    · exact lookupV4_unconfigured _ _ (fun _ => h1) (fun _ => h2)
    · exact lookupV6_unconfigured _ _ (fun _ => h3) (fun _ => h4)
  · intro ipStr hip
    simp [Manager.Lookup, hip]
  · generalize m.Close = n at h1 h2 h3 h4
    obtain ⟨a1, a2, s4, r4, a5, a6, a7, b1, b2, s6, r6, b5, b6, b7⟩ := n
    simp only at h1 h2 h3 h4
    subst h1 h2 h3 h4
    simp [Manager.Close]

/-! ## The detectors `CheckXss` and `CheckAllowIP` -/

theorem scanForm_values (IsXSS : String → Bool) (flag : Bool) (values : List String) :
    values.foldl (fun flag v => if IsXSS v then flag else flag) flag = flag := by
  induction values with
  | nil => rfl
  | cons v values ih => rw [List.foldl_cons, ite_self, ih]

/-- The loop over the form values leaves the flag as it is. -/
theorem scanForm_eq (IsXSS : String → Bool) (flag : Bool)
    (formValue : List (String × List String)) :
    CheckXss.scanForm IsXSS flag formValue = flag := by
  induction formValue with
  | nil => rfl
  | cons kv rest ih =>
    obtain ⟨k, values⟩ := kv
    rw [CheckXss.scanForm, scanForm_values, ih]

/-- C22: for every analyzer `IsXSS`, every fact and every map of form values,
`CheckXss` returns `IsBlock = (IsXSS(URL) or IsXSS(POST_FORM))`. When it
blocks, the fact has risk level 2 and is otherwise as before, and the result
has the title "XSS跨站注入" and the content "请正确访问"; when it does not
block, the fact is as before and the result is the all-default one. The fact
and the result are the same for every two maps of form values. -/
theorem CheckXss_spec (IsXSS : String → Bool) (weblogbean : WebLog)
    (formValue : List (String × List String)) :
    (CheckXss IsXSS weblogbean formValue).2.IsBlock =
      (IsXSS weblogbean.URL || IsXSS weblogbean.POST_FORM) ∧
    ((CheckXss IsXSS weblogbean formValue).2.IsBlock = true →
      (CheckXss IsXSS weblogbean formValue).1 = { weblogbean with RISK_LEVEL := 2 } ∧
      (CheckXss IsXSS weblogbean formValue).2 =
        { JumpGuardResult := false, IsBlock := true, Title := "XSS跨站注入",
          Content := "请正确访问" }) ∧
    ((CheckXss IsXSS weblogbean formValue).2.IsBlock = false →
      (CheckXss IsXSS weblogbean formValue).1 = weblogbean ∧
      (CheckXss IsXSS weblogbean formValue).2 =
        { JumpGuardResult := false, IsBlock := false, Title := "", Content := "" }) ∧
    (∀ formValue2 : List (String × List String),
      CheckXss IsXSS weblogbean formValue2 = CheckXss IsXSS weblogbean formValue) := by
  have h : ∀ fv : List (String × List String), CheckXss IsXSS weblogbean fv =
      if (IsXSS weblogbean.URL || IsXSS weblogbean.POST_FORM) = true then
        ({ weblogbean with RISK_LEVEL := 2 },
         { JumpGuardResult := false, IsBlock := true, Title := "XSS跨站注入",
           Content := "请正确访问" })
      else (weblogbean, { JumpGuardResult := false, IsBlock := false, Title := "", Content := "" }) := by
    intro fv
    unfold CheckXss
    simp only [scanForm_eq]
    cases (IsXSS weblogbean.URL || IsXSS weblogbean.POST_FORM) <;> simp
  refine ⟨?_, ?_, ?_, ?_⟩
  · rw [h]
    cases (IsXSS weblogbean.URL || IsXSS weblogbean.POST_FORM) <;> simp
  · rw [h]
    cases (IsXSS weblogbean.URL || IsXSS weblogbean.POST_FORM) <;> simp
  · rw [h]
    cases (IsXSS weblogbean.URL || IsXSS weblogbean.POST_FORM) <;> simp
  · intro fv2
    rw [h, h]

theorem scan_iff (CheckIPInCIDR : String → String → Bool) (clientIp : String)
    (list : List IPAllowList) :
    CheckAllowIP.scan CheckIPInCIDR clientIp list = true ↔
      ∃ entry ∈ list, CheckIPInCIDR clientIp entry.Ip = true := by
  induction list with
  | nil => simp [CheckAllowIP.scan]
  | cons e rest ih =>
    unfold CheckAllowIP.scan
    by_cases h : CheckIPInCIDR clientIp e.Ip = true
    · simp [h]
    · simp [h, ih]

/-- C23: for every CIDR test and every derivation of the client address, with
the global host registered in the engine: `CheckAllowIP` returns normally, and
`JumpGuardResult` is true exactly when some entry of the allow-list of the
local host contains the client address derived with the IP mode of the local
host, or the guard of the global host is enabled (`GUARD_STATUS = 1`) and some
entry of the global allow-list contains the client address derived with the IP
mode of the global host. `IsBlock` is false and `Title` and `Content` are
empty in every case. When the global guard is not enabled the result is the
same whatever the global allow-list is; the argument `globalHostTarget` is not
read. -/
theorem CheckAllowIP_spec (CheckIPInCIDR : String → String → Bool)
    (GetClientIPByMode : String → String → String → String) (name : String)
    (waf : WafEngine) (weblogbean : WebLog) (hostTarget globalHostTarget globalHost : HostSafe)
    (hg : waf.hostTarget name = some globalHost) :
    ∃ result,
      CheckAllowIP CheckIPInCIDR GetClientIPByMode name waf weblogbean hostTarget
        globalHostTarget = Outcome.ok result ∧
      (result.JumpGuardResult = true ↔
        ((∃ entry ∈ hostTarget.IPWhiteLists.getD [],
            CheckIPInCIDR
              (GetClientIPByMode hostTarget.Host.IPMode weblogbean.NetSrcIp weblogbean.SRC_IP)
              entry.Ip = true) ∨
         (globalHost.Host.GUARD_STATUS = 1 ∧
          ∃ entry ∈ globalHost.IPWhiteLists.getD [],
            CheckIPInCIDR
              (GetClientIPByMode globalHost.Host.IPMode weblogbean.NetSrcIp weblogbean.SRC_IP)
              entry.Ip = true))) ∧
      result.IsBlock = false ∧ result.Title = "" ∧ result.Content = "" ∧
      (globalHost.Host.GUARD_STATUS ≠ 1 →
        ∀ (waf2 : WafEngine) (globalHost2 : HostSafe),
          waf2.hostTarget name = some globalHost2 → globalHost2.Host = globalHost.Host →
          CheckAllowIP CheckIPInCIDR GetClientIPByMode name waf2 weblogbean hostTarget
            globalHostTarget = Outcome.ok result) ∧
      (∀ other : HostSafe,
        CheckAllowIP CheckIPInCIDR GetClientIPByMode name waf weblogbean hostTarget other =
          Outcome.ok result) := by
  have hwaf : ∀ (w : WafEngine) (g other : HostSafe), w.hostTarget name = some g →
      CheckAllowIP CheckIPInCIDR GetClientIPByMode name w weblogbean hostTarget other =
        Outcome.ok
          { JumpGuardResult :=
              CheckAllowIP.scan CheckIPInCIDR
                (GetClientIPByMode hostTarget.Host.IPMode weblogbean.NetSrcIp weblogbean.SRC_IP)
                (hostTarget.IPWhiteLists.getD []) ||
              (decide (g.Host.GUARD_STATUS = 1) &&
                CheckAllowIP.scan CheckIPInCIDR
                  (GetClientIPByMode g.Host.IPMode weblogbean.NetSrcIp weblogbean.SRC_IP)
                  (g.IPWhiteLists.getD []))
            IsBlock := false, Title := "", Content := "" } := by
    intro w g other hw
    unfold CheckAllowIP
    simp only [hw]
    cases hl : hostTarget.IPWhiteLists <;> cases hgl : g.IPWhiteLists <;>
      by_cases hs : g.Host.GUARD_STATUS = 1 <;>
      simp [hs, CheckAllowIP.scan] <;>
      (repeat' split) <;> simp_all
  refine ⟨_, hwaf waf globalHost globalHostTarget hg, ?_, rfl, rfl, rfl, ?_, ?_⟩
  · simp only [Bool.or_eq_true, Bool.and_eq_true, decide_eq_true_eq, scan_iff]
  · intro hs waf2 g2 hw2 hh
    rw [hwaf waf2 g2 globalHostTarget hw2, hh]
    simp [hs]
  · intro other
    exact hwaf waf globalHost other hg

theorem CheckAllowIP_spec_witness :
    sampleWaf.hostTarget "全局网站:0" = some sampleGlobalHost ∧
    (∃ result,
      CheckAllowIP IPInCIDR sampleClientIP "全局网站:0" sampleWaf { NetSrcIp := "192.168.2.3" }
        sampleHost sampleHost = Outcome.ok result ∧
      result.IsBlock = false ∧ result.JumpGuardResult = true) ∧
    CheckAllowIP IPInCIDR sampleClientIP "全局网站:0" sampleWaf { NetSrcIp := "8.8.8.8" }
      sampleHost sampleHost = Outcome.ok { JumpGuardResult := false } ∧
    CheckAllowIP IPInCIDR sampleClientIP "全局网站:0" sampleWaf { NetSrcIp := "10.1.2.3" }
      sampleHost sampleHost = Outcome.ok { JumpGuardResult := true } :=
  ⟨rfl,
   (CheckAllowIP_spec IPInCIDR sampleClientIP "全局网站:0" sampleWaf { NetSrcIp := "192.168.2.3" }
      sampleHost sampleHost sampleGlobalHost rfl).elim
     (fun r h => ⟨r, h.1, h.2.2.1,
       h.2.1.2 (Or.inr ⟨rfl, ⟨{ Ip := "192.168.0.0/16" }, by decide, by decide⟩⟩)⟩),
   by decide, by decide⟩

/-! ## The range branch of `IPInRanges` -/

theorem splitChars_length (sep : Char) (s : List Char) :
    (splitChars sep s).length = s.count sep + 1 := by
  induction s with
  | nil => simp [splitChars]
  | cons c s ih =>
    unfold splitChars
    by_cases h : c = sep
    · subst h
      simp [ih]
    · have h2 : (c == sep) = false := by simp [h]
      rw [h2]
      have h3 : (c :: s).count sep = s.count sep := by
        rw [List.count_cons]
        simp [h]
      rw [h3, ← ih]
      cases hsp : splitChars sep s with
      | nil => exact absurd hsp (splitChars_ne_nil sep s)
      | cons a r => simp

theorem stringsSplit_length (s : String) (sep : Char) :
    (stringsSplit s sep).length = s.data.count sep + 1 := by
  simp [stringsSplit, splitChars_length]

/-- C25: for every `ip` and every spec `s` without "/" and with "-": when the
split of `s` on "-" gives exactly two parts `l` and `r` (which is the case
when `s` has exactly one "-"), `IPInRanges(ip, s)` is
`IPInRange(ip, TrimSpace(l), TrimSpace(r))`; when `s` has two or more "-",
`IPInRanges(ip, s)` is false, also for the `ip` that is the string `s`. -/
theorem IPInRanges_range_branch (ip s : String) (hslash : stringsContains s "/" = false)
    (hdash : stringsContains s "-" = true) :
    (∀ l r, stringsSplit s '-' = [l, r] →
      IPInRanges ip [s] = IPInRange ip (TrimSpace l) (TrimSpace r)) ∧
    (s.data.count '-' = 1 → ∃ l r, stringsSplit s '-' = [l, r]) ∧
    (s.data.count '-' ≥ 2 → IPInRanges ip [s] = false ∧ IPInRanges s [s] = false) := by
  refine ⟨?_, ?_, ?_⟩
  · intro l r hsplit
    simp [IPInRanges, hslash, hdash, hsplit]
  · intro hc
    have hl := stringsSplit_length s '-'
    rw [hc] at hl
    match hm : stringsSplit s '-', hl with
    | [l, r], _ => exact ⟨l, r, rfl⟩
  · intro hc
    have hl := stringsSplit_length s '-'
    have key : ∀ x : String, IPInRanges x [s] = false := by
      intro x
      unfold IPInRanges
      rw [hslash, hdash]
      simp only [Bool.false_eq_true, if_false, if_true]
      split
      · rename_i p0 p1 hsplit
        rw [hsplit] at hl
        simp at hl
        omega
      · rfl
    exact ⟨key ip, key s⟩

theorem IPInRanges_range_branch_witness :
    stringsSplit "10.0.0.1 - 10.0.0.9" '-' = ["10.0.0.1 ", " 10.0.0.9"] ∧
    IPInRanges "10.0.0.5" ["10.0.0.1 - 10.0.0.9"] = IPInRange "10.0.0.5" "10.0.0.1" "10.0.0.9" ∧
    IPInRanges "10.0.0.5" ["10.0.0.1 - 10.0.0.9"] = true ∧
    IPInRanges "a-b-c" ["a-b-c"] = false :=
  ⟨by decide,
   (IPInRanges_range_branch "10.0.0.5" "10.0.0.1 - 10.0.0.9" (by decide) (by decide)).1
     "10.0.0.1 " " 10.0.0.9" (by decide),
   by decide,
   ((IPInRanges_range_branch "a-b-c" "a-b-c" (by decide) (by decide)).2.2 (by decide)).2⟩

/-! ## `ParseRegion` on every input -/

theorem getField_eq_normalisedField (fields : List String) (i : Nat) :
    getField fields i = normalisedField fields[i]? := by
  unfold getField normalisedField
  by_cases hi : i ≥ fields.length
  · rw [if_pos hi, List.getElem?_eq_none hi]
  · have hlt : i < fields.length := by omega
    rw [if_neg hi, List.getElem?_eq_getElem hlt, List.getD_eq_getElem _ _ hlt]
    simp only [Bool.or_eq_true, beq_iff_eq]
    by_cases h0 : TrimSpace fields[i] = "0"
    · simp [h0]
    · by_cases h1 : TrimSpace fields[i] = ""
      · simp [h1]
      · simp [h0, h1]

/-- C26, the claim as written fails: in "中国| 0 |浙江省" the second field is
present, is not blank after trimming and is not equal to "0" (it is " 0 "),
and its trimmed text is "0"; the Region that the legacy format reads there is
nevertheless empty, because "0" is tested for after the field is trimmed. -/
theorem ParseRegion_zero_after_trimming :
    stringsSplit "中国| 0 |浙江省" '|' = ["中国", " 0 ", "浙江省"] ∧
    (" 0 " : String) ≠ "0" ∧
    TrimSpace " 0 " ≠ "" ∧
    TrimSpace " 0 " = "0" ∧
    (ParseRegion "中国| 0 |浙江省" FormatLegacy).Region = "" ∧
    (ParseRegion "中国| 0 |浙江省" FormatLegacy).Region ≠ TrimSpace " 0 " ∧
    ParseRegion "中国| 0 |浙江省" FormatLegacy = { Country := "中国", Province := "浙江省" } := by
  decide

/-- C26, amended: `ParseRegion` is defined on every region string and every
format value, and `ParseRegion("", f)` is the all-empty result. For a
non-empty region string the list of `|`-separated fields has a last field.
When that field does not contain the marker "内网IP", every field that the
format reads is the normalised text of the field at its position: `""` when
the position is absent, or when the field there is blank or "0" after
trimming, and the trimmed text of the field otherwise; the fields that the
format does not read are empty. With the marker, Country, Province and City
are "内网", ISP and Region are empty, and District is still the normalised
text at its position. -/
theorem ParseRegion_normalising (region : String) (format : DBFormat) :
    ParseRegion "" format =
      { Country := "", Province := "", City := "", ISP := "", Region := "", District := "" } ∧
    (region ≠ "" →
      ∃ last, (stringsSplit region '|').getLast? = some last ∧
        (stringsContains last "内网IP" = false →
          ((format = FormatLegacy ∨
              (format ≠ FormatOpenSource ∧ format ≠ FormatFull ∧ format ≠ FormatStandard ∧
                format ≠ FormatCompact)) →
            ParseRegion region format =
              { Country := normalisedField (stringsSplit region '|')[0]?,
                Region := normalisedField (stringsSplit region '|')[1]?,
                Province := normalisedField (stringsSplit region '|')[2]?,
                City := normalisedField (stringsSplit region '|')[3]?,
                ISP := normalisedField (stringsSplit region '|')[4]?,
                District := "" }) ∧
          ((format = FormatOpenSource ∨ format = FormatCompact) →
            ParseRegion region format =
              { Country := normalisedField (stringsSplit region '|')[0]?,
                Province := normalisedField (stringsSplit region '|')[1]?,
                City := normalisedField (stringsSplit region '|')[2]?,
                ISP := normalisedField (stringsSplit region '|')[3]?,
                Region := "", District := "" }) ∧
          (format = FormatFull →
            ParseRegion region format =
              { Region := normalisedField (stringsSplit region '|')[0]?,
                Country := normalisedField (stringsSplit region '|')[1]?,
                Province := normalisedField (stringsSplit region '|')[2]?,
                City := normalisedField (stringsSplit region '|')[3]?,
                District := normalisedField (stringsSplit region '|')[4]?,
                ISP := normalisedField (stringsSplit region '|')[5]? }) ∧
          (format = FormatStandard →
            ParseRegion region format =
              { Country := normalisedField (stringsSplit region '|')[0]?,
                Province := normalisedField (stringsSplit region '|')[1]?,
                City := normalisedField (stringsSplit region '|')[2]?,
                District := normalisedField (stringsSplit region '|')[3]?,
                ISP := normalisedField (stringsSplit region '|')[4]?,
                Region := "" })) ∧
        (stringsContains last "内网IP" = true →
          (ParseRegion region format).Country = "内网" ∧
          (ParseRegion region format).Province = "内网" ∧
          (ParseRegion region format).City = "内网" ∧
          (ParseRegion region format).ISP = "" ∧
          (ParseRegion region format).Region = "" ∧
          (format = FormatFull →
            (ParseRegion region format).District =
              normalisedField (stringsSplit region '|')[4]?) ∧
          (format = FormatStandard →
            (ParseRegion region format).District =
              normalisedField (stringsSplit region '|')[3]?) ∧
          (format ≠ FormatFull → format ≠ FormatStandard →
            (ParseRegion region format).District = ""))) := by
  refine ⟨by simp [ParseRegion], ?_⟩
  intro hne
  obtain ⟨last, hlast⟩ := stringsSplit_getLast region '|'
  refine ⟨last, hlast, ?_, ?_⟩
  · intro hm
    have hpos : ParseRegion region format =
        ParseRegion.positional (stringsSplit region '|') format :=
      ParseRegion_eq_positional region format hne (fun l hl => by
        rw [hlast] at hl
        cases hl
        exact hm)
    rw [hpos]
    refine ⟨?_, ?_, ?_, ?_⟩
    · rintro (rfl | ⟨h1, h2, h3, h4⟩)
      · rw [positional_legacy]
        simp only [getField_eq_normalisedField]
      · rw [positional_other _ _ h1 h2 h3 h4]
        simp only [getField_eq_normalisedField]
    · rintro (rfl | rfl)
      · rw [positional_opensource]
        simp only [getField_eq_normalisedField]
      · rw [positional_compact]
        simp only [getField_eq_normalisedField]
    · rintro rfl
      rw [positional_full]
      simp only [getField_eq_normalisedField]
    · rintro rfl
      rw [positional_standard]
      simp only [getField_eq_normalisedField]
  · intro hm
    rw [ParseRegion_eq_override region format hne last hlast hm]
    refine ⟨rfl, rfl, rfl, rfl, rfl, ?_, ?_, ?_⟩
    · rintro rfl
      rw [positional_full]
      simp only [getField_eq_normalisedField]
    · rintro rfl
      rw [positional_standard]
      simp only [getField_eq_normalisedField]
    · intro hf hs
      by_cases h1 : format = FormatLegacy
      · subst h1
        rw [positional_legacy]
      · by_cases h2 : format = FormatOpenSource
        · subst h2
          rw [positional_opensource]
        · by_cases h3 : format = FormatCompact
          · subst h3
            rw [positional_compact]
          · rw [positional_other _ _ h2 hf hs h3]

/-! ## `IPEquals` -/

theorem Equal_same_length (x y : List Nat) (h : x.length = y.length) :
    IP.Equal x y = (x == y) := by
  unfold IP.Equal
  simp [h]

theorem IPEquals_parsed (a b : String) (x y : List Nat) (ha : ParseIP a = some x)
    (hb : ParseIP b = some y) : IPEquals a b = (x == y) := by
  unfold IPEquals
  rw [ha, hb]
  exact Equal_same_length x y
    ((ParseIP_length a x ha).1.trans (ParseIP_length b y hb).1.symm)

theorem IPEquals_unparsed_left (a b : String) (ha : ParseIP a = none) :
    IPEquals a b = (a == b) := by
  unfold IPEquals
  rw [ha]

theorem IPEquals_unparsed_right (a b : String) (hb : ParseIP b = none) :
    IPEquals a b = (a == b) := by
  unfold IPEquals
  rw [hb]
  cases ParseIP a <;> simp

/-- C27: on all strings, parsable or not, `IPEquals` is reflexive, symmetric
and transitive; a dotted-quad IPv4 address and its IPv4-mapped IPv6 spelling
`::ffff:a.b.c.d` are equal under it, in both orders. -/
theorem IPEquals_equivalence (a b c : String) :
    IPEquals a a = true ∧
    IPEquals a b = IPEquals b a ∧
    (IPEquals a b = true → IPEquals b c = true → IPEquals a c = true) ∧
    (∀ q, parseIPv4Fields a.data = some q →
      IPEquals a ("::ffff:" ++ a) = true ∧ IPEquals ("::ffff:" ++ a) a = true) := by
  refine ⟨?_, ?_, ?_, ?_⟩
  · cases ha : ParseIP a with
    | none => rw [IPEquals_unparsed_left a a ha]; simp
    | some x => rw [IPEquals_parsed a a x x ha ha]; simp
  · cases ha : ParseIP a with
    | none =>
      rw [IPEquals_unparsed_left a b ha, IPEquals_unparsed_right b a ha, Bool.eq_iff_iff]
      simp only [beq_iff_eq]
      exact eq_comm
    | some x =>
      cases hb : ParseIP b with
      | none =>
        rw [IPEquals_unparsed_right a b hb, IPEquals_unparsed_left b a hb, Bool.eq_iff_iff]
        simp only [beq_iff_eq]
        exact eq_comm
      | some y =>
        rw [IPEquals_parsed a b x y ha hb, IPEquals_parsed b a y x hb ha, Bool.eq_iff_iff]
        simp only [beq_iff_eq]
        exact eq_comm
  · intro hab hbc
    cases hb : ParseIP b with
    | none =>
      rw [IPEquals_unparsed_right a b hb] at hab
      rw [IPEquals_unparsed_left b c hb] at hbc
      have e1 : a = b := eq_of_beq hab
      have e2 : b = c := eq_of_beq hbc
      rw [e1, e2, IPEquals_unparsed_left c c (by rw [← e2]; exact hb)]
      simp
    | some y =>
      cases ha : ParseIP a with
      | none =>
        rw [IPEquals_unparsed_left a b ha] at hab
        have e1 : a = b := eq_of_beq hab
        rw [e1, hb] at ha
        cases ha
      | some x =>
        cases hc : ParseIP c with
        | none =>
          rw [IPEquals_unparsed_right b c hc] at hbc
          have e2 : b = c := eq_of_beq hbc
          rw [e2, hc] at hb
          cases hb
        | some z =>
          rw [IPEquals_parsed a b x y ha hb] at hab
          rw [IPEquals_parsed b c y z hb hc] at hbc
          rw [IPEquals_parsed a c x z ha hc]
          have e1 : x = y := eq_of_beq hab
          have e2 : y = z := eq_of_beq hbc
          simp [e1, e2]
  · intro q hq
    have h1 := ParseIP_of_parseIPv4Fields a q hq
    have h2 : ParseIP ("::ffff:" ++ a) = some (v4InV6Prefix ++ q) := by
      rw [ParseIP_mapped a q hq, h1]
    constructor
    · rw [IPEquals_parsed _ _ _ _ h1 h2]; simp
    · rw [IPEquals_parsed _ _ _ _ h2 h1]; simp

/-! ## The legacy round trip of `ParseRegion` and `ToSlice` -/

theorem splitChars_no_sep (sep : Char) (a : List Char) (h : sep ∉ a) :
    splitChars sep a = [a] := by
  induction a with
  | nil => rfl
  | cons c a ih =>
    have hc : (c == sep) = false := by
      rw [beq_eq_false_iff_ne]
      intro e
      exact h (by simp [e])
    have ha : sep ∉ a := fun hm => h (List.mem_cons_of_mem _ hm)
    simp [splitChars, hc, ih ha]

theorem splitChars_append_sep (sep : Char) (a rest : List Char) (h : sep ∉ a) :
    splitChars sep (a ++ sep :: rest) = a :: splitChars sep rest := by
  induction a with
  | nil => simp [splitChars]
  | cons c a ih =>
    have hc : (c == sep) = false := by
      rw [beq_eq_false_iff_ne]
      intro e
      exact h (by simp [e])
    have ha : sep ∉ a := fun hm => h (List.mem_cons_of_mem _ hm)
    simp [splitChars, hc, ih ha]

theorem trimRight_eq_self (l : List Char)
    (h : ∀ c, l.getLast? = some c → isSpace c = false) : trimRight l = l := by
  induction l with
  | nil => rfl
  | cons c s ih =>
    cases s with
    | nil =>
      have hc : isSpace c = false := h c rfl
      simp [trimRight, hc]
    | cons d s =>
      have hs : trimRight (d :: s) = d :: s := by
        apply ih
        intro x hx
        apply h x
        rw [List.getLast?_cons_cons]
        exact hx
      rw [trimRight, hs]

theorem TrimSpace_eq_self (f : String)
    (hhead : ∀ c, f.data.head? = some c → isSpace c = false)
    (hlast : ∀ c, f.data.getLast? = some c → isSpace c = false) : TrimSpace f = f := by
  unfold TrimSpace
  have h1 : f.data.dropWhile isSpace = f.data := by
    cases hd : f.data with
    | nil => rfl
    | cons c s =>
      have hc : isSpace c = false := hhead c (by rw [hd]; rfl)
      simp [List.dropWhile, hc]
  rw [h1, trimRight_eq_self _ hlast]

/-- C28: for every list of exactly five fields, each non-empty, different
from "0", without "|", without a white-space character at its start or at its
end, and with the fifth not containing "内网IP":
`ParseRegion(fields joined with "|", FormatLegacy).ToSlice()` is the list. -/
theorem legacy_round_trip (fields : List String) (hlen : fields.length = 5)
    (hf : ∀ f ∈ fields, f ≠ "" ∧ f ≠ "0" ∧ '|' ∉ f.data ∧
      (∀ c, f.data.head? = some c → isSpace c = false) ∧
      (∀ c, f.data.getLast? = some c → isSpace c = false))
    (hlast : ∀ f, fields[4]? = some f → stringsContains f "内网IP" = false) :
    (ParseRegion ("|".intercalate fields) FormatLegacy).ToSlice = fields := by
  match fields, hlen with
  | [f0, f1, f2, f3, f4], _ =>
    have h0 := hf f0 (by simp)
    have h1 := hf f1 (by simp)
    have h2 := hf f2 (by simp)
    have h3 := hf f3 (by simp)
    have h4 := hf f4 (by simp)
    have hjoin : "|".intercalate [f0, f1, f2, f3, f4] =
        ⟨f0.data ++ '|' :: (f1.data ++ '|' :: (f2.data ++ '|' :: (f3.data ++ '|' :: f4.data)))⟩ := by
      apply String.ext
      simp [String.intercalate, String.intercalate.go, String.data_append]
    have hsplit : stringsSplit ("|".intercalate [f0, f1, f2, f3, f4]) '|' =
        [f0, f1, f2, f3, f4] := by
      rw [hjoin]
      unfold stringsSplit
      simp only []
      rw [splitChars_append_sep _ _ _ h0.2.2.1, splitChars_append_sep _ _ _ h1.2.2.1,
        splitChars_append_sep _ _ _ h2.2.2.1, splitChars_append_sep _ _ _ h3.2.2.1,
        splitChars_no_sep _ _ h4.2.2.1]
      rfl
    have hne : "|".intercalate [f0, f1, f2, f3, f4] ≠ "" := by
      rw [hjoin]
      intro e
      have e2 : f0.data ++ '|' :: (f1.data ++ '|' :: (f2.data ++ '|' :: (f3.data ++ '|' :: f4.data)))
          = [] := congrArg String.data e
      cases hd : f0.data with
      | nil => exact h0.1 (String.ext hd)
      | cons c s => rw [hd] at e2; cases e2
    have hclean : ∀ f ∈ [f0, f1, f2, f3, f4], f ≠ "" ∧ f ≠ "0" ∧ TrimSpace f = f := by
      intro f hm
      obtain ⟨a, b, _, c, d⟩ := hf f hm
      exact ⟨a, b, TrimSpace_eq_self f c d⟩
    rw [ParseRegion_eq_positional _ _ hne, hsplit, positional_legacy]
    · simp only [IPLocationResult.ToSlice, getField_clean _ _ hclean]
      rfl
    · intro last hl
      rw [hsplit] at hl
      apply hlast
      simp only [List.getLast?_cons_cons, List.getLast?_singleton] at hl
      cases hl
      rfl

theorem legacy_round_trip_witness :
    (ParseRegion "中国|华东|浙江省|杭州市|电信" FormatLegacy).ToSlice =
      ["中国", "华东", "浙江省", "杭州市", "电信"] ∧
    "|".intercalate ["中国", "华东", "浙江省", "杭州市", "电信"] = "中国|华东|浙江省|杭州市|电信" :=
  ⟨legacy_round_trip ["中国", "华东", "浙江省", "杭州市", "电信"] rfl (by decide)
     (by decide), by decide⟩

/-- Evaluations of `IPEquals`: the two spellings of an IPv4 address, two
unparsable strings, two different addresses, and the two spellings of an IPv6
address. -/
theorem IPEquals_examples :
    IPEquals "1.2.3.4" "::ffff:1.2.3.4" = true ∧
    IPEquals "not-an-ip" "not-an-ip" = true ∧
    IPEquals "not-an-ip" "1.2.3.4" = false ∧
    IPEquals "1.2.3.4" "1.2.3.5" = false ∧
    IPEquals "2001:db8::1" "2001:0db8:0:0:0:0:0:1" = true := by
  decide

/-! ## The decision to redirect to HTTPS -/

theorem hasSuffixChars_iff (s suffix : List Char) :
    hasSuffixChars s suffix = true ↔ suffix <:+ s := by
  unfold hasSuffixChars
  rw [beq_iff_eq, List.suffix_iff_eq_drop]
  exact eq_comm

/-- The wildcard rule: the configured host is `*.` followed by a suffix, and
the host is a non-empty text, a `.`, and the suffix. -/
theorem wildcardMatch_iff (host configHost : List Char) :
    wildcardMatch host configHost = true ↔
      ∃ label suffix, label ≠ [] ∧ configHost = '*' :: '.' :: suffix ∧
        host = label ++ '.' :: suffix := by
  constructor
  · intro h
    unfold wildcardMatch at h
    split at h
    · rename_i suffix
      rw [Bool.and_eq_true, decide_eq_true_eq, hasSuffixChars_iff] at h
      obtain ⟨hlen, label, hl⟩ := h
      refine ⟨label, suffix, ?_, rfl, hl.symm⟩
      intro e
      subst e
      rw [← hl] at hlen
      simp at hlen
    · cases h
  · rintro ⟨label, suffix, hne, rfl, rfl⟩
    simp only [wildcardMatch, Bool.and_eq_true, decide_eq_true_eq, hasSuffixChars_iff]
    refine ⟨?_, label, rfl⟩
    have : 0 < label.length := List.length_pos.2 hne
    simp only [List.length_append, List.length_cons]
    omega

/-- The decision for a request host that carries a port. -/
theorem shouldAutoJumpHTTPS_with_port (host port configHost requestURL : String)
    (autoJumpHTTPS ssl : Int) (h1 : autoJumpHTTPS ≠ 0) (h2 : ssl ≠ 0)
    (hpath : hasPrefixChars requestURL.data GSSL_HTTP_CHANGLE_PATH.data = false)
    (hhost : ':' ∉ host.data) (hport : port ≠ "") (h443 : port ≠ "443") :
    shouldAutoJumpHTTPS (host ++ ":" ++ port) configHost requestURL autoJumpHTTPS ssl =
      if (host ++ ":" ++ port == configHost || host == configHost ||
          wildcardMatch host.data configHost.data) = true then (true, host)
      else (false, "") := by
  have hd : (host ++ ":" ++ port).data = host.data ++ ':' :: port.data := by
    simp [String.data_append]
  obtain ⟨t1, t2, -⟩ := takeWhile_append_sep ':' host.data port.data
    (fun c hc e => hhost (e ▸ hc))
  have hp1 : (port.data == []) = false := by
    rw [beq_eq_false_iff_ne]
    intro e
    exact hport (String.ext e)
  have hp2 : (port.data == "443".data) = false := by
    rw [beq_eq_false_iff_ne]
    intro e
    exact h443 (String.ext e)
  unfold shouldAutoJumpHTTPS
  have hf : (autoJumpHTTPS == 0 || ssl == 0) = false := by simp [h1, h2]
  rw [hf, hpath]
  simp only [Bool.false_eq_true, if_false, hd, t1, t2, hp1, hp2, Bool.or_self]

/-- C24: with both flags set, a path outside the ACME-challenge prefix and a
request host `host:port` whose port is present and is not 443,
`shouldAutoJumpHTTPS` redirects exactly when the request host, with or without
its port, is the configured host, or the configured host is `*.suffix` and
the port-stripped host is a non-empty label text, a `.`, and `suffix`. The
wildcard rule does not match the bare root domain (`host = suffix`), nor a
host that ends with the suffix text without a `.` before it. When the call
redirects, the returned domain is the request host without its port. A
request host without a port, and one with the port 443, never redirect. -/
theorem shouldAutoJumpHTTPS_spec (host port configHost requestURL : String)
    (autoJumpHTTPS ssl : Int) (h1 : autoJumpHTTPS ≠ 0) (h2 : ssl ≠ 0)
    (hpath : hasPrefixChars requestURL.data GSSL_HTTP_CHANGLE_PATH.data = false)
    (hhost : ':' ∉ host.data) (hport : port ≠ "") (h443 : port ≠ "443") :
    ((shouldAutoJumpHTTPS (host ++ ":" ++ port) configHost requestURL autoJumpHTTPS ssl).1 = true ↔
      (host ++ ":" ++ port = configHost ∨ host = configHost ∨
        ∃ label suffix : String, label ≠ "" ∧ configHost = "*." ++ suffix ∧
          host = label ++ "." ++ suffix)) ∧
    (∀ suffix : String, configHost = "*." ++ suffix → host = suffix →
      (shouldAutoJumpHTTPS (host ++ ":" ++ port) configHost requestURL autoJumpHTTPS ssl) =
        (false, "")) ∧
    (∀ label suffix : String, configHost = "*." ++ suffix → host = label ++ suffix →
      label.data.getLast? ≠ some '.' →
      (shouldAutoJumpHTTPS (host ++ ":" ++ port) configHost requestURL autoJumpHTTPS ssl) =
        (false, "")) ∧
    ((shouldAutoJumpHTTPS (host ++ ":" ++ port) configHost requestURL autoJumpHTTPS ssl).1 = true →
      (shouldAutoJumpHTTPS (host ++ ":" ++ port) configHost requestURL autoJumpHTTPS ssl).2 =
        host) ∧
    (shouldAutoJumpHTTPS host configHost requestURL autoJumpHTTPS ssl = (false, "")) ∧
    (shouldAutoJumpHTTPS (host ++ ":443") configHost requestURL autoJumpHTTPS ssl =
      (false, "")) := by
  have hmain := shouldAutoJumpHTTPS_with_port host port configHost requestURL autoJumpHTTPS ssl
    h1 h2 hpath hhost hport h443
  have hf : (autoJumpHTTPS == 0 || ssl == 0) = false := by simp [h1, h2]
  have hiff : (host ++ ":" ++ port == configHost || host == configHost ||
        wildcardMatch host.data configHost.data) = true ↔
      (host ++ ":" ++ port = configHost ∨ host = configHost ∨
        ∃ label suffix : String, label ≠ "" ∧ configHost = "*." ++ suffix ∧
          host = label ++ "." ++ suffix) := by
    rw [Bool.or_eq_true, Bool.or_eq_true, beq_iff_eq, beq_iff_eq, wildcardMatch_iff, or_assoc]
    apply or_congr Iff.rfl
    apply or_congr Iff.rfl
    constructor
    · rintro ⟨label, suffix, hne, hc, hh⟩
      refine ⟨⟨label⟩, ⟨suffix⟩, ?_, ?_, ?_⟩
      · intro e
        exact hne (congrArg String.data e)
      · apply String.ext
        rw [hc]
        simp [String.data_append]
      · apply String.ext
        rw [hh]
        simp [String.data_append]
    · rintro ⟨label, suffix, hne, hc, hh⟩
      refine ⟨label.data, suffix.data, ?_, ?_, ?_⟩
      · intro e
        exact hne (String.ext e)
      · rw [hc]
        simp [String.data_append]
      · rw [hh]
        simp [String.data_append]
  have hcolon : ':' ∈ (host ++ ":" ++ port).data := by
    simp [String.data_append]
  have hno : ∀ suffix : String, configHost = "*." ++ suffix → (∀ c ∈ suffix.data, c ∈ host.data) →
      host ++ ":" ++ port ≠ configHost := by
    intro suffix hc hsub e
    rw [e, hc] at hcolon
    simp only [String.data_append, List.mem_append] at hcolon
    rcases hcolon with hstar | hs
    · revert hstar
      decide
    · exact hhost (hsub _ hs)
  refine ⟨?_, ?_, ?_, ?_, ?_, ?_⟩
  · rw [hmain, ← hiff]
    split <;> simp_all
  · intro suffix hc hh
    rw [hmain, if_neg]
    rw [hiff]
    rintro (e | e | ⟨label, suffix2, hne, hc2, hh2⟩)
    · exact hno suffix hc (fun c hm => hh ▸ hm) e
    · rw [hc, hh] at e
      have := congrArg String.length e
      simp [String.length_append] at this
      exact absurd this (by decide)
    · rw [hc] at hc2
      have e3 : suffix = suffix2 := by
        apply String.ext
        have := congrArg String.data hc2
        simpa [String.data_append] using this
      subst e3
      rw [hh] at hh2
      have := congrArg String.length hh2
      simp [String.length_append] at this
      exact absurd this.2 (by decide)
  · intro label suffix hc hh hlab
    rw [hmain, if_neg]
    rw [hiff]
    rintro (e | e | ⟨label2, suffix2, hne, hc2, hh2⟩)
    · refine hno suffix hc (fun c hm => ?_) e
      rw [hh, String.data_append]
      exact List.mem_append_right _ hm
    · rw [hc, hh] at e
      have e2 := congrArg String.data e
      simp only [String.data_append] at e2
      have e3 := List.append_cancel_right e2
      rw [e3] at hlab
      exact hlab (by decide)
    · rw [hc] at hc2
      have e3 : suffix = suffix2 := by
        apply String.ext
        have := congrArg String.data hc2
        simpa [String.data_append] using this
      subst e3
      rw [hh] at hh2
      have e2 := congrArg String.data hh2
      simp only [String.data_append] at e2
      have e4 : label.data ++ suffix.data = (label2.data ++ ".".data) ++ suffix.data := e2
      have e5 : label.data = label2.data ++ ".".data := List.append_cancel_right e4
      rw [e5] at hlab
      exact hlab (by simp)
  · rw [hmain]
    split <;> simp
  · unfold shouldAutoJumpHTTPS
    rw [hf, hpath]
    have hd : host.data.dropWhile (· != ':') = [] := by
      rw [List.dropWhile_eq_nil_iff]
      intro c hc
      simp only [bne_iff_ne, ne_eq]
      intro e
      exact hhost (e ▸ hc)
    simp [hd]
  · have hd : (host ++ ":443").data = host.data ++ ':' :: "443".data := by
      simp [String.data_append]
    obtain ⟨t1, t2, -⟩ := takeWhile_append_sep ':' host.data "443".data
      (fun c hc e => hhost (e ▸ hc))
    unfold shouldAutoJumpHTTPS
    rw [hf, hpath]
    simp [hd, t1, t2]

theorem shouldAutoJumpHTTPS_spec_witness :
    shouldAutoJumpHTTPS "aaa.samwaf.com:80" "*.samwaf.com" "/test" 1 1 =
      (true, "aaa.samwaf.com") ∧
    shouldAutoJumpHTTPS "example.com:8080" "example.com:8080" "/test" 1 1 =
      (true, "example.com") ∧
    shouldAutoJumpHTTPS "example.com:80" "example.com" "" 1 1 = (true, "example.com") ∧
    shouldAutoJumpHTTPS "samwaf.com:80" "*.samwaf.com" "/test" 1 1 = (false, "") ∧
    shouldAutoJumpHTTPS "aaasamwaf.com:80" "*.samwaf.com" "/test" 1 1 = (false, "") ∧
    shouldAutoJumpHTTPS "example.com" "example.com" "/test" 1 1 = (false, "") ∧
    shouldAutoJumpHTTPS "example.com:443" "example.com" "/test" 1 1 = (false, "") ∧
    shouldAutoJumpHTTPS "example.com:80" "example.com" "/.well-known/acme-challenge/x" 1 1 =
      (false, "") ∧
    shouldAutoJumpHTTPS "example.com:80" "example.com" "/test" 0 1 = (false, "") :=
  ⟨Prod.ext
     ((shouldAutoJumpHTTPS_spec "aaa.samwaf.com" "80" "*.samwaf.com" "/test" 1 1 (by decide)
        (by decide) (by decide) (by decide) (by decide) (by decide)).1.2
        (Or.inr (Or.inr ⟨"aaa", "samwaf.com", by decide, by decide, by decide⟩)))
     (by decide),
   by decide, by decide, by decide, by decide, by decide, by decide, by decide, by decide⟩

/-! ## Rule helper: panics of the rule engine -/

/-- C21, what the code does: `LoadRules` and `Match` have a deferred
`recover` and return normally when the builder or the engine panics
(`LoadRules` returns the empty text, `Match` returns no rule and no error).
`Exec` and `CheckRuleAvailable` have none: when `engine.Execute` panics, the
panic is the outcome of `Exec`; when the build of the rule text panics, or the
build succeeds and `FetchMatchingRules` panics, the panic is the outcome of
`CheckRuleAvailable`. -/
theorem Exec_and_CheckRuleAvailable_propagate_panic (ast : Ast) (h : RuleHelper)
    (key : String) (ruleinfo : Option WAF_REQUEST_FULL) (newBuilder : RuleBuilder)
    (newEngine : GruleEngine) (ruleText : String)
    (hexec : ∀ ctx, h.engine.Execute ctx h.KnowledgeBase = Outcome.panic)
    (hbuild : (newBuilder.BuildRuleFromResource { Library := [] } "CheckRule" "0.0.1"
      ruleText).2 = Outcome.panic) :
    h.Exec key ruleinfo = Outcome.panic ∧
    RuleHelper.CheckRuleAvailable ast newBuilder newEngine ruleText = Outcome.panic ∧
    (∀ (okBuilder : RuleBuilder) (lib : KnowledgeLibrary),
      okBuilder.BuildRuleFromResource { Library := [] } "CheckRule" "0.0.1" ruleText =
        (lib, Outcome.ok none) →
      (∀ ctx kb, newEngine.FetchMatchingRules ctx kb = Outcome.panic) →
      RuleHelper.CheckRuleAvailable ast okBuilder newEngine ruleText = Outcome.panic) ∧
    (∀ (cfg : List Rules) (lib lib2 : KnowledgeLibrary), h.knowledgeLibrary = some lib →
      h.ruleBuilder.BuildRuleFromResource (clearRuleEntries ast lib) "Region" "0.0.1"
        (concatRules cfg) = (lib2, Outcome.panic) →
      h.LoadRules ast cfg = ({ h with knowledgeLibrary := some lib2 }, "")) ∧
    (∀ (w : Option WebLog) (kb : KnowledgeBase), h.KnowledgeBase = some kb →
      (∀ ctx, h.engine.FetchMatchingRules ctx (some kb) = Outcome.panic) →
      h.Match key w = ([], none)) := by
  refine ⟨?_, ?_, ?_, ?_, ?_⟩
  · unfold RuleHelper.Exec
    simp only [hexec]
  · unfold RuleHelper.CheckRuleAvailable
    simp only [NewDataContext, DataContext.Add]
    revert hbuild
    cases newBuilder.BuildRuleFromResource { Library := [] } "CheckRule" "0.0.1" ruleText with
    | mk l o =>
      intro hbuild
      simp only at hbuild
      subst hbuild
      rfl
  · intro okBuilder lib hok hpanic
    unfold RuleHelper.CheckRuleAvailable
    simp only [NewDataContext, DataContext.Add, hok, hpanic]
    cases ast.NewKnowledgeBaseInstance lib "CheckRule" "0.0.1" <;> rfl
  · intro cfg lib lib2 hlib hb
    simp [RuleHelper.LoadRules, hlib, hb]
  · intro w kb hkb hp
    simp [RuleHelper.Match, hkb, hp]

theorem Exec_and_CheckRuleAvailable_propagate_panic_witness :
    ({ sampleHelper with engine := panickingEngine }).Exec "MF" (some {}) = Outcome.panic ∧
    RuleHelper.CheckRuleAvailable sampleAst panickingBuilder sampleEngine "rule R {}" =
      Outcome.panic ∧
    RuleHelper.CheckRuleAvailable sampleAst sampleBuilder panickingEngine "rule R {}" =
      Outcome.panic ∧
    RuleHelper.CheckRuleAvailable sampleAst sampleBuilder sampleEngine "rule R {}" =
      Outcome.ok none ∧
    sampleHelper.Exec "MF" (some {}) = Outcome.ok none ∧
    ({ sampleHelper with engine := panickingEngine }).Match "MF" (some { SRC_IP := "127.0.0.1" }) =
      ([], none) ∧
    (({ sampleHelper with ruleBuilder := panickingBuilder }).LoadRules sampleAst
      [{ RuleContent := "rule R {}", RuleStatus := 1 }]).2 = "" :=
  ⟨(Exec_and_CheckRuleAvailable_propagate_panic sampleAst
      { sampleHelper with engine := panickingEngine }
      "MF" (some {}) panickingBuilder sampleEngine "rule R {}" (fun _ => rfl) rfl).1,
   (Exec_and_CheckRuleAvailable_propagate_panic sampleAst
      { sampleHelper with engine := panickingEngine }
      "MF" (some {}) panickingBuilder sampleEngine "rule R {}" (fun _ => rfl) rfl).2.1,
   by decide, by decide, by decide, by decide, by decide⟩

end SamWaf
